import Mathlib

/-!
Verification of the storage-engine core of the bustub-lab repository:
LRU-K replacer, extendible hash table, buffer pool manager, and B+tree
index, shallowly embedded from the C++ sources.
-/

set_option maxRecDepth 4000
set_option maxHeartbeats 4000000

namespace LRUK

/-- The sentinel `std::numeric_limits<size_t>::max()` used by
`LRUKReplacer::Evict` as the +infinity K-distance and as the initial
earliest-timestamp accumulator (`lru_k_replacer.cpp`). -/
def USIZE_MAX : Nat := 2 ^ 64 - 1

/-- Per-frame record of `LRUKReplacer`: the access-timestamp history
(oldest first, at most `k` entries) and the evictable flag.
Modelled from the spec: the `FrameInfo` default constructor (declared in
the missing header `lru_k_replacer.h`) starts with an empty history and
`evictable = false` ("if the frame is unknown, create its record with
`evictable = false`"). -/
structure FrameInfo where
  history : List Nat
  isEvictable : Bool
deriving DecidableEq, Repr

/-- State of `LRUKReplacer` (`lru_k_replacer.cpp`): the frame table is an
association list keyed by frame id (the C++ `std::unordered_map`),
plus the monotone timestamp counter, the count of evictable frames,
the pool-size bound and the parameter K. -/
structure Replacer where
  frameTable : List (Nat × FrameInfo)
  currentTimestamp : Nat
  currSize : Nat
  replacerSize : Nat
  k : Nat
deriving DecidableEq, Repr

/-- `LRUKReplacer::LRUKReplacer(num_frames, k)`. -/
def init (numFrames k : Nat) : Replacer :=
  { frameTable := [], currentTimestamp := 0, currSize := 0,
    replacerSize := numFrames, k := k }

/-- Association-list lookup, mirroring `frame_table_.find(frame_id)`. -/
def lookupFrame (table : List (Nat × FrameInfo)) (fid : Nat) : Option FrameInfo :=
  match table with
  | [] => none
  | e :: rest => if e.1 = fid then some e.2 else lookupFrame rest fid

/-- Replace the entry for `fid` in the table (the C++ writes through the
`unordered_map` reference). -/
def updateFrame (table : List (Nat × FrameInfo)) (fid : Nat) (info : FrameInfo) :
    List (Nat × FrameInfo) :=
  match table with
  | [] => []
  | e :: rest => if e.1 = fid then (fid, info) :: rest else e :: updateFrame rest fid info

/-- `LRUKReplacer::RecordAccess(frame_id)`: reject ids above the bound
(the source compares with `>`, not `>=`), bump the timestamp, create the
record if absent, append the timestamp, and keep only the K most recent
entries. -/
def recordAccess (r : Replacer) (fid : Nat) : Replacer :=
  if fid > r.replacerSize then r
  else
    let ts := r.currentTimestamp + 1
    let table₀ := match lookupFrame r.frameTable fid with
      | some _ => r.frameTable
      | none => r.frameTable ++ [(fid, ⟨[], false⟩)]
    let info := (lookupFrame table₀ fid).getD ⟨[], false⟩
    let hist₁ := info.history ++ [ts]
    let hist₂ := if hist₁.length > r.k then hist₁.tail else hist₁
    { r with
      currentTimestamp := ts,
      frameTable := updateFrame table₀ fid ⟨hist₂, info.isEvictable⟩ }

/-- `LRUKReplacer::SetEvictable(frame_id, set_evictable)`. -/
def setEvictable (r : Replacer) (fid : Nat) (flag : Bool) : Replacer :=
  match lookupFrame r.frameTable fid with
  | none => r
  | some info =>
    let size' :=
      if info.isEvictable && !flag then r.currSize - 1
      else if !info.isEvictable && flag then r.currSize + 1
      else r.currSize
    { r with currSize := size',
             frameTable := updateFrame r.frameTable fid ⟨info.history, flag⟩ }

/-- `LRUKReplacer::Remove(frame_id)`: drop an evictable frame; unknown or
non-evictable frames are left in place. -/
def removeFrame (r : Replacer) (fid : Nat) : Replacer :=
  match lookupFrame r.frameTable fid with
  | none => r
  | some info =>
    if !info.isEvictable then r
    else { r with frameTable := r.frameTable.filter (fun e => e.1 ≠ fid),
                  currSize := r.currSize - 1 }

/-- The K-distance computed inside `LRUKReplacer::Evict`: `USIZE_MAX` for
frames with fewer than K recorded accesses, else
`current_timestamp_ - history_.front()`. -/
def kDistance (current k : Nat) (info : FrameInfo) : Nat :=
  if info.history.length < k then USIZE_MAX else current - info.history.headD 0

/-- The `frame_earliest` value of `LRUKReplacer::Evict`: in both branches
the source reads `history_.front()`. -/
def frameEarliest (info : FrameInfo) : Nat :=
  info.history.headD 0

/-- Accumulator of the selection loop in `LRUKReplacer::Evict`:
`candidate` (`-1` becomes `none`), `max_k_distance`, `earliest_timestamp`. -/
structure Scan where
  cand : Option Nat
  maxK : Nat
  earliest : Nat
deriving DecidableEq, Repr

/-- One iteration of the selection loop of `LRUKReplacer::Evict`. -/
def evictStep (current k : Nat) (acc : Scan) (e : Nat × FrameInfo) : Scan :=
  if !e.2.isEvictable then acc
  else
    let kd := kDistance current k e.2
    let fe := frameEarliest e.2
    if kd > acc.maxK ∨ (kd = acc.maxK ∧ fe < acc.earliest) then
      ⟨some e.1, kd, fe⟩
    else acc

/-- `LRUKReplacer::Evict`: scan every tracked frame and pick the evictable
frame with the largest K-distance, tie-broken by the smaller
`frame_earliest`; erase its record and decrement the size. -/
def evict (r : Replacer) : Option (Nat × Replacer) :=
  if r.currSize = 0 then none
  else
    match (r.frameTable.foldl (evictStep r.currentTimestamp r.k) ⟨none, 0, USIZE_MAX⟩).cand with
    | none => none
    | some fid =>
      some (fid, { r with frameTable := r.frameTable.filter (fun e => e.1 ≠ fid),
                          currSize := r.currSize - 1 })

/-- Fold `recordAccess` over an access sequence. -/
def recordAll (r : Replacer) (fids : List Nat) : Replacer :=
  fids.foldl recordAccess r

/-- Fold `setEvictable · true` over a list of frame ids. -/
def setAllEvictable (r : Replacer) (fids : List Nat) : Replacer :=
  fids.foldl (fun s fid => setEvictable s fid true) r

/-- The replacer of Scenario A: pool size 7, K = 2, access sequence
1,2,3,4,5,6,1,2,3,4,5,6, then all frames 1..7 marked evictable. -/
def scenarioA : Replacer :=
  setAllEvictable
    (recordAll (init 7 2) [1, 2, 3, 4, 5, 6, 1, 2, 3, 4, 5, 6])
    [1, 2, 3, 4, 5, 6, 7]

/-- Sanity bounds used by the eviction analysis: every tracked frame has a
non-empty history of timestamps drawn from the counter. -/
def okFrame (current : Nat) (e : Nat × FrameInfo) : Prop :=
  e.2.history ≠ [] ∧ ∀ ts ∈ e.2.history, ts ≤ current

instance (current : Nat) (e : Nat × FrameInfo) : Decidable (okFrame current e) := by
  unfold okFrame; infer_instance

/-- Well-formedness of a replacer state, maintained by every operation:
the frame table is keyed uniquely, histories are non-empty and bounded by
the counter, the counter has not saturated `size_t`, and `curr_size_`
counts the evictable frames. -/
def WF (r : Replacer) : Prop :=
  (r.frameTable.map Prod.fst).Nodup ∧
  (∀ e ∈ r.frameTable, okFrame r.currentTimestamp e) ∧
  r.currentTimestamp < USIZE_MAX ∧
  r.currSize = (r.frameTable.filter (fun e => e.2.isEvictable)).length

instance (r : Replacer) : Decidable (WF r) := by
  unfold WF; infer_instance

/-- `s` dominates entry `e`: the selection condition of the loop would not
replace `s` by `e`. -/
def accDom (current k : Nat) (s : Scan) (e : Nat × FrameInfo) : Prop :=
  kDistance current k e.2 < s.maxK ∨
    (kDistance current k e.2 = s.maxK ∧ s.earliest ≤ frameEarliest e.2)

lemma evictStep_cases (current k : Nat) (s : Scan) (e : Nat × FrameInfo) :
    evictStep current k s e = s ∨
      (e.2.isEvictable = true ∧
        evictStep current k s e =
          ⟨some e.1, kDistance current k e.2, frameEarliest e.2⟩) := by
  cases hb : e.2.isEvictable with
  | false => left; simp [evictStep, hb]
  | true =>
    by_cases hc : kDistance current k e.2 > s.maxK ∨
        (kDistance current k e.2 = s.maxK ∧ frameEarliest e.2 < s.earliest)
    · right; exact ⟨rfl, by simp [evictStep, hb, hc]⟩
    · left; simp [evictStep, hb, hc]

lemma evictStep_mono (current k : Nat) (s : Scan) (e : Nat × FrameInfo) :
    s.maxK < (evictStep current k s e).maxK ∨
      (s.maxK = (evictStep current k s e).maxK ∧
        (evictStep current k s e).earliest ≤ s.earliest) := by
  cases hb : e.2.isEvictable with
  | false => right; simp [evictStep, hb]
  | true =>
    by_cases hc : kDistance current k e.2 > s.maxK ∨
        (kDistance current k e.2 = s.maxK ∧ frameEarliest e.2 < s.earliest)
    · have hstep : evictStep current k s e =
          ⟨some e.1, kDistance current k e.2, frameEarliest e.2⟩ := by
        simp [evictStep, hb, hc]
      rw [hstep]
      rcases hc with h | ⟨h1, h2⟩
      · left; exact h
      · right; exact ⟨h1.symm, le_of_lt h2⟩
    · have hstep : evictStep current k s e = s := by simp [evictStep, hb, hc]
      rw [hstep]; right; exact ⟨rfl, le_refl _⟩

lemma foldl_evictStep_mono (current k : Nat) (l : List (Nat × FrameInfo)) (s : Scan) :
    s.maxK < (l.foldl (evictStep current k) s).maxK ∨
      (s.maxK = (l.foldl (evictStep current k) s).maxK ∧
        (l.foldl (evictStep current k) s).earliest ≤ s.earliest) := by
  induction l generalizing s with
  | nil => right; simp
  | cons e rest ih =>
    simp only [List.foldl_cons]
    rcases evictStep_mono current k s e with h | ⟨h1, h2⟩
    · rcases ih (evictStep current k s e) with h' | ⟨h1', h2'⟩
      · left; exact lt_trans h h'
      · left; omega
    · rcases ih (evictStep current k s e) with h' | ⟨h1', h2'⟩
      · left; omega
      · right; omega

lemma accDom_mono (current k : Nat) (s s' : Scan) (e : Nat × FrameInfo)
    (hle : s.maxK < s'.maxK ∨ (s.maxK = s'.maxK ∧ s'.earliest ≤ s.earliest))
    (h : accDom current k s e) : accDom current k s' e := by
  unfold accDom at h ⊢; omega

lemma evictStep_dom_self (current k : Nat) (s : Scan) (e : Nat × FrameInfo)
    (hev : e.2.isEvictable = true) :
    accDom current k (evictStep current k s e) e := by
  by_cases hc : kDistance current k e.2 > s.maxK ∨
      (kDistance current k e.2 = s.maxK ∧ frameEarliest e.2 < s.earliest)
  · have hstep : evictStep current k s e =
        ⟨some e.1, kDistance current k e.2, frameEarliest e.2⟩ := by
      simp [evictStep, hev, hc]
    rw [hstep]
    right; exact ⟨rfl, le_refl _⟩
  · have hstep : evictStep current k s e = s := by simp [evictStep, hev, hc]
    rw [hstep]
    unfold accDom
    push_neg at hc
    omega

/-- After the scan, the accumulator dominates every evictable entry of the
list. -/
lemma foldl_evictStep_dom (current k : Nat) (l : List (Nat × FrameInfo)) (s : Scan) :
    ∀ e ∈ l, e.2.isEvictable = true →
      accDom current k (l.foldl (evictStep current k) s) e := by
  induction l generalizing s with
  | nil => intro e he; simp at he
  | cons x rest ih =>
    intro e he hev
    simp only [List.foldl_cons]
    rcases List.mem_cons.mp he with rfl | hmem
    · exact accDom_mono current k _ _ e
        (foldl_evictStep_mono current k rest (evictStep current k s e))
        (evictStep_dom_self current k s e hev)
    · exact ih (evictStep current k s x) e hmem hev

/-- The scan result either keeps the accumulator or records some evictable
entry of the list together with its K-distance and earliest timestamp. -/
lemma foldl_evictStep_sound (current k : Nat) (l : List (Nat × FrameInfo)) (s : Scan) :
    l.foldl (evictStep current k) s = s ∨
      ∃ e ∈ l, e.2.isEvictable = true ∧
        (l.foldl (evictStep current k) s).cand = some e.1 ∧
        (l.foldl (evictStep current k) s).maxK = kDistance current k e.2 ∧
        (l.foldl (evictStep current k) s).earliest = frameEarliest e.2 := by
  induction l generalizing s with
  | nil => left; rfl
  | cons x rest ih =>
    simp only [List.foldl_cons]
    rcases evictStep_cases current k s x with hkeep | ⟨hev, hnew⟩
    · rw [hkeep]
      rcases ih s with h | ⟨e, hmem, h⟩
      · left; exact h
      · right; exact ⟨e, List.mem_cons_of_mem x hmem, h⟩
    · rw [hnew]
      rcases ih ⟨some x.1, kDistance current k x.2, frameEarliest x.2⟩ with h | ⟨e, hmem, h⟩
      · right
        exact ⟨x, List.mem_cons_self x rest, hev, by rw [h], by rw [h], by rw [h]⟩
      · right; exact ⟨e, List.mem_cons_of_mem x hmem, h⟩

lemma evictStep_cand_none (current k : Nat) (s : Scan) (e : Nat × FrameInfo)
    (h : (evictStep current k s e).cand = none) : s.cand = none := by
  rcases evictStep_cases current k s e with hkeep | ⟨_, hnew⟩
  · rw [hkeep] at h; exact h
  · rw [hnew] at h; simp at h

lemma foldl_evictStep_cand_none (current k : Nat) (l : List (Nat × FrameInfo)) (s : Scan)
    (h : (l.foldl (evictStep current k) s).cand = none) : s.cand = none := by
  induction l generalizing s with
  | nil => exact h
  | cons x rest ih =>
    simp only [List.foldl_cons] at h
    exact evictStep_cand_none current k s x (ih (evictStep current k s x) h)

/-- An evictable, well-formed entry always takes a sentinel accumulator. -/
lemma evictStep_some_of_sentinel (current k : Nat) (e : Nat × FrameInfo)
    (hok : okFrame current e) (hcur : current < USIZE_MAX)
    (hev : e.2.isEvictable = true) (s : Scan)
    (hs : s.maxK = 0 ∧ s.earliest = USIZE_MAX) :
    (evictStep current k s e).cand ≠ none := by
  unfold evictStep
  simp only [hev, Bool.not_true, Bool.false_eq_true, if_false]
  have hfe : frameEarliest e.2 < USIZE_MAX := by
    obtain ⟨hne, hle⟩ := hok
    cases hh : e.2.history with
    | nil => exact absurd hh hne
    | cons t ts =>
      have : frameEarliest e.2 = t := by unfold frameEarliest; rw [hh]; rfl
      rw [this]
      exact lt_of_le_of_lt (hle t (by rw [hh]; exact List.mem_cons_self t ts)) hcur
  by_cases hc : kDistance current k e.2 > s.maxK ∨
      (kDistance current k e.2 = s.maxK ∧ frameEarliest e.2 < s.earliest)
  · simp [hc]
  · exfalso
    apply hc
    rcases Nat.eq_zero_or_pos (kDistance current k e.2) with hz | hp
    · right; exact ⟨by omega, by omega⟩
    · left; omega

/-- If the scan yields no candidate then no entry of the list was
evictable (for well-formed entries). -/
lemma foldl_evictStep_none (current k : Nat) (l : List (Nat × FrameInfo))
    (hok : ∀ e ∈ l, okFrame current e) (hcur : current < USIZE_MAX) (s : Scan)
    (hs : s.cand = none → s.maxK = 0 ∧ s.earliest = USIZE_MAX)
    (h : (l.foldl (evictStep current k) s).cand = none) :
    ∀ e ∈ l, e.2.isEvictable = false := by
  induction l generalizing s with
  | nil => intro e he; simp at he
  | cons x rest ih =>
    intro e he
    simp only [List.foldl_cons] at h
    have hxnone : (evictStep current k s x).cand = none :=
      foldl_evictStep_cand_none current k rest _ h
    have hsnone : s.cand = none := evictStep_cand_none current k s x hxnone
    have hxev : x.2.isEvictable = false := by
      by_contra hx
      have hx' : x.2.isEvictable = true := by
        cases hb : x.2.isEvictable
        · exact absurd hb hx
        · rfl
      exact evictStep_some_of_sentinel current k x
        (hok x (List.mem_cons_self x rest)) hcur hx' s (hs hsnone) hxnone
    rcases List.mem_cons.mp he with rfl | hmem
    · exact hxev
    · refine ih (fun e' he' => hok e' (List.mem_cons_of_mem x he'))
        (evictStep current k s x) ?_ h e hmem
      intro hnone
      rcases evictStep_cases current k s x with hkeep | ⟨_, hnew⟩
      · rw [hkeep]; rw [hkeep] at hnone; exact hs hnone
      · rw [hnew] at hnone; simp at hnone

/-- C3: for every well-formed replacer state, `Evict` returns nothing
exactly when no evictable frame exists; otherwise it selects an evictable
frame whose K-distance is maximal among evictable frames, breaking ties by
the smallest retained-oldest timestamp, and drops that frame's record. -/
theorem evict_selects_max_kdistance (r : Replacer) (h : WF r) :
    (evict r = none ↔ ∀ e ∈ r.frameTable, e.2.isEvictable = false) ∧
    (∀ fid r', evict r = some (fid, r') →
      ∃ info, (fid, info) ∈ r.frameTable ∧ info.isEvictable = true ∧
        (∀ e ∈ r.frameTable, e.2.isEvictable = true →
          kDistance r.currentTimestamp r.k e.2 <
              kDistance r.currentTimestamp r.k info ∨
            (kDistance r.currentTimestamp r.k e.2 =
                kDistance r.currentTimestamp r.k info ∧
              frameEarliest info ≤ frameEarliest e.2)) ∧
        r'.frameTable = r.frameTable.filter (fun e => e.1 ≠ fid) ∧
        r'.currSize = r.currSize - 1) := by
  obtain ⟨hnd, hok, hcur, hsize⟩ := h
  constructor
  · constructor
    · intro hnone
      by_cases hz : r.currSize = 0
      · intro e he
        have hfil : (r.frameTable.filter (fun e => e.2.isEvictable)).length = 0 := by
          omega
        have : r.frameTable.filter (fun e => e.2.isEvictable) = [] :=
          List.length_eq_zero.mp hfil
        have := List.filter_eq_nil_iff.mp this e he
        simpa using this
      · unfold evict at hnone
        rw [if_neg hz] at hnone
        cases hc : (r.frameTable.foldl (evictStep r.currentTimestamp r.k)
            ⟨none, 0, USIZE_MAX⟩).cand with
        | none =>
          exact foldl_evictStep_none r.currentTimestamp r.k r.frameTable hok hcur
            ⟨none, 0, USIZE_MAX⟩ (fun _ => ⟨rfl, rfl⟩) hc
        | some c => rw [hc] at hnone; simp at hnone
    · intro hall
      have hfil : r.frameTable.filter (fun e => e.2.isEvictable) = [] :=
        List.filter_eq_nil_iff.mpr (fun e he => by simp [hall e he])
      have hz : r.currSize = 0 := by rw [hsize, hfil]; rfl
      unfold evict
      rw [if_pos hz]
  · intro fid r' hsome
    by_cases hz : r.currSize = 0
    · unfold evict at hsome; rw [if_pos hz] at hsome; exact absurd hsome (by simp)
    · unfold evict at hsome
      rw [if_neg hz] at hsome
      cases hc : (r.frameTable.foldl (evictStep r.currentTimestamp r.k)
          ⟨none, 0, USIZE_MAX⟩).cand with
      | none => rw [hc] at hsome; simp at hsome
      | some c =>
        rw [hc] at hsome
        simp only [Option.some.injEq, Prod.mk.injEq] at hsome
        obtain ⟨hfid, hr'⟩ := hsome
        rw [hfid] at hc hr'
        rcases foldl_evictStep_sound r.currentTimestamp r.k r.frameTable
            ⟨none, 0, USIZE_MAX⟩ with hsent | ⟨e, hmem, hev, hcand, hmaxK, hearliest⟩
        · rw [hsent] at hc; simp at hc
        · rw [hc] at hcand
          have hefid : e.1 = fid := by
            simpa using hcand.symm
          refine ⟨e.2, ?_, hev, ?_, ?_, ?_⟩
          · rw [← hefid]; exact hmem
          · intro e' he' hev'
            have hdom := foldl_evictStep_dom r.currentTimestamp r.k r.frameTable
              ⟨none, 0, USIZE_MAX⟩ e' he' hev'
            unfold accDom at hdom
            rw [hmaxK, hearliest] at hdom
            exact hdom
          · rw [← hr']
          · rw [← hr']

/-- Witness for C3: the theorem applied to the concrete Scenario A
replacer, whose well-formedness is checked by evaluation. -/
theorem evict_selects_max_kdistance_witness :
    (evict scenarioA = none ↔ ∀ e ∈ scenarioA.frameTable, e.2.isEvictable = false) ∧
    (∀ fid r', evict scenarioA = some (fid, r') →
      ∃ info, (fid, info) ∈ scenarioA.frameTable ∧ info.isEvictable = true ∧
        (∀ e ∈ scenarioA.frameTable, e.2.isEvictable = true →
          kDistance scenarioA.currentTimestamp scenarioA.k e.2 <
              kDistance scenarioA.currentTimestamp scenarioA.k info ∨
            (kDistance scenarioA.currentTimestamp scenarioA.k e.2 =
                kDistance scenarioA.currentTimestamp scenarioA.k info ∧
              frameEarliest info ≤ frameEarliest e.2)) ∧
        r'.frameTable = scenarioA.frameTable.filter (fun e => e.1 ≠ fid) ∧
        r'.currSize = scenarioA.currSize - 1) :=
  evict_selects_max_kdistance scenarioA (by decide)

/-- C5 evidence: `RecordAccess` compares with `>` instead of `>=`, so the
boundary frame id equal to the pool size is NOT rejected: a record is
created for it, while ids strictly above the bound are rejected. -/
theorem recordAccess_boundary_not_rejected :
    (recordAccess (init 7 2) 7).frameTable = [(7, ⟨[1], false⟩)] ∧
    recordAccess (init 7 2) 7 ≠ init 7 2 ∧
    recordAccess (init 7 2) 8 = init 7 2 := by
  refine ⟨?_, ?_, ?_⟩ <;> decide

/-- C4 counterexample: in Scenario A (pool size 7, K = 2, accesses
1,2,3,4,5,6,1,2,3,4,5,6, all frames marked evictable) `Evict` returns
frame 1, not frame 7: frame 7 was never accessed, so it is not tracked. -/
theorem scenarioA_evict_not_seven :
    (evict scenarioA).map Prod.fst = some 1 ∧ (1 : Nat) ≠ 7 := by
  refine ⟨?_, ?_⟩ <;> decide

/-- C4 (amended): in Scenario A the victim is frame 1 — every tracked
frame has K = 2 recorded accesses and frame 1 has the maximal K-distance
(frame 7 is untracked because it was never accessed). -/
theorem scenarioA_evict_returns_one :
    (evict scenarioA).map Prod.fst = some 1 := by decide

end LRUK

namespace EHT

/-- `std::hash` of the key. Keys are modelled as naturals; for the `int`
instantiations in `extendible_hash_table.cpp`, `std::hash<int>` is the
identity. -/
def hashK (k : Nat) : Nat := k

/-- A bucket of `ExtendibleHashTable` (`extendible_hash_table.cpp`):
`list_` of key/value pairs in insertion order, the capacity `size_`
(`array_size`), and the local depth `depth_`. -/
structure Bucket where
  list : List (Nat × Nat)
  size : Nat
  depth : Nat
deriving DecidableEq, Repr

/-- First value bound to `k`, mirroring the scan in `Bucket::Find`. -/
def findPair (l : List (Nat × Nat)) (k : Nat) : Option Nat :=
  match l with
  | [] => none
  | e :: rest => if e.1 = k then some e.2 else findPair rest k

/-- Overwrite the value of the first entry with key `k` in place,
mirroring the upsert scan of `Bucket::Insert`. -/
def replacePair (l : List (Nat × Nat)) (k v : Nat) : List (Nat × Nat) :=
  match l with
  | [] => []
  | e :: rest => if e.1 = k then (k, v) :: rest else e :: replacePair rest k v

/-- Erase the first entry with key `k`, mirroring `Bucket::Remove`. -/
def removePair (l : List (Nat × Nat)) (k : Nat) : List (Nat × Nat) :=
  match l with
  | [] => []
  | e :: rest => if e.1 = k then rest else e :: removePair rest k

/-- Whether `k` occurs in the list (the `Bucket::Remove` success flag). -/
def memPair (l : List (Nat × Nat)) (k : Nat) : Bool :=
  match l with
  | [] => false
  | e :: rest => if e.1 = k then true else memPair rest k

/-- `Bucket::IsFull`. Modelled from the spec: the header declaring it is
not in the sources; per the spec a bucket holds "up to `bucket_size`
key/value pairs", so the bucket is full when its list has reached the
capacity. -/
def Bucket.isFull (b : Bucket) : Bool := decide (b.size ≤ b.list.length)

/-- `Bucket::Find`. -/
def Bucket.findVal (b : Bucket) (k : Nat) : Option Nat := findPair b.list k

/-- `Bucket::Insert`: upsert in place if the key exists; fail if full;
otherwise append. `none` models the `false` return of the full case. -/
def Bucket.insertKV (b : Bucket) (k v : Nat) : Option Bucket :=
  if (findPair b.list k).isSome then some { b with list := replacePair b.list k v }
  else if b.isFull then none
  else some { b with list := b.list ++ [(k, v)] }

/-- `Bucket::Remove`. -/
def Bucket.removeKey (b : Bucket) (k : Nat) : Bool × Bucket :=
  (memPair b.list k, { b with list := removePair b.list k })

/-- State of `ExtendibleHashTable`. Directory slots hold indices into the
bucket store `buckets`; several slots holding the same index model the
shared `shared_ptr<Bucket>` aliasing of the C++ directory. -/
structure Table where
  globalDepth : Nat
  bucketSize : Nat
  numBuckets : Nat
  dir : List Nat
  buckets : List Bucket
deriving DecidableEq, Repr

/-- `ExtendibleHashTable::ExtendibleHashTable(bucket_size)`: global depth
0 and a one-slot directory holding a fresh depth-0 bucket. -/
def init (bucketSize : Nat) : Table :=
  ⟨0, bucketSize, 1, [0], [⟨[], bucketSize, 0⟩]⟩

/-- `ExtendibleHashTable::IndexOf`: `hash(key) & ((1 << global_depth) - 1)`. -/
def indexOf (t : Table) (k : Nat) : Nat :=
  hashK k &&& ((1 <<< t.globalDepth) - 1)

/-- Dereference a bucket id in the store. -/
def getBucket (t : Table) (bid : Nat) : Bucket := t.buckets.getD bid ⟨[], 0, 0⟩

/-- `ExtendibleHashTable::Find`: look in `dir_[IndexOf(key)]`. -/
def find (t : Table) (k : Nat) : Option Nat :=
  (getBucket t (t.dir.getD (indexOf t k) 0)).findVal k

/-- `ExtendibleHashTable::Remove`. -/
def removeKey (t : Table) (k : Nat) : Bool × Table :=
  let bid := t.dir.getD (indexOf t k) 0
  let r := (getBucket t bid).removeKey k
  (r.1, { t with buckets := t.buckets.set bid r.2 })

/-- The directory-repointing loop of `ExtendibleHashTable::Insert`: every
slot `i` that pointed to the split bucket is redirected to bucket 1 or
bucket 0 according to bit `local_depth - 1` of `i`. -/
def repoint (bid n0 n1 bitPos : Nat) : Nat → List Nat → List Nat
  | _, [] => []
  | i, d :: rest =>
    (if d = bid then (if (i >>> bitPos) &&& 1 = 1 then n1 else n0) else d) ::
      repoint bid n0 n1 bitPos (i + 1) rest

/-- The rehash loop of `ExtendibleHashTable::Insert`: distribute the
overflowed bucket's entries over two fresh buckets of the new local depth
according to bit `local_depth - 1` of the hash, via `Bucket::Insert`
(whose failure is silently ignored, as in the source). -/
def rehash (cap ld : Nat) (items : List (Nat × Nat)) : Bucket × Bucket :=
  items.foldl
    (fun p kv =>
      if (hashK kv.1 >>> (ld - 1)) &&& 1 = 1 then
        (p.1, (p.2.insertKV kv.1 kv.2).getD p.2)
      else ((p.1.insertKV kv.1 kv.2).getD p.1, p.2))
    (⟨[], cap, ld⟩, ⟨[], cap, ld⟩)

/-- The directory doubling of `ExtendibleHashTable::Insert`: resize to
twice the length, each new high-half slot aliasing its low-half twin,
and increment the global depth. -/
def doubleDir (t : Table) : Table :=
  { t with dir := t.dir ++ t.dir, globalDepth := t.globalDepth + 1 }

/-- The bucket-splitting tail of `ExtendibleHashTable::Insert`, after the
optional directory doubling: bump the overflowed bucket's local depth,
rehash its entries into two fresh buckets appended to the store, and
repoint every directory slot that aliased it. -/
def splitBucket (t1 : Table) (bid : Nat) (b : Bucket) : Table :=
  let ld := b.depth + 1
  let bucketsA := t1.buckets.set bid { b with depth := ld }
  let n0 := bucketsA.length
  let br := rehash t1.bucketSize ld b.list
  { globalDepth := t1.globalDepth, bucketSize := t1.bucketSize,
    numBuckets := t1.numBuckets + 1,
    dir := repoint bid n0 (n0 + 1) (ld - 1) 0 t1.dir,
    buckets := bucketsA ++ [br.1, br.2] }

/-- The split body of `ExtendibleHashTable::Insert`, executed when the
target bucket is full and the key absent: double the directory if the
bucket's local depth equals the global depth, then split the bucket. -/
def splitStep (t : Table) (k : Nat) : Table :=
  let bid := t.dir.getD (indexOf t k) 0
  let b := getBucket t bid
  splitBucket (if b.depth = t.globalDepth then doubleDir t else t) bid b

/-- The `while (true)` retry loop of `ExtendibleHashTable::Insert`, with
explicit fuel standing for the unbounded iteration of the source: try the
target bucket; on overflow split (`splitStep`) and retry. -/
def insertLoop (k v : Nat) : Nat → Table → Option Table
  | 0, _ => none
  | fuel + 1, t =>
    match (getBucket t (t.dir.getD (indexOf t k) 0)).insertKV k v with
    | some b' => some { t with buckets := t.buckets.set (t.dir.getD (indexOf t k) 0) b' }
    | none => insertLoop k v fuel (splitStep t k)

/-- `ExtendibleHashTable::Insert` with the stated fuel. -/
def insert (t : Table) (k v fuel : Nat) : Option Table :=
  insertLoop k v fuel t

/-- A sequence of upserts, each with its own fuel, mirroring a test
driver calling `Insert` repeatedly. -/
def foldInsert (t : Table) : List ((Nat × Nat) × Nat) → Option Table
  | [] => some t
  | o :: rest =>
    match insert t o.1.1 o.1.2 o.2 with
    | none => none
    | some t1 => foldInsert t1 rest

/-- Scenario D: bucket size 2, insert (1,a),(5,b),(9,c) with values
modelled as 10, 20, 30, each insert given fuel 9. -/
def scenarioD : Option Table :=
  foldInsert (init 2) [((1, 10), 9), ((5, 20), 9), ((9, 30), 9)]

example : (scenarioD.map (fun t => (t.globalDepth, find t 1, find t 5, find t 9))) =
    some (3, some 10, some 20, some 30) := by decide

lemma getD_set_self {α : Type} (l : List α) (i : Nat) (a d : α) (h : i < l.length) :
    (l.set i a).getD i d = a := by
  induction l generalizing i with
  | nil => simp at h
  | cons x rest ih =>
    cases i with
    | zero => rfl
    | succ j => simpa using ih j (by simpa using h)

lemma getD_set_ne {α : Type} (l : List α) (i j : Nat) (a d : α) (h : i ≠ j) :
    (l.set i a).getD j d = l.getD j d := by
  induction l generalizing i j with
  | nil => simp
  | cons x rest ih =>
    cases i with
    | zero =>
      cases j with
      | zero => exact absurd rfl h
      | succ j' => rfl
    | succ i' =>
      cases j with
      | zero => rfl
      | succ j' => simpa using ih i' j' (fun hc => h (by rw [hc]))

lemma findPair_replacePair_self (l : List (Nat × Nat)) (k v : Nat)
    (h : (findPair l k).isSome) : findPair (replacePair l k v) k = some v := by
  induction l with
  | nil => simp [findPair] at h
  | cons e rest ih =>
    by_cases hk : e.1 = k
    · simp [replacePair, findPair, hk]
    · have h' : (findPair rest k).isSome := by
        unfold findPair at h
        rw [if_neg hk] at h
        exact h
      unfold replacePair
      rw [if_neg hk]
      unfold findPair
      rw [if_neg hk]
      exact ih h'

lemma findPair_replacePair_ne (l : List (Nat × Nat)) (k v k' : Nat) (h : k' ≠ k) :
    findPair (replacePair l k v) k' = findPair l k' := by
  induction l with
  | nil => rfl
  | cons e rest ih =>
    by_cases hk : e.1 = k
    · simp only [replacePair, hk, if_pos]
      unfold findPair
      rw [if_neg (fun hc => h hc.symm), if_neg (by rw [hk]; exact fun hc => h hc.symm)]
    · simp only [replacePair, hk, if_neg, if_false]
      unfold findPair
      by_cases hk' : e.1 = k'
      · rw [if_pos hk', if_pos hk']
      · rw [if_neg hk', if_neg hk']
        exact ih

/-- When the target bucket accepts the key, one loop iteration succeeds
with the single store update. -/
lemma insertLoop_found (k v fuel : Nat) (t : Table) (b' : Bucket)
    (h : (getBucket t (t.dir.getD (indexOf t k) 0)).insertKV k v = some b') :
    insertLoop k v (fuel + 1) t =
      some { t with buckets := t.buckets.set (t.dir.getD (indexOf t k) 0) b' } := by
  unfold insertLoop
  rw [h]

/-- When the target bucket rejects the key, one loop iteration splits and
retries. -/
lemma insertLoop_split (k v fuel : Nat) (t : Table)
    (h : (getBucket t (t.dir.getD (indexOf t k) 0)).insertKV k v = none) :
    insertLoop k v (fuel + 1) t = insertLoop k v fuel (splitStep t k) := by
  conv_lhs => unfold insertLoop
  rw [h]

/-- `indexOf` only reads the global depth. -/
lemma indexOf_congr (t t' : Table) (k : Nat) (h : t'.globalDepth = t.globalDepth) :
    indexOf t' k = indexOf t k := by
  unfold indexOf
  rw [h]

/-- Updating one bucket in the store changes exactly the lookups that go
through directory slots aliasing that bucket. -/
lemma find_set_bucket (t : Table) (bid : Nat) (b' : Bucket)
    (hlt : bid < t.buckets.length) (k' : Nat) :
    find { t with buckets := t.buckets.set bid b' } k' =
      if t.dir.getD (indexOf t k') 0 = bid then findPair b'.list k'
      else find t k' := by
  unfold find Bucket.findVal getBucket
  have hidx : indexOf { t with buckets := t.buckets.set bid b' } k' = indexOf t k' := rfl
  rw [hidx]
  by_cases hb : t.dir.getD (indexOf t k') 0 = bid
  · rw [if_pos hb]
    show findPair (((t.buckets.set bid b').getD (t.dir.getD (indexOf t k') 0) ⟨[], 0, 0⟩)).list k' = _
    rw [hb, getD_set_self _ _ _ _ hlt]
  · rw [if_neg hb]
    show findPair (((t.buckets.set bid b').getD (t.dir.getD (indexOf t k') 0) ⟨[], 0, 0⟩)).list k' = _
    rw [getD_set_ne _ _ _ _ _ (fun hc => hb hc.symm)]

/-- C7: for every hash-table state and every key already present,
`Insert` overwrites the key's value in place and performs no split —
global depth, bucket count, directory and bucket store size are
unchanged and every other key's lookup is untouched — and a subsequent
`Find` of the key returns the new value. This holds even when the key's
bucket is full, because `Bucket::Insert` checks for the key before
checking fullness. -/
theorem insert_existing_key_upserts (t : Table) (k v w fuel : Nat)
    (hfuel : 1 ≤ fuel) (hfound : find t k = some w) :
    ∃ t', insert t k v fuel = some t' ∧
      t'.globalDepth = t.globalDepth ∧
      t'.numBuckets = t.numBuckets ∧
      t'.dir = t.dir ∧
      t'.buckets.length = t.buckets.length ∧
      find t' k = some v ∧
      (∀ k', k' ≠ k → find t' k' = find t k') := by
  obtain ⟨fuel', rfl⟩ : ∃ f, fuel = f + 1 := ⟨fuel - 1, by omega⟩
  have hfp : (findPair (getBucket t (t.dir.getD (indexOf t k) 0)).list k).isSome := by
    unfold find Bucket.findVal at hfound
    rw [hfound]
    rfl
  have hins : (getBucket t (t.dir.getD (indexOf t k) 0)).insertKV k v =
      some { getBucket t (t.dir.getD (indexOf t k) 0) with
        list := replacePair (getBucket t (t.dir.getD (indexOf t k) 0)).list k v } := by
    unfold Bucket.insertKV
    rw [if_pos hfp]
  have hlt : t.dir.getD (indexOf t k) 0 < t.buckets.length := by
    by_contra hge
    have hdef : getBucket t (t.dir.getD (indexOf t k) 0) = ⟨[], 0, 0⟩ := by
      unfold getBucket
      exact List.getD_eq_default _ _ (by omega)
    rw [hdef] at hfp
    simp [findPair] at hfp
  refine ⟨_, insertLoop_found k v fuel' t _ hins, rfl, rfl, rfl, by simp, ?_, ?_⟩
  · rw [find_set_bucket t _ _ hlt k, if_pos rfl]
    exact findPair_replacePair_self _ _ _ hfp
  · intro k' hk'
    rw [find_set_bucket t _ _ hlt k']
    by_cases hb : t.dir.getD (indexOf t k') 0 = t.dir.getD (indexOf t k) 0
    · rw [if_pos hb]
      have := findPair_replacePair_ne (getBucket t (t.dir.getD (indexOf t k) 0)).list k v k' hk'
      rw [this]
      unfold find Bucket.findVal
      rw [hb]
    · rw [if_neg hb]

lemma indexOf_eq_mod (t : Table) (k : Nat) :
    indexOf t k = k % 2 ^ t.globalDepth := by
  unfold indexOf hashK
  rw [Nat.one_shiftLeft, Nat.and_pow_two_sub_one_eq_mod]

lemma getD_mem (l : List Nat) (i : Nat) (h : i < l.length) : l.getD i 0 ∈ l := by
  induction l generalizing i with
  | nil => simp at h
  | cons x rest ih =>
    cases i with
    | zero => exact List.mem_cons_self x rest
    | succ j => exact List.mem_cons_of_mem x (ih j (by simpa using h))

lemma getD_append_lt {α : Type} (l l' : List α) (i : Nat) (d : α) (h : i < l.length) :
    (l ++ l').getD i d = l.getD i d := by
  induction l generalizing i with
  | nil => simp at h
  | cons x rest ih =>
    cases i with
    | zero => rfl
    | succ j => simpa using ih j (by simpa using h)

lemma getD_append_ge {α : Type} (l l' : List α) (j : Nat) (d : α) :
    (l ++ l').getD (l.length + j) d = l'.getD j d := by
  induction l with
  | nil => simp
  | cons x rest ih => simpa [Nat.succ_add] using ih

lemma findPair_eq_none_iff (l : List (Nat × Nat)) (k : Nat) :
    findPair l k = none ↔ k ∉ l.map Prod.fst := by
  induction l with
  | nil => simp [findPair]
  | cons e rest ih =>
    unfold findPair
    by_cases hk : e.1 = k
    · simp [hk]
    · rw [if_neg hk]
      simp only [List.map_cons, List.mem_cons]
      constructor
      · intro h hmem
        rcases hmem with h1 | h2
        · exact hk h1.symm
        · exact (ih.mp h) h2
      · intro h
        exact ih.mpr (fun hc => h (Or.inr hc))

lemma findPair_isSome_iff (l : List (Nat × Nat)) (k : Nat) :
    (findPair l k).isSome ↔ k ∈ l.map Prod.fst := by
  rcases hf : findPair l k with _ | w
  · simpa [hf] using (findPair_eq_none_iff l k).mp hf
  · have : k ∈ l.map Prod.fst := by
      by_contra hmem
      rw [(findPair_eq_none_iff l k).mpr hmem] at hf
      exact absurd hf (by simp)
    simpa [hf] using this

lemma findPair_cons (e : Nat × Nat) (rest : List (Nat × Nat)) (k : Nat) :
    findPair (e :: rest) k = if e.1 = k then some e.2 else findPair rest k := rfl

lemma findPair_append_left (l l' : List (Nat × Nat)) (k : Nat)
    (h : k ∈ l.map Prod.fst) : findPair (l ++ l') k = findPair l k := by
  induction l with
  | nil => simp at h
  | cons e rest ih =>
    rw [List.cons_append, findPair_cons, findPair_cons]
    by_cases hk : e.1 = k
    · rw [if_pos hk, if_pos hk]
    · rw [if_neg hk, if_neg hk]
      refine ih ?_
      rw [List.map_cons] at h
      rcases List.mem_cons.mp h with h1 | h2
      · exact absurd h1.symm hk
      · exact h2

lemma findPair_append_absent (l l' : List (Nat × Nat)) (k : Nat)
    (h : k ∉ l.map Prod.fst) : findPair (l ++ l') k = findPair l' k := by
  induction l with
  | nil => rfl
  | cons e rest ih =>
    rw [List.cons_append, findPair_cons]
    have hk : e.1 ≠ k := fun hc => h (by simp [hc])
    rw [if_neg hk]
    exact ih (fun hc => h (by simp [hc]))

lemma map_fst_replacePair (l : List (Nat × Nat)) (k v : Nat) :
    (replacePair l k v).map Prod.fst = l.map Prod.fst := by
  induction l with
  | nil => rfl
  | cons e rest ih =>
    unfold replacePair
    by_cases hk : e.1 = k
    · rw [if_pos hk]; simp [hk]
    · rw [if_neg hk]; simp [ih]

lemma map_fst_removePair_subset (l : List (Nat × Nat)) (k x : Nat)
    (h : x ∈ (removePair l k).map Prod.fst) : x ∈ l.map Prod.fst := by
  induction l with
  | nil => simp [removePair] at h
  | cons e rest ih =>
    unfold removePair at h
    by_cases hk : e.1 = k
    · rw [if_pos hk] at h
      rw [List.map_cons]
      exact List.mem_cons_of_mem _ h
    · rw [if_neg hk, List.map_cons] at h
      rw [List.map_cons]
      rcases List.mem_cons.mp h with h1 | h2
      · exact List.mem_cons.mpr (Or.inl h1)
      · exact List.mem_cons.mpr (Or.inr (ih h2))

lemma removePair_nodup (l : List (Nat × Nat)) (k : Nat)
    (h : (l.map Prod.fst).Nodup) : ((removePair l k).map Prod.fst).Nodup := by
  induction l with
  | nil => simp [removePair]
  | cons e rest ih =>
    simp only [List.map_cons, List.nodup_cons] at h
    unfold removePair
    by_cases hk : e.1 = k
    · rw [if_pos hk]; exact h.2
    · rw [if_neg hk]
      simp only [List.map_cons, List.nodup_cons]
      exact ⟨fun hc => h.1 (map_fst_removePair_subset rest k e.1 hc), ih h.2⟩

lemma removePair_length_le (l : List (Nat × Nat)) (k : Nat) :
    (removePair l k).length ≤ l.length := by
  induction l with
  | nil => simp [removePair]
  | cons e rest ih =>
    unfold removePair
    by_cases hk : e.1 = k
    · rw [if_pos hk]; simp
    · rw [if_neg hk]; simpa using ih

lemma findPair_filter (l : List (Nat × Nat)) (p : Nat × Nat → Bool) (k : Nat)
    (hnd : (l.map Prod.fst).Nodup) :
    findPair (l.filter p) k =
      match findPair l k with
      | some w => if p (k, w) then some w else none
      | none => none := by
  induction l with
  | nil => rfl
  | cons e rest ih =>
    simp only [List.map_cons, List.nodup_cons] at hnd
    by_cases hk : e.1 = k
    · have he : e = (k, e.2) := by
        rw [← hk]
      cases hp : p e with
      | true =>
        rw [List.filter_cons_of_pos hp, findPair_cons, findPair_cons, if_pos hk, if_pos hk]
        rw [he] at hp
        simp [hp]
      | false =>
        rw [List.filter_cons_of_neg (by simp [hp]), findPair_cons, if_pos hk]
        rw [he] at hp
        simp only [hp]
        have hnone : findPair (rest.filter p) k = none := by
          rw [findPair_eq_none_iff]
          intro hc
          rcases List.mem_map.mp hc with ⟨a, ha, hfst⟩
          have : a ∈ rest := List.mem_of_mem_filter ha
          exact hnd.1 (by rw [hk]; exact List.mem_map.mpr ⟨a, this, hfst⟩)
        simp [hnone]
    · cases hp : p e with
      | true =>
        rw [List.filter_cons_of_pos hp, findPair_cons, findPair_cons,
          if_neg hk, if_neg hk]
        exact ih hnd.2
      | false =>
        rw [List.filter_cons_of_neg (by simp [hp]), findPair_cons, if_neg hk]
        exact ih hnd.2

lemma repoint_length (bid n0 n1 bp i : Nat) (l : List Nat) :
    (repoint bid n0 n1 bp i l).length = l.length := by
  induction l generalizing i with
  | nil => rfl
  | cons d rest ih => simpa [repoint] using ih (i + 1)

lemma repoint_getD (bid n0 n1 bp : Nat) (l : List Nat) (i j : Nat)
    (hj : j < l.length) :
    (repoint bid n0 n1 bp i l).getD j 0 =
      if l.getD j 0 = bid then
        (if ((i + j) >>> bp) &&& 1 = 1 then n1 else n0)
      else l.getD j 0 := by
  induction l generalizing i j with
  | nil => simp at hj
  | cons d rest ih =>
    cases j with
    | zero => simp [repoint]
    | succ j' =>
      have := ih (i + 1) j' (by simpa using hj)
      simp only [repoint, List.getD_cons_succ]
      rw [this]
      have harith : i + 1 + j' = i + (j' + 1) := by omega
      rw [harith]

/-- Bit selection `(x >>> d) &&& 1 = 1` is `testBit`. -/
lemma bitsel_eq_testBit (x d : Nat) :
    (((x >>> d) &&& 1 = 1) ↔ x.testBit d = true) := by
  rw [Nat.and_one_is_mod, Nat.shiftRight_eq_div_pow, Nat.testBit_to_div_mod]
  simp

/-- Below the global depth, the selected bit of the directory index equals
the corresponding bit of the key. -/
lemma bitsel_mod (k g d : Nat) (h : d < g) :
    (((k % 2 ^ g) >>> d) &&& 1 = 1) ↔ ((k >>> d) &&& 1 = 1) := by
  rw [bitsel_eq_testBit, bitsel_eq_testBit, Nat.testBit_mod_two_pow]
  simp [h]

/-- The rehash fold, generalized over the two accumulator buckets:
provided the keys are distinct and everything fits the capacity, it
appends the entries routed by the selected bit to each bucket in order. -/
lemma rehash_go (cap ld : Nat) (items : List (Nat × Nat)) (b0 b1 : Bucket)
    (h0 : b0.size = cap) (h1 : b1.size = cap)
    (hnd : (items.map Prod.fst).Nodup)
    (hd0 : ∀ x ∈ items.map Prod.fst, x ∉ b0.list.map Prod.fst)
    (hd1 : ∀ x ∈ items.map Prod.fst, x ∉ b1.list.map Prod.fst)
    (hlen : b0.list.length + b1.list.length + items.length ≤ cap) :
    items.foldl
      (fun p kv =>
        if (hashK kv.1 >>> (ld - 1)) &&& 1 = 1 then
          (p.1, (p.2.insertKV kv.1 kv.2).getD p.2)
        else ((p.1.insertKV kv.1 kv.2).getD p.1, p.2)) (b0, b1) =
      ({ b0 with list := b0.list ++
          items.filter (fun kv => !decide ((hashK kv.1 >>> (ld - 1)) &&& 1 = 1)) },
       { b1 with list := b1.list ++
          items.filter (fun kv => decide ((hashK kv.1 >>> (ld - 1)) &&& 1 = 1)) }) := by
  induction items generalizing b0 b1 with
  | nil => simp
  | cons kv rest ih =>
    simp only [List.length_cons] at hlen
    simp only [List.map_cons, List.nodup_cons] at hnd
    have hkv0 : kv.1 ∉ b0.list.map Prod.fst := hd0 kv.1 (by simp)
    have hkv1 : kv.1 ∉ b1.list.map Prod.fst := hd1 kv.1 (by simp)
    simp only [List.foldl_cons]
    by_cases hbit : (hashK kv.1 >>> (ld - 1)) &&& 1 = 1
    · have hfpos : List.filter
          (fun kv => decide ((hashK kv.1 >>> (ld - 1)) &&& 1 = 1)) (kv :: rest) =
          kv :: List.filter (fun kv => decide ((hashK kv.1 >>> (ld - 1)) &&& 1 = 1)) rest :=
        List.filter_cons_of_pos (by simp only [decide_eq_true_eq]; exact hbit)
      have hfneg : List.filter
          (fun kv => !decide ((hashK kv.1 >>> (ld - 1)) &&& 1 = 1)) (kv :: rest) =
          List.filter (fun kv => !decide ((hashK kv.1 >>> (ld - 1)) &&& 1 = 1)) rest :=
        List.filter_cons_of_neg (by
          rw [Bool.not_eq_true', decide_eq_false_iff_not]
          exact fun hc => hc hbit)
      rw [if_pos hbit]
      have hins : b1.insertKV kv.1 kv.2 = some { b1 with list := b1.list ++ [kv] } := by
        unfold Bucket.insertKV Bucket.isFull
        rw [if_neg (by rw [findPair_isSome_iff]; exact hkv1)]
        rw [if_neg (by simp only [decide_eq_true_eq]; omega)]
      rw [hins]
      simp only [Option.getD_some]
      rw [ih b0 { b1 with list := b1.list ++ [kv] } h0 h1 hnd.2
        (fun x hx => hd0 x (by simp [hx]))
        (fun x hx => by
          simp only [List.map_append, List.mem_append, List.map_cons, List.map_nil,
            List.mem_cons, List.not_mem_nil]
          rintro (hc | hc | hc)
          · exact hd1 x (by simp [hx]) hc
          · exact hnd.1 (hc ▸ hx)
          · exact hc)
        (by simp only [List.length_append, List.length_cons, List.length_nil]; omega)]
      rw [hfpos, hfneg]
      simp [List.append_assoc]
    · have hfpos : List.filter
          (fun kv => decide ((hashK kv.1 >>> (ld - 1)) &&& 1 = 1)) (kv :: rest) =
          List.filter (fun kv => decide ((hashK kv.1 >>> (ld - 1)) &&& 1 = 1)) rest :=
        List.filter_cons_of_neg (by
          simp only [decide_eq_true_eq]
          exact hbit)
      have hfneg : List.filter
          (fun kv => !decide ((hashK kv.1 >>> (ld - 1)) &&& 1 = 1)) (kv :: rest) =
          kv :: List.filter (fun kv => !decide ((hashK kv.1 >>> (ld - 1)) &&& 1 = 1)) rest :=
        List.filter_cons_of_pos (by
          rw [Bool.not_eq_true', decide_eq_false_iff_not]
          exact hbit)
      rw [if_neg hbit]
      have hins : b0.insertKV kv.1 kv.2 = some { b0 with list := b0.list ++ [kv] } := by
        unfold Bucket.insertKV Bucket.isFull
        rw [if_neg (by rw [findPair_isSome_iff]; exact hkv0)]
        rw [if_neg (by simp only [decide_eq_true_eq]; omega)]
      rw [hins]
      simp only [Option.getD_some]
      rw [ih { b0 with list := b0.list ++ [kv] } b1 h0 h1 hnd.2
        (fun x hx => by
          simp only [List.map_append, List.mem_append, List.map_cons, List.map_nil,
            List.mem_cons, List.not_mem_nil]
          rintro (hc | hc | hc)
          · exact hd0 x (by simp [hx]) hc
          · exact hnd.1 (hc ▸ hx)
          · exact hc)
        (fun x hx => hd1 x (by simp [hx]))
        (by simp only [List.length_append, List.length_cons, List.length_nil]; omega)]
      rw [hfpos, hfneg]
      simp [List.append_assoc]

/-- The rehash of `Insert` splits the bucket's entries into the two
filtered sublists. -/
lemma rehash_spec (cap ld : Nat) (items : List (Nat × Nat))
    (hnd : (items.map Prod.fst).Nodup) (hlen : items.length ≤ cap) :
    rehash cap ld items =
      (⟨items.filter (fun kv => !decide ((hashK kv.1 >>> (ld - 1)) &&& 1 = 1)), cap, ld⟩,
       ⟨items.filter (fun kv => decide ((hashK kv.1 >>> (ld - 1)) &&& 1 = 1)), cap, ld⟩) := by
  unfold rehash
  rw [rehash_go cap ld items ⟨[], cap, ld⟩ ⟨[], cap, ld⟩ rfl rfl hnd
    (by simp) (by simp) (by simpa using hlen)]
  rfl

/-- Per-bucket well-formedness of a directory-reachable bucket: its
capacity is the table's bucket size, it is within capacity, its keys are
distinct, and its local depth does not exceed the global depth. -/
def BucketOK (t : Table) (d : Nat) : Prop :=
  (getBucket t d).size = t.bucketSize ∧
  (getBucket t d).list.length ≤ t.bucketSize ∧
  ((getBucket t d).list.map Prod.fst).Nodup ∧
  (getBucket t d).depth ≤ t.globalDepth

instance (t : Table) (d : Nat) : Decidable (BucketOK t d) := by
  unfold BucketOK; infer_instance

/-- Invariant of the extendible hash table, maintained by every public
operation: the directory holds exactly `2 ^ global_depth` slots, every
slot points into the bucket store, and every reachable bucket is
well-formed. -/
def Inv (t : Table) : Prop :=
  t.dir.length = 2 ^ t.globalDepth ∧
  (∀ d ∈ t.dir, d < t.buckets.length) ∧
  (∀ d ∈ t.dir, BucketOK t d)

instance (t : Table) : Decidable (Inv t) := by
  unfold Inv; infer_instance

/-- States reachable by the public operations of
`ExtendibleHashTable` from a freshly constructed table. -/
inductive Reachable : Table → Prop
  | start (sz : Nat) : Reachable (init sz)
  | step_insert (t t' : Table) (k v fuel : Nat) :
      Reachable t → insert t k v fuel = some t' → Reachable t'
  | step_remove (t : Table) (k : Nat) :
      Reachable t → Reachable (removeKey t k).2

lemma replacePair_length (l : List (Nat × Nat)) (k v : Nat) :
    (replacePair l k v).length = l.length := by
  induction l with
  | nil => rfl
  | cons e rest ih =>
    unfold replacePair
    by_cases hk : e.1 = k
    · rw [if_pos hk]; simp
    · rw [if_neg hk]; simpa using ih

lemma insertKV_cases (b : Bucket) (k v : Nat) (b' : Bucket)
    (h : b.insertKV k v = some b') :
    ((findPair b.list k).isSome ∧ b' = { b with list := replacePair b.list k v }) ∨
    (findPair b.list k = none ∧ b.isFull = false ∧
      b' = { b with list := b.list ++ [(k, v)] }) := by
  unfold Bucket.insertKV at h
  by_cases hfp : (findPair b.list k).isSome
  · rw [if_pos hfp] at h
    left
    exact ⟨hfp, by simpa using h.symm⟩
  · rw [if_neg hfp] at h
    cases hfull : b.isFull with
    | true => rw [hfull] at h; simp at h
    | false =>
      rw [hfull] at h
      simp only [Bool.false_eq_true, if_false] at h
      right
      refine ⟨?_, rfl, by simpa using h.symm⟩
      rcases hf : findPair b.list k with _ | w
      · rfl
      · rw [hf] at hfp; simp at hfp

/-- Updating one in-range bucket with a well-formed replacement keeps the
invariant. -/
lemma Inv_set_bucket (t : Table) (bid : Nat) (b' : Bucket) (hInv : Inv t)
    (hbid : bid < t.buckets.length)
    (hsize : b'.size = t.bucketSize) (hlen : b'.list.length ≤ t.bucketSize)
    (hnd : (b'.list.map Prod.fst).Nodup) (hdepth : b'.depth ≤ t.globalDepth) :
    Inv { t with buckets := t.buckets.set bid b' } := by
  obtain ⟨hdir, hvalid, hok⟩ := hInv
  refine ⟨hdir, ?_, ?_⟩
  · intro d hd
    simpa using hvalid d hd
  · intro d hd
    by_cases hb : d = bid
    · subst hb
      unfold BucketOK getBucket
      simp only
      rw [getD_set_self _ _ _ _ hbid]
      exact ⟨hsize, hlen, hnd, hdepth⟩
    · unfold BucketOK getBucket
      simp only
      rw [getD_set_ne _ _ _ _ _ (fun hc => hb hc.symm)]
      exact hok d hd

lemma repoint_mem (bid n0 n1 bp : Nat) (l : List Nat) (i : Nat) (d' : Nat)
    (h : d' ∈ repoint bid n0 n1 bp i l) :
    d' = n0 ∨ d' = n1 ∨ (d' ∈ l ∧ d' ≠ bid) := by
  induction l generalizing i with
  | nil => simp [repoint] at h
  | cons d rest ih =>
    simp only [repoint, List.mem_cons] at h
    rcases h with h | h
    · by_cases hd : d = bid
      · rw [if_pos hd] at h
        by_cases hbit : ((i >>> bp) &&& 1 = 1)
        · rw [if_pos hbit] at h; right; left; exact h
        · rw [if_neg hbit] at h; left; exact h
      · rw [if_neg hd] at h
        right; right
        exact ⟨List.mem_cons.mpr (Or.inl h), h ▸ hd⟩
    · rcases ih (i + 1) h with h' | h' | h'
      · left; exact h'
      · right; left; exact h'
      · right; right; exact ⟨List.mem_cons_of_mem _ h'.1, h'.2⟩

lemma splitBucket_eq (t1 : Table) (bid : Nat) (b : Bucket) :
    splitBucket t1 bid b =
      { globalDepth := t1.globalDepth, bucketSize := t1.bucketSize,
        numBuckets := t1.numBuckets + 1,
        dir := repoint bid t1.buckets.length (t1.buckets.length + 1) b.depth 0 t1.dir,
        buckets := (t1.buckets.set bid { b with depth := b.depth + 1 }) ++
          [(rehash t1.bucketSize (b.depth + 1) b.list).1,
           (rehash t1.bucketSize (b.depth + 1) b.list).2] } := by
  unfold splitBucket
  simp [List.length_set]

lemma splitBucket_globalDepth (t1 : Table) (bid : Nat) (b : Bucket) :
    (splitBucket t1 bid b).globalDepth = t1.globalDepth := by
  rw [splitBucket_eq]

lemma splitBucket_bucketSize (t1 : Table) (bid : Nat) (b : Bucket) :
    (splitBucket t1 bid b).bucketSize = t1.bucketSize := by
  rw [splitBucket_eq]

lemma splitBucket_dir (t1 : Table) (bid : Nat) (b : Bucket) :
    (splitBucket t1 bid b).dir =
      repoint bid t1.buckets.length (t1.buckets.length + 1) b.depth 0 t1.dir := by
  rw [splitBucket_eq]

lemma splitBucket_buckets (t1 : Table) (bid : Nat) (b : Bucket) :
    (splitBucket t1 bid b).buckets =
      (t1.buckets.set bid { b with depth := b.depth + 1 }) ++
        [(rehash t1.bucketSize (b.depth + 1) b.list).1,
         (rehash t1.bucketSize (b.depth + 1) b.list).2] := by
  rw [splitBucket_eq]

lemma splitBucket_getBucket_old (t1 : Table) (bid : Nat) (b : Bucket) (d : Nat)
    (hdlt : d < t1.buckets.length) (hdne : d ≠ bid) :
    getBucket (splitBucket t1 bid b) d = getBucket t1 d := by
  unfold getBucket
  rw [splitBucket_buckets]
  rw [getD_append_lt _ _ _ _ (by simpa using hdlt),
    getD_set_ne _ _ _ _ _ (fun hc => hdne hc.symm)]

lemma splitBucket_getBucket_new0 (t1 : Table) (bid : Nat) (b : Bucket) :
    getBucket (splitBucket t1 bid b) t1.buckets.length =
      (rehash t1.bucketSize (b.depth + 1) b.list).1 := by
  unfold getBucket
  rw [splitBucket_buckets]
  have hsetlen : (t1.buckets.set bid { b with depth := b.depth + 1 }).length =
      t1.buckets.length := by simp
  conv_lhs => rw [← hsetlen]
  rw [show (t1.buckets.set bid { b with depth := b.depth + 1 }).length =
    (t1.buckets.set bid { b with depth := b.depth + 1 }).length + 0 from rfl]
  rw [getD_append_ge]
  rfl

lemma splitBucket_getBucket_new1 (t1 : Table) (bid : Nat) (b : Bucket) :
    getBucket (splitBucket t1 bid b) (t1.buckets.length + 1) =
      (rehash t1.bucketSize (b.depth + 1) b.list).2 := by
  unfold getBucket
  rw [splitBucket_buckets]
  have hsetlen : (t1.buckets.set bid { b with depth := b.depth + 1 }).length =
      t1.buckets.length := by simp
  rw [← hsetlen, getD_append_ge]
  rfl

/-- Splitting a reachable bucket preserves every key's lookup: entries
are rerouted by bit `local_depth - 1`, which below the global depth
agrees between a key and its directory index. -/
lemma splitBucket_find (t1 : Table) (bid : Nat) (b : Bucket)
    (hdirlen : t1.dir.length = 2 ^ t1.globalDepth)
    (hvalid : ∀ d ∈ t1.dir, d < t1.buckets.length)
    (hb : getBucket t1 bid = b)
    (hdepth : b.depth < t1.globalDepth)
    (hnd : (b.list.map Prod.fst).Nodup)
    (hlen : b.list.length ≤ t1.bucketSize) (k' : Nat) :
    find (splitBucket t1 bid b) k' = find t1 k' := by
  have hidx2 : indexOf (splitBucket t1 bid b) k' = indexOf t1 k' :=
    indexOf_congr t1 _ k' (splitBucket_globalDepth t1 bid b)
  unfold find
  rw [hidx2, splitBucket_dir]
  have hidxlt : indexOf t1 k' < t1.dir.length := by
    rw [indexOf_eq_mod, hdirlen]
    exact Nat.mod_lt _ (Nat.pos_pow_of_pos _ (by omega))
  have hrg := repoint_getD bid t1.buckets.length (t1.buckets.length + 1) b.depth
    t1.dir 0 (indexOf t1 k') hidxlt
  simp only [Nat.zero_add] at hrg
  rw [hrg]
  by_cases hd : t1.dir.getD (indexOf t1 k') 0 = bid
  · rw [if_pos hd]
    have hreh := rehash_spec t1.bucketSize (b.depth + 1) b.list hnd hlen
    have hrhs : getBucket t1 (t1.dir.getD (indexOf t1 k') 0) = b := by rw [hd, hb]
    have hbit_agree : (((indexOf t1 k') >>> b.depth) &&& 1 = 1) ↔
        ((k' >>> b.depth) &&& 1 = 1) := by
      rw [indexOf_eq_mod]
      exact bitsel_mod k' t1.globalDepth b.depth hdepth
    by_cases hbit : ((k' >>> b.depth) &&& 1 = 1)
    · rw [if_pos (hbit_agree.mpr hbit)]
      rw [splitBucket_getBucket_new1 t1 bid b, hreh]
      unfold Bucket.findVal at hrhs ⊢
      rw [findPair_filter _ _ _ hnd, hrhs]
      rcases hfp : findPair b.list k' with _ | w
      · rfl
      · simp only
        rw [if_pos (by
          simp only [Nat.add_sub_cancel, decide_eq_true_eq]
          exact hbit)]
    · rw [if_neg (fun hc => hbit (hbit_agree.mp hc))]
      rw [splitBucket_getBucket_new0 t1 bid b, hreh]
      unfold Bucket.findVal at hrhs ⊢
      rw [findPair_filter _ _ _ hnd, hrhs]
      rcases hfp : findPair b.list k' with _ | w
      · rfl
      · simp only
        rw [if_pos (by
          simp only [Nat.add_sub_cancel, Bool.not_eq_true', decide_eq_false_iff_not]
          exact hbit)]
  · rw [if_neg hd]
    have hdmem : t1.dir.getD (indexOf t1 k') 0 ∈ t1.dir := getD_mem _ _ hidxlt
    have hdlt : t1.dir.getD (indexOf t1 k') 0 < t1.buckets.length := hvalid _ hdmem
    rw [splitBucket_getBucket_old t1 bid b _ hdlt hd]

/-- Splitting a reachable bucket preserves the invariant. -/
lemma splitBucket_Inv (t1 : Table) (bid : Nat) (b : Bucket)
    (hInv : Inv t1)
    (hb : getBucket t1 bid = b)
    (hdepth : b.depth < t1.globalDepth)
    (hnd : (b.list.map Prod.fst).Nodup)
    (hlen : b.list.length ≤ t1.bucketSize) :
    Inv (splitBucket t1 bid b) := by
  obtain ⟨hdirlen, hvalid, hok⟩ := hInv
  have hreh := rehash_spec t1.bucketSize (b.depth + 1) b.list hnd hlen
  have hbuckets_len : (splitBucket t1 bid b).buckets.length =
      t1.buckets.length + 2 := by
    rw [splitBucket_buckets]
    simp
  refine ⟨?_, ?_, ?_⟩
  · rw [splitBucket_dir, repoint_length, splitBucket_globalDepth]
    exact hdirlen
  · intro d hd
    rw [splitBucket_dir] at hd
    rw [hbuckets_len]
    rcases repoint_mem _ _ _ _ _ _ _ hd with h' | h' | h'
    · omega
    · omega
    · have := hvalid d h'.1
      omega
  · intro d hd
    rw [splitBucket_dir] at hd
    rcases repoint_mem _ _ _ _ _ _ _ hd with h' | h' | h'
    · subst h'
      unfold BucketOK
      rw [splitBucket_getBucket_new0, hreh, splitBucket_bucketSize,
        splitBucket_globalDepth]
      refine ⟨rfl, ?_, ?_, by simpa using hdepth⟩
      · simp only
        exact le_trans (List.length_filter_le _ _) hlen
      · simp only
        have hsub : List.Sublist
            (List.filter
              (fun kv => !decide ((hashK kv.1 >>> (b.depth + 1 - 1)) &&& 1 = 1)) b.list)
            b.list := List.filter_sublist _
        exact hnd.sublist (hsub.map Prod.fst)
    · subst h'
      unfold BucketOK
      rw [splitBucket_getBucket_new1, hreh, splitBucket_bucketSize,
        splitBucket_globalDepth]
      refine ⟨rfl, ?_, ?_, by simpa using hdepth⟩
      · simp only
        exact le_trans (List.length_filter_le _ _) hlen
      · simp only
        have hsub : List.Sublist
            (List.filter
              (fun kv => decide ((hashK kv.1 >>> (b.depth + 1 - 1)) &&& 1 = 1)) b.list)
            b.list := List.filter_sublist _
        exact hnd.sublist (hsub.map Prod.fst)
    · have hdlt := hvalid d h'.1
      unfold BucketOK
      rw [splitBucket_getBucket_old t1 bid b d hdlt h'.2, splitBucket_bucketSize,
        splitBucket_globalDepth]
      exact hok d h'.1

/-- Doubling the directory preserves every key's lookup: the high half
aliases the low half, so the widened index selects the same bucket. -/
lemma doubleDir_find (t : Table) (hdirlen : t.dir.length = 2 ^ t.globalDepth)
    (k' : Nat) : find (doubleDir t) k' = find t k' := by
  unfold find doubleDir getBucket
  simp only
  rw [indexOf_eq_mod, indexOf_eq_mod]
  simp only
  have hP : 0 < 2 ^ t.globalDepth := Nat.pos_pow_of_pos _ (by omega)
  have hpow : 2 ^ (t.globalDepth + 1) = 2 ^ t.globalDepth + 2 ^ t.globalDepth := by
    rw [Nat.pow_succ]
    omega
  have hmm : k' % 2 ^ (t.globalDepth + 1) % 2 ^ t.globalDepth = k' % 2 ^ t.globalDepth :=
    Nat.mod_mod_of_dvd _ ⟨2, by rw [Nat.pow_succ]⟩
  have hmlt : k' % 2 ^ (t.globalDepth + 1) < 2 ^ (t.globalDepth + 1) :=
    Nat.mod_lt _ (by omega)
  by_cases hcase : k' % 2 ^ (t.globalDepth + 1) < 2 ^ t.globalDepth
  · have heq : k' % 2 ^ (t.globalDepth + 1) = k' % 2 ^ t.globalDepth := by
      rw [← hmm]
      exact (Nat.mod_eq_of_lt hcase).symm
    rw [getD_append_lt _ _ _ _ (by rw [hdirlen]; exact hcase), heq]
  · have hsplit : k' % 2 ^ (t.globalDepth + 1) =
        t.dir.length + (k' % 2 ^ (t.globalDepth + 1) - 2 ^ t.globalDepth) := by
      rw [hdirlen]
      omega
    rw [hsplit, getD_append_ge]
    have heq : k' % 2 ^ (t.globalDepth + 1) - 2 ^ t.globalDepth =
        k' % 2 ^ t.globalDepth := by
      have h1 : k' % 2 ^ (t.globalDepth + 1) % 2 ^ t.globalDepth =
          (k' % 2 ^ (t.globalDepth + 1) - 2 ^ t.globalDepth) % 2 ^ t.globalDepth :=
        Nat.mod_eq_sub_mod (by omega)
      have h2 : (k' % 2 ^ (t.globalDepth + 1) - 2 ^ t.globalDepth) % 2 ^ t.globalDepth =
          k' % 2 ^ (t.globalDepth + 1) - 2 ^ t.globalDepth :=
        Nat.mod_eq_of_lt (by omega)
      omega
    rw [heq]

/-- Doubling the directory preserves the invariant pieces. -/
lemma doubleDir_Inv (t : Table) (hInv : Inv t) : Inv (doubleDir t) := by
  obtain ⟨hdirlen, hvalid, hok⟩ := hInv
  refine ⟨?_, ?_, ?_⟩
  · unfold doubleDir
    simp only [List.length_append]
    rw [hdirlen, Nat.pow_succ]
    omega
  · intro d hd
    unfold doubleDir at hd ⊢
    simp only [List.mem_append] at hd
    rcases hd with hd | hd
    · exact hvalid d hd
    · exact hvalid d hd
  · intro d hd
    unfold doubleDir at hd ⊢
    simp only [List.mem_append] at hd
    have hmem : d ∈ t.dir := by
      rcases hd with hd | hd
      · exact hd
      · exact hd
    have := hok d hmem
    unfold BucketOK getBucket at this ⊢
    simp only
    exact ⟨this.1, this.2.1, this.2.2.1, le_trans this.2.2.2 (by omega)⟩

/-- One split iteration of `Insert` preserves every lookup and the
invariant. -/
lemma splitStep_spec (t : Table) (k : Nat) (hInv : Inv t) :
    (∀ k', find (splitStep t k) k' = find t k') ∧ Inv (splitStep t k) := by
  obtain ⟨hdirlen, hvalid, hok⟩ := hInv
  have hidxlt : indexOf t k < t.dir.length := by
    rw [indexOf_eq_mod, hdirlen]
    exact Nat.mod_lt _ (Nat.pos_pow_of_pos _ (by omega))
  have hbidmem : t.dir.getD (indexOf t k) 0 ∈ t.dir := getD_mem _ _ hidxlt
  have hbidlt := hvalid _ hbidmem
  have hbok := hok _ hbidmem
  simp only [splitStep]
  by_cases hdeq : (getBucket t (t.dir.getD (indexOf t k) 0)).depth = t.globalDepth
  · rw [if_pos hdeq]
    have hInv1 : Inv (doubleDir t) := doubleDir_Inv t ⟨hdirlen, hvalid, hok⟩
    obtain ⟨hdirlen1, hvalid1, hok1⟩ := hInv1
    have hgb1 : getBucket (doubleDir t) (t.dir.getD (indexOf t k) 0) =
        getBucket t (t.dir.getD (indexOf t k) 0) := rfl
    have hbidlt1 : t.dir.getD (indexOf t k) 0 < (doubleDir t).buckets.length := hbidlt
    have hdepth1 : (getBucket t (t.dir.getD (indexOf t k) 0)).depth <
        (doubleDir t).globalDepth := by
      unfold doubleDir
      simp only
      omega
    constructor
    · intro k'
      rw [splitBucket_find (doubleDir t) _ _ hdirlen1 hvalid1 hgb1 hdepth1
        hbok.2.2.1 hbok.2.1 k']
      exact doubleDir_find t hdirlen k'
    · exact splitBucket_Inv (doubleDir t) _ _ ⟨hdirlen1, hvalid1, hok1⟩ hgb1
        hdepth1 hbok.2.2.1 hbok.2.1
  · rw [if_neg hdeq]
    have hdepth : (getBucket t (t.dir.getD (indexOf t k) 0)).depth < t.globalDepth := by
      have := hbok.2.2.2
      omega
    constructor
    · intro k'
      exact splitBucket_find t _ _ hdirlen hvalid rfl hdepth hbok.2.2.1 hbok.2.1 k'
    · exact splitBucket_Inv t _ _ ⟨hdirlen, hvalid, hok⟩ rfl hdepth
        hbok.2.2.1 hbok.2.1

lemma findPair_append_single (l : List (Nat × Nat)) (k v k' : Nat) :
    findPair (l ++ [(k, v)]) k' =
      match findPair l k' with
      | some w => some w
      | none => if k = k' then some v else none := by
  rcases hf : findPair l k' with _ | w
  · rw [findPair_append_absent l _ k' ((findPair_eq_none_iff l k').mp hf)]
    rfl
  · have hmem : k' ∈ l.map Prod.fst := by
      rw [← findPair_isSome_iff]
      rw [hf]
      rfl
    rw [findPair_append_left l _ k' hmem, hf]

/-- Master lemma for the `Insert` retry loop: starting from an invariant
state, a successful insert yields an invariant state in which the new
key's lookup returns the new value and every other key's lookup is
unchanged. -/
lemma insertLoop_spec (k v : Nat) (fuel : Nat) :
    ∀ (t t' : Table), Inv t → insertLoop k v fuel t = some t' →
      Inv t' ∧ find t' k = some v ∧ (∀ k', k' ≠ k → find t' k' = find t k') := by
  induction fuel with
  | zero => intro t t' _ h; exact absurd h (by simp [insertLoop])
  | succ fuel ih =>
    intro t t' hInv h
    obtain ⟨hdirlen, hvalid, hok⟩ := hInv
    have hidxlt : indexOf t k < t.dir.length := by
      rw [indexOf_eq_mod, hdirlen]
      exact Nat.mod_lt _ (Nat.pos_pow_of_pos _ (by omega))
    have hbidmem : t.dir.getD (indexOf t k) 0 ∈ t.dir := getD_mem _ _ hidxlt
    have hbidlt := hvalid _ hbidmem
    have hbok := hok _ hbidmem
    rcases hins : (getBucket t (t.dir.getD (indexOf t k) 0)).insertKV k v with _ | b'
    · rw [insertLoop_split k v fuel t hins] at h
      have hsp := splitStep_spec t k ⟨hdirlen, hvalid, hok⟩
      obtain ⟨hI', hfk, hother⟩ := ih (splitStep t k) t' hsp.2 h
      refine ⟨hI', hfk, ?_⟩
      intro k' hk'
      rw [hother k' hk', hsp.1 k']
    · rw [insertLoop_found k v fuel t b' hins] at h
      have ht' : t' = { t with
          buckets := t.buckets.set (t.dir.getD (indexOf t k) 0) b' } := by
        exact (Option.some.injEq _ _ ▸ h).symm
      subst ht'
      rcases insertKV_cases _ k v b' hins with ⟨hfp, hb'⟩ | ⟨hfp, hnotfull, hb'⟩
      · refine ⟨?_, ?_, ?_⟩
        · refine Inv_set_bucket t _ b' ⟨hdirlen, hvalid, hok⟩ hbidlt ?_ ?_ ?_ ?_
          · rw [hb']; exact hbok.1
          · rw [hb']
            simp only
            rw [replacePair_length]
            exact hbok.2.1
          · rw [hb']
            simp only
            rw [map_fst_replacePair]
            exact hbok.2.2.1
          · rw [hb']; exact hbok.2.2.2
        · rw [find_set_bucket t _ _ hbidlt k, if_pos rfl, hb']
          exact findPair_replacePair_self _ _ _ hfp
        · intro k' hk'
          rw [find_set_bucket t _ _ hbidlt k']
          by_cases hsame : t.dir.getD (indexOf t k') 0 = t.dir.getD (indexOf t k) 0
          · rw [if_pos hsame, hb']
            simp only
            rw [findPair_replacePair_ne _ _ _ _ hk']
            unfold find Bucket.findVal
            rw [hsame]
          · rw [if_neg hsame]
      · refine ⟨?_, ?_, ?_⟩
        · refine Inv_set_bucket t _ b' ⟨hdirlen, hvalid, hok⟩ hbidlt ?_ ?_ ?_ ?_
          · rw [hb']; exact hbok.1
          · rw [hb']
            simp only [List.length_append, List.length_cons, List.length_nil]
            have hfull := hnotfull
            unfold Bucket.isFull at hfull
            simp only [decide_eq_false_iff_not] at hfull
            have := hbok.1
            omega
          · rw [hb']
            simp only [List.map_append, List.map_cons, List.map_nil]
            rw [List.nodup_append]
            refine ⟨hbok.2.2.1, by simp, ?_⟩
            intro x hx
            simp only [List.mem_cons, List.not_mem_nil, or_false]
            intro hxk
            subst hxk
            rw [findPair_eq_none_iff] at hfp
            exact hfp hx
          · rw [hb']; exact hbok.2.2.2
        · rw [find_set_bucket t _ _ hbidlt k, if_pos rfl, hb']
          simp only
          rw [findPair_append_single, hfp]
          simp
        · intro k' hk'
          rw [find_set_bucket t _ _ hbidlt k']
          by_cases hsame : t.dir.getD (indexOf t k') 0 = t.dir.getD (indexOf t k) 0
          · rw [if_pos hsame, hb']
            simp only
            rw [findPair_append_single]
            unfold find Bucket.findVal
            rw [hsame]
            rcases hf : findPair (getBucket t (t.dir.getD (indexOf t k) 0)).list k' with _ | w
            · simp only
              rw [if_neg (fun hc => hk' hc.symm)]
            · rfl
          · rw [if_neg hsame]

/-- Starting table invariant. -/
lemma Inv_init (sz : Nat) : Inv (init sz) := by
  refine ⟨rfl, ?_, ?_⟩
  · intro d hd
    simp only [init, List.mem_singleton] at hd
    simp [init, hd]
  · intro d hd
    simp only [init, List.mem_singleton] at hd
    subst hd
    exact ⟨rfl, by simp [init, getBucket], by simp [init, getBucket], by simp [init, getBucket]⟩

/-- `Remove` preserves the invariant. -/
lemma Inv_removeKey (t : Table) (k : Nat) (hInv : Inv t) : Inv (removeKey t k).2 := by
  obtain ⟨hdirlen, hvalid, hok⟩ := hInv
  have hidxlt : indexOf t k < t.dir.length := by
    rw [indexOf_eq_mod, hdirlen]
    exact Nat.mod_lt _ (Nat.pos_pow_of_pos _ (by omega))
  have hbidmem : t.dir.getD (indexOf t k) 0 ∈ t.dir := getD_mem _ _ hidxlt
  have hbidlt := hvalid _ hbidmem
  have hbok := hok _ hbidmem
  unfold removeKey Bucket.removeKey
  simp only
  refine Inv_set_bucket t _ _ ⟨hdirlen, hvalid, hok⟩ hbidlt hbok.1 ?_ ?_ hbok.2.2.2
  · simp only
    exact le_trans (removePair_length_le _ _) hbok.2.1
  · simp only
    exact removePair_nodup _ _ hbok.2.2.1

/-- Every reachable table satisfies the invariant. -/
lemma Reachable_Inv (t : Table) (h : Reachable t) : Inv t := by
  induction h with
  | start sz => exact Inv_init sz
  | step_insert t t' k v fuel _ hins ih =>
    exact (insertLoop_spec k v fuel t t' ih hins).1
  | step_remove t k _ ih => exact Inv_removeKey t k ih

/-- The table produced by the Scenario D insert sequence. -/
def scenarioDTable : Table :=
  ⟨3, 2, 4, [1, 5, 1, 4, 1, 6, 1, 4],
    [⟨[(1, 10), (5, 20)], 2, 1⟩, ⟨[], 2, 1⟩,
     ⟨[(1, 10), (5, 20)], 2, 2⟩, ⟨[(1, 10), (5, 20)], 2, 3⟩,
     ⟨[], 2, 2⟩, ⟨[(1, 10), (9, 30)], 2, 3⟩, ⟨[(5, 20)], 2, 3⟩]⟩

/-- Folding a sequence of inserts with pairwise-distinct keys preserves
the invariant and records every inserted pair, leaving other keys'
lookups unchanged. -/
lemma foldInsert_spec (ops : List ((Nat × Nat) × Nat)) :
    ∀ (t t' : Table), Inv t → (ops.map (fun o => o.1.1)).Nodup →
      foldInsert t ops = some t' →
      (∀ o ∈ ops, find t' o.1.1 = some o.1.2) ∧
      (∀ k', k' ∉ ops.map (fun o => o.1.1) → find t' k' = find t k') ∧
      Inv t' := by
  induction ops with
  | nil =>
    intro t t' hInv _ h
    have ht : t = t' := by simpa [foldInsert] using h
    subst ht
    exact ⟨fun o ho => absurd ho (by simp), fun k' _ => rfl, hInv⟩
  | cons o rest ih =>
    intro t t' hInv hnd h
    simp only [List.map_cons, List.nodup_cons] at hnd
    unfold foldInsert at h
    rcases hins : insert t o.1.1 o.1.2 o.2 with _ | t1
    · rw [hins] at h; simp at h
    · rw [hins] at h
      have hstep := insertLoop_spec o.1.1 o.1.2 o.2 t t1 hInv hins
      obtain ⟨hmem, hother, hI'⟩ := ih t1 t' hstep.1 hnd.2 h
      refine ⟨?_, ?_, hI'⟩
      · intro o' ho'
        rcases List.mem_cons.mp ho' with rfl | ho'
        · rw [hother o'.1.1 hnd.1]
          exact hstep.2.1
        · exact hmem o' ho'
      · intro k' hk'
        have hk1 : k' ∉ rest.map (fun o => o.1.1) := fun hc => hk' (by simp [hc])
        have hk0 : k' ≠ o.1.1 := fun hc => hk' (by simp [hc])
        rw [hother k' hk1, hstep.2.2 k' hk0]

/-- C8: no inserted key is lost across any split — after any sequence of
completed inserts with pairwise-distinct keys starting from a fresh
table, `Find` returns the inserted value for every inserted key; and in
Scenario D (bucket size 2, inserting (1,10),(5,20),(9,30)) the global
depth is at least 1 and each key finds its value. -/
theorem insert_never_loses_keys :
    (∀ (sz : Nat) (ops : List ((Nat × Nat) × Nat)) (t' : Table),
      (ops.map (fun o => o.1.1)).Nodup →
      foldInsert (init sz) ops = some t' →
      ∀ o ∈ ops, find t' o.1.1 = some o.1.2) ∧
    (∃ t, scenarioD = some t ∧ 1 ≤ t.globalDepth ∧
      find t 1 = some 10 ∧ find t 5 = some 20 ∧ find t 9 = some 30) := by
  constructor
  · intro sz ops t' hnd h
    exact (foldInsert_spec ops (init sz) t' (Inv_init sz) hnd h).1
  · exact ⟨scenarioDTable, by decide, by decide, by decide, by decide, by decide⟩

/-- Witness for C8: the general conjunct applied to the Scenario D
insert sequence and its concrete resulting table. -/
theorem insert_never_loses_keys_witness :
    ∀ o ∈ [((1, 10), 9), ((5, 20), 9), ((9, 30), 9)],
      find scenarioDTable o.1.1 = some o.1.2 :=
  insert_never_loses_keys.1 2 [((1, 10), 9), ((5, 20), 9), ((9, 30), 9)]
    scenarioDTable (by decide) (by decide)

/-- C10: in every reachable state of the extendible hash table the
directory holds exactly `2 ^ global_depth` slots, every slot indexes a
bucket present in the store, and for every key `IndexOf` is a valid
directory index whose slot dereferences within the store — so `Find`,
`Remove` and `Insert` never access the directory out of range, including
on a freshly constructed table. -/
theorem directory_always_valid (t : Table) (h : Reachable t) :
    t.dir.length = 2 ^ t.globalDepth ∧
    (∀ d ∈ t.dir, d < t.buckets.length) ∧
    (∀ k, indexOf t k < t.dir.length ∧
      t.dir.getD (indexOf t k) 0 < t.buckets.length) := by
  obtain ⟨hdirlen, hvalid, _⟩ := Reachable_Inv t h
  refine ⟨hdirlen, hvalid, ?_⟩
  intro k
  have hidxlt : indexOf t k < t.dir.length := by
    rw [indexOf_eq_mod, hdirlen]
    exact Nat.mod_lt _ (Nat.pos_pow_of_pos _ (by omega))
  exact ⟨hidxlt, hvalid _ (getD_mem _ _ hidxlt)⟩

/-- Witness for C10 at the freshly constructed table of bucket size 2. -/
theorem directory_always_valid_witness :
    (init 2).dir.length = 2 ^ (init 2).globalDepth ∧
    (∀ d ∈ (init 2).dir, d < (init 2).buckets.length) ∧
    (∀ k, indexOf (init 2) k < (init 2).dir.length ∧
      (init 2).dir.getD (indexOf (init 2) k) 0 < (init 2).buckets.length) :=
  directory_always_valid (init 2) (Reachable.start 2)

/-- Witness for C7 at a concrete one-bucket table holding (1, 10). -/
theorem insert_existing_key_upserts_witness :
    ∃ t', insert ⟨0, 2, 1, [0], [⟨[(1, 10)], 2, 0⟩]⟩ 1 99 2 = some t' ∧
      t'.globalDepth = (0 : Nat) ∧
      t'.numBuckets = (1 : Nat) ∧
      t'.dir = [0] ∧
      t'.buckets.length = (1 : Nat) ∧
      find t' 1 = some 99 ∧
      (∀ k', k' ≠ 1 → find t' k' = find ⟨0, 2, 1, [0], [⟨[(1, 10)], 2, 0⟩]⟩ k') :=
  insert_existing_key_upserts ⟨0, 2, 1, [0], [⟨[(1, 10)], 2, 0⟩]⟩ 1 99 10 2
    (by decide) (by decide)

end EHT

namespace BPM

/-- A frame's `Page` object (`buffer_pool_manager_instance.cpp`): the page
id it currently holds (`INVALID_PAGE_ID` is `none`), the pin count, the
dirty flag, and the 4 KiB data array abstracted to a single value
(`ResetMemory` zeroes it). -/
structure BPage where
  pageId : Option Nat
  pinCount : Nat
  isDirty : Bool
  data : Nat
deriving DecidableEq, Repr

/-- The empty frame as produced by the pool constructor / `ResetMemory`. -/
def emptyPage : BPage := ⟨none, 0, false, 0⟩

/-- An operation observed by the disk manager. -/
inductive DiskEvent
  | write (pid : Nat) (data : Nat)
  | read (pid : Nat)
deriving DecidableEq, Repr

/-- State of `BufferPoolManagerInstance`: the frame array, the page
table (the `ExtendibleHashTable<page_id_t, frame_id_t>` of the source,
modelled by the association map it implements — its `Find`/`Insert`/
`Remove` semantics are established in the `EHT` development), the LRU-K
replacer, the free list, the allocation counter, and the disk manager's
contents together with the totally ordered log of calls it observes. -/
structure State where
  poolSize : Nat
  pages : List BPage
  pageTable : List (Nat × Nat)
  replacer : LRUK.Replacer
  freeList : List Nat
  nextPageId : Nat
  disk : List (Nat × Nat)
  diskLog : List DiskEvent
deriving DecidableEq, Repr

/-- `BufferPoolManagerInstance::BufferPoolManagerInstance(pool_size, ..., replacer_k, ...)`. -/
def init (poolSize replacerK : Nat) : State :=
  { poolSize := poolSize,
    pages := List.replicate poolSize emptyPage,
    pageTable := [],
    replacer := LRUK.init poolSize replacerK,
    freeList := List.range poolSize,
    nextPageId := 0,
    disk := [],
    diskLog := [] }

/-- `page_table_->Find(page_id, frame_id)`. -/
def lookupPT (pt : List (Nat × Nat)) (pid : Nat) : Option Nat :=
  match pt with
  | [] => none
  | e :: rest => if e.1 = pid then some e.2 else lookupPT rest pid

/-- `page_table_->Remove(page_id)`. -/
def removePT (pt : List (Nat × Nat)) (pid : Nat) : List (Nat × Nat) :=
  pt.filter (fun e => e.1 ≠ pid)

/-- `page_table_->Insert(page_id, frame_id)` (an upsert). -/
def insertPT (pt : List (Nat × Nat)) (pid fid : Nat) : List (Nat × Nat) :=
  match pt with
  | [] => [(pid, fid)]
  | e :: rest => if e.1 = pid then (pid, fid) :: rest else e :: insertPT rest pid fid

/-- `disk_manager_->WritePage(page_id, data)`: persist the bytes and log
the call. -/
def diskWrite (s : State) (pid data : Nat) : State :=
  { s with disk := insertPT s.disk pid data,
           diskLog := s.diskLog ++ [DiskEvent.write pid data] }

/-- `disk_manager_->ReadPage(page_id, buf)`: fetch the bytes (zeros for a
never-written page) and log the call. -/
def diskRead (s : State) (pid : Nat) : Nat × State :=
  ((lookupPT s.disk pid).getD 0,
    { s with diskLog := s.diskLog ++ [DiskEvent.read pid] })

/-- The frame-acquisition path shared by `NewPgImp` and `FetchPgImp`: pop
the free list, else ask the replacer for a victim, flushing it first when
dirty and dropping it from the page table. Returns the acquired frame
id. -/
def obtainFrame (s : State) : Option (Nat × State) :=
  match s.freeList with
  | fid :: rest => some (fid, { s with freeList := rest })
  | [] =>
    match LRUK.evict s.replacer with
    | none => none
    | some (fid, rep') =>
      let s1 := { s with replacer := rep' }
      let victim := s1.pages.getD fid emptyPage
      let s2 := if victim.isDirty then
          diskWrite s1 (victim.pageId.getD 0) victim.data
        else s1
      some (fid, { s2 with pageTable := removePT s2.pageTable (victim.pageId.getD 0) })

/-- `BufferPoolManagerInstance::NewPgImp`: acquire a frame (free list
first, else evict with dirty flush), allocate a fresh id, reset the frame
to hold the pinned zeroed new page, register it and mark it
non-evictable. -/
def newPage (s : State) : Option (Nat × State) :=
  match obtainFrame s with
  | none => none
  | some (fid, s1) =>
    let pid := s1.nextPageId
    let s2 := { s1 with
      nextPageId := s1.nextPageId + 1,
      pages := s1.pages.set fid ⟨some pid, 1, false, 0⟩,
      pageTable := insertPT s1.pageTable pid fid }
    some (pid, { s2 with
      replacer := LRUK.setEvictable (LRUK.recordAccess s2.replacer fid) fid false })

/-- `BufferPoolManagerInstance::FetchPgImp`: if resident, pin and
refresh; otherwise acquire a frame as in `NewPgImp`, read the page from
disk into it, register it and mark it non-evictable. -/
def fetchPage (s : State) (pid : Nat) : Option State :=
  match lookupPT s.pageTable pid with
  | some fid =>
    let page := s.pages.getD fid emptyPage
    some { s with
      pages := s.pages.set fid { page with pinCount := page.pinCount + 1 },
      replacer := LRUK.setEvictable (LRUK.recordAccess s.replacer fid) fid false }
  | none =>
    match obtainFrame s with
    | none => none
    | some (fid, s1) =>
      let s2 := { s1 with pages := s1.pages.set fid ⟨some pid, 1, false, 0⟩ }
      let r := diskRead s2 pid
      let s3 := { r.2 with
        pages := r.2.pages.set fid ⟨some pid, 1, false, r.1⟩,
        pageTable := insertPT r.2.pageTable pid fid }
      some { s3 with
        replacer := LRUK.setEvictable (LRUK.recordAccess s3.replacer fid) fid false }

/-- `BufferPoolManagerInstance::UnpinPgImp`. -/
def unpinPage (s : State) (pid : Nat) (isDirty : Bool) : Bool × State :=
  match lookupPT s.pageTable pid with
  | none => (false, s)
  | some fid =>
    let page := s.pages.getD fid emptyPage
    if page.pinCount = 0 then (false, s)
    else
      let page1 := { page with
        pinCount := page.pinCount - 1,
        isDirty := page.isDirty || isDirty }
      let s1 := { s with pages := s.pages.set fid page1 }
      if page1.pinCount = 0 then
        (true, { s1 with replacer := LRUK.setEvictable s1.replacer fid true })
      else (true, s1)

/-- `BufferPoolManagerInstance::FlushPgImp`: write unconditionally and
clear the dirty flag. -/
def flushPage (s : State) (pid : Nat) : Bool × State :=
  match lookupPT s.pageTable pid with
  | none => (false, s)
  | some fid =>
    let page := s.pages.getD fid emptyPage
    let s1 := diskWrite s pid page.data
    (true, { s1 with pages := s1.pages.set fid { page with isDirty := false } })

/-- `BufferPoolManagerInstance::DeletePgImp`. -/
def deletePage (s : State) (pid : Nat) : Bool × State :=
  match lookupPT s.pageTable pid with
  | none => (true, s)
  | some fid =>
    let page := s.pages.getD fid emptyPage
    if 0 < page.pinCount then (false, s)
    else
      (true, { s with
        pageTable := removePT s.pageTable pid,
        replacer := LRUK.removeFrame s.replacer fid,
        pages := s.pages.set fid emptyPage,
        freeList := s.freeList ++ [fid] })

/-- The test driver writing bytes through the pinned page pointer
returned by `new_page`/`fetch_page` (Scenario C's "write arbitrary
bytes"): mutate the resident page's data and nothing else. -/
def writeData (s : State) (pid d : Nat) : State :=
  match lookupPT s.pageTable pid with
  | none => s
  | some fid =>
    let page := s.pages.getD fid emptyPage
    { s with pages := s.pages.set fid { page with data := d } }

/-- The state of Scenario C just before the second `new_page`: pool size
1, `new_page` returned page 0, 42 written through the pin, then
`unpin(0, dirty = true)`. -/
def scenarioC : Option State :=
  match newPage (init 1 2) with
  | none => none
  | some (p0, s1) => some (unpinPage (writeData s1 p0 42) p0 true).2

end BPM

namespace BPM

lemma obtainFrame_evict_dirty (s : State) (victim : Nat) (rep' : LRUK.Replacer)
    (hfree : s.freeList = [])
    (hevict : LRUK.evict s.replacer = some (victim, rep'))
    (hdirty : (s.pages.getD victim emptyPage).isDirty = true) :
    obtainFrame s = some (victim,
      { s with replacer := rep',
               disk := insertPT s.disk ((s.pages.getD victim emptyPage).pageId.getD 0)
                 (s.pages.getD victim emptyPage).data,
               diskLog := s.diskLog ++
                 [DiskEvent.write ((s.pages.getD victim emptyPage).pageId.getD 0)
                   (s.pages.getD victim emptyPage).data],
               pageTable := removePT s.pageTable
                 ((s.pages.getD victim emptyPage).pageId.getD 0) }) := by
  unfold obtainFrame
  rw [hfree, hevict]
  simp only [hdirty, if_pos]
  simp [diskWrite, hfree]

lemma obtainFrame_evict_clean (s : State) (victim : Nat) (rep' : LRUK.Replacer)
    (hfree : s.freeList = [])
    (hevict : LRUK.evict s.replacer = some (victim, rep'))
    (hclean : (s.pages.getD victim emptyPage).isDirty = false) :
    obtainFrame s = some (victim,
      { s with replacer := rep',
               pageTable := removePT s.pageTable
                 ((s.pages.getD victim emptyPage).pageId.getD 0) }) := by
  unfold obtainFrame
  rw [hfree, hevict]
  simp only [hclean, Bool.false_eq_true, if_false]

/-- Eviction inside `new_page`/`fetch_page`: the disk log extension is
exactly the conditional flush of the dirty victim (plus, for
`fetch_page`, the read of the fetched page), and the frame ends up
holding the new page. -/
lemma eviction_flush_spec (s : State) (pid victim : Nat)
    (rep' : LRUK.Replacer)
    (hfree : s.freeList = [])
    (hevict : LRUK.evict s.replacer = some (victim, rep'))
    (hv : victim < s.pages.length) :
    (∀ p s', newPage s = some (p, s') →
      s'.diskLog = s.diskLog ++
        (if (s.pages.getD victim emptyPage).isDirty then
          [DiskEvent.write ((s.pages.getD victim emptyPage).pageId.getD 0)
            (s.pages.getD victim emptyPage).data]
        else []) ∧
      (s'.pages.getD victim emptyPage).pageId = some p ∧
      (s'.pages.getD victim emptyPage).data = 0) ∧
    (lookupPT s.pageTable pid = none →
      ∀ s', fetchPage s pid = some s' →
      s'.diskLog = (s.diskLog ++
        (if (s.pages.getD victim emptyPage).isDirty then
          [DiskEvent.write ((s.pages.getD victim emptyPage).pageId.getD 0)
            (s.pages.getD victim emptyPage).data]
        else [])) ++ [DiskEvent.read pid] ∧
      (s'.pages.getD victim emptyPage).pageId = some pid) := by
  constructor
  · intro p s' h
    cases hdirty : (s.pages.getD victim emptyPage).isDirty with
    | true =>
      unfold newPage at h
      rw [obtainFrame_evict_dirty s victim rep' hfree hevict hdirty] at h
      simp only [Option.some.injEq, Prod.mk.injEq] at h
      obtain ⟨hp, hs'⟩ := h
      subst hp
      refine ⟨?_, ?_, ?_⟩
      · rw [← hs']
        simp
      · rw [← hs']
        simp only
        rw [EHT.getD_set_self _ _ _ _ hv]
      · rw [← hs']
        simp only
        rw [EHT.getD_set_self _ _ _ _ hv]
    | false =>
      unfold newPage at h
      rw [obtainFrame_evict_clean s victim rep' hfree hevict hdirty] at h
      simp only [Option.some.injEq, Prod.mk.injEq] at h
      obtain ⟨hp, hs'⟩ := h
      subst hp
      refine ⟨?_, ?_, ?_⟩
      · rw [← hs']
        simp
      · rw [← hs']
        simp only
        rw [EHT.getD_set_self _ _ _ _ hv]
      · rw [← hs']
        simp only
        rw [EHT.getD_set_self _ _ _ _ hv]
  · intro hmiss s' h
    cases hdirty : (s.pages.getD victim emptyPage).isDirty with
    | true =>
      unfold fetchPage at h
      rw [hmiss, obtainFrame_evict_dirty s victim rep' hfree hevict hdirty] at h
      simp only [Option.some.injEq] at h
      refine ⟨?_, ?_⟩
      · rw [← h]
        simp [diskRead]
      · rw [← h]
        simp only [diskRead]
        rw [List.set_set]
        rw [EHT.getD_set_self _ _ _ _ (by simpa using hv)]
    | false =>
      unfold fetchPage at h
      rw [hmiss, obtainFrame_evict_clean s victim rep' hfree hevict hdirty] at h
      simp only [Option.some.injEq] at h
      refine ⟨?_, ?_⟩
      · rw [← h]
        simp [diskRead]
      · rw [← h]
        simp only [diskRead]
        rw [List.set_set]
        rw [EHT.getD_set_self _ _ _ _ (by simpa using hv)]

/-- The concrete Scenario C state (pool size 1, page 0 dirty with bytes
42, unpinned): the value of `scenarioC`. -/
def scenarioCState : State :=
  ⟨1, [⟨some 0, 0, true, 42⟩], [(0, 0)], ⟨[(0, ⟨[1], true⟩)], 1, 1, 1, 2⟩,
    [], 1, [], []⟩

/-- C6: whenever `new_page` or `fetch_page` obtains its frame by
eviction, a dirty victim's page id and bytes are written to the disk
manager before the frame is reused for the new page, and a clean victim
causes no disk write for it; in particular, in Scenario C (pool size 1,
`new_page` -> p0, write bytes 42, `unpin(p0, true)`), the second
`new_page` returns p1 = 1 and the disk observes exactly
`write_page(0, 42)` before frame 0 holds page 1. -/
theorem dirty_eviction_flushed_before_reuse :
    (∀ (s : State) (pid victim : Nat) (rep' : LRUK.Replacer),
      s.freeList = [] →
      LRUK.evict s.replacer = some (victim, rep') →
      victim < s.pages.length →
      (∀ p s', newPage s = some (p, s') →
        s'.diskLog = s.diskLog ++
          (if (s.pages.getD victim emptyPage).isDirty then
            [DiskEvent.write ((s.pages.getD victim emptyPage).pageId.getD 0)
              (s.pages.getD victim emptyPage).data]
          else []) ∧
        (s'.pages.getD victim emptyPage).pageId = some p ∧
        (s'.pages.getD victim emptyPage).data = 0) ∧
      (lookupPT s.pageTable pid = none →
        ∀ s', fetchPage s pid = some s' →
        s'.diskLog = (s.diskLog ++
          (if (s.pages.getD victim emptyPage).isDirty then
            [DiskEvent.write ((s.pages.getD victim emptyPage).pageId.getD 0)
              (s.pages.getD victim emptyPage).data]
          else [])) ++ [DiskEvent.read pid] ∧
        (s'.pages.getD victim emptyPage).pageId = some pid)) ∧
    (scenarioC = some scenarioCState ∧
      ((newPage scenarioCState).map
        (fun r => (r.1, r.2.diskLog, (r.2.pages.getD 0 emptyPage).pageId))) =
        some (1, [DiskEvent.write 0 42], some 1)) := by
  refine ⟨?_, by decide, by decide⟩
  intro s pid victim rep' hfree hevict hv
  exact eviction_flush_spec s pid victim rep' hfree hevict hv

/-- Witness for C6: the general statement applied to the Scenario C
state, whose eviction hypotheses are checked by evaluation. -/
theorem dirty_eviction_flushed_before_reuse_witness :
    (∀ p s', newPage scenarioCState = some (p, s') →
      s'.diskLog = scenarioCState.diskLog ++
        (if (scenarioCState.pages.getD 0 emptyPage).isDirty then
          [DiskEvent.write ((scenarioCState.pages.getD 0 emptyPage).pageId.getD 0)
            (scenarioCState.pages.getD 0 emptyPage).data]
        else []) ∧
      (s'.pages.getD 0 emptyPage).pageId = some p ∧
      (s'.pages.getD 0 emptyPage).data = 0) ∧
    (lookupPT scenarioCState.pageTable 5 = none →
      ∀ s', fetchPage scenarioCState 5 = some s' →
      s'.diskLog = (scenarioCState.diskLog ++
        (if (scenarioCState.pages.getD 0 emptyPage).isDirty then
          [DiskEvent.write ((scenarioCState.pages.getD 0 emptyPage).pageId.getD 0)
            (scenarioCState.pages.getD 0 emptyPage).data]
        else [])) ++ [DiskEvent.read 5] ∧
      (s'.pages.getD 0 emptyPage).pageId = some 5) :=
  dirty_eviction_flushed_before_reuse.1 scenarioCState 5 0 ⟨[], 1, 0, 1, 2⟩
    (by decide) (by decide) (by decide)

end BPM

namespace BTree

/-!
The B+tree of `b_plus_tree.cpp` together with its leaf/internal page
operations (`b_plus_tree_leaf_page.cpp`, `b_plus_tree_internal_page.cpp`).
Keys and record ids are naturals (`GenericKey<8>` compared as integers,
`RID`); `INVALID_PAGE_ID` (-1) is `none`. Each node carries its stored
header `page_id_` field (`sid`), read wherever the source calls
`GetPageId()` through a node pointer. The shared page header accessors
(`b_plus_tree_page.cpp` is not among the sources) are modelled from the
spec where noted.
-/

/-- A B+tree page's content. `sid` is the stored `page_id_`, `maxSize`
the stored `max_size_`. For an internal page, entry 0's key is invalid
and carries the leftmost child pointer. -/
inductive BNode
  | leaf (sid : Nat) (parent next : Option Nat) (maxSize : Nat)
      (entries : List (Nat × Nat))
  | internal (sid : Nat) (parent : Option Nat) (maxSize : Nat)
      (entries : List (Nat × Nat))
deriving DecidableEq, Repr

/-- A zero-filled page as read from a never-written disk location: page
type 0 (not a leaf, so the code treats it as internal), all header
fields 0 (stored page id 0, parent page id reads as page 0), no
entries. -/
def zeroNode : BNode := .internal 0 (some 0) 0 []

/-- `GetPageId()` through a node pointer — the stored header field. -/
def BNode.sid : BNode → Nat
  | .leaf i _ _ _ _ => i
  | .internal i _ _ _ => i

/-- `IsLeafPage()` — the page-type tag. -/
def BNode.isLeaf : BNode → Bool
  | .leaf _ _ _ _ _ => true
  | .internal _ _ _ _ => false

/-- `GetParentPageId()`. -/
def BNode.parent : BNode → Option Nat
  | .leaf _ p _ _ _ => p
  | .internal _ p _ _ => p

/-- `GetSize()`. -/
def BNode.size : BNode → Nat
  | .leaf _ _ _ _ es => es.length
  | .internal _ _ _ es => es.length

/-- `GetMaxSize()`. -/
def BNode.maxSize : BNode → Nat
  | .leaf _ _ _ m _ => m
  | .internal _ _ m _ => m

/-- The page's entry array, read uniformly. -/
def BNode.entries : BNode → List (Nat × Nat)
  | .leaf _ _ _ _ es => es
  | .internal _ _ _ es => es

/-- `IsRootPage()`. Modelled from the spec: a page is the root iff its
parent id is `INVALID_PAGE_ID` (the tree sets the root's parent to
INVALID whenever the root changes). -/
def BNode.isRoot (n : BNode) : Bool := n.parent = none

/-- `GetMinSize()`. Modelled from the spec (invariant 5): a non-root
leaf holds at least ceil((max-1)/2) entries and a non-root internal page
at least ceil(max/2) children. -/
def BNode.minSize : BNode → Nat
  | .leaf _ _ _ m _ => m / 2
  | .internal _ _ m _ => (m + 1) / 2

/-- `KeyAt(index)` for a signed index: out-of-range reads return the
zeroed default the surrounding scenarios would see. -/
def BNode.keyAtI (n : BNode) (i : Int) : Nat :=
  if 0 ≤ i then (n.entries.getD i.toNat (0, 0)).1 else 0

/-- `KeyAt(index)`. -/
def BNode.keyAt (n : BNode) (i : Nat) : Nat := (n.entries.getD i (0, 0)).1

/-- `ValueAt(index)`. -/
def BNode.valueAt (n : BNode) (i : Nat) : Nat := (n.entries.getD i (0, 0)).2

/-- `SetParentPageId(id)`. -/
def BNode.setParent (n : BNode) (p : Option Nat) : BNode :=
  match n with
  | .leaf i _ nx m es => .leaf i p nx m es
  | .internal i _ m es => .internal i p m es

/-- `BPlusTreeLeafPage::GetNextPageId`. -/
def BNode.next : BNode → Option Nat
  | .leaf _ _ nx _ _ => nx
  | .internal _ _ _ _ => none

/-- `BPlusTreeLeafPage::SetNextPageId`. -/
def BNode.setNext (n : BNode) (nx : Option Nat) : BNode :=
  match n with
  | .leaf i p _ m es => .leaf i p nx m es
  | .internal i p m es => .internal i p m es

/-- The binary search of `BPlusTreeLeafPage::FindKeyIndex`: the insert
position for `key`, or `none` (the C++ -1) when the key is present. -/
def fkiGo (entries : List (Nat × Nat)) (key : Nat) :
    Nat → Int → Int → Option Int
  | 0, left, _ => some left
  | gas + 1, left, right =>
    if left ≤ right then
      let mid := left + (right - left) / 2
      let midKey := (entries.getD mid.toNat (0, 0)).1
      if midKey = key then none
      else if midKey < key then fkiGo entries key gas (mid + 1) right
      else fkiGo entries key gas left (mid - 1)
    else some left

/-- `BPlusTreeLeafPage::FindKeyIndex(key, comparator)`. The gas
`entries.length + 1` exceeds the search interval length, so the halving
loop never exhausts it. -/
def findKeyIndex (entries : List (Nat × Nat)) (key : Nat) : Option Int :=
  fkiGo entries key (entries.length + 1) 0 (entries.length - 1)

/-- `BPlusTreeLeafPage::Insert(key, value, comparator)`: fail when full
or duplicate, else insert at the binary-search position. (Reading a
non-leaf page through a `LeafPage` pointer is undefined in the source
and modelled as a failed insert.) -/
def BNode.leafInsert (n : BNode) (k v : Nat) : Option BNode :=
  match n with
  | .leaf i p nx m es =>
    if es.length ≥ m then none
    else
      match findKeyIndex es k with
      | none => none
      | some idx =>
        some (.leaf i p nx m (es.take idx.toNat ++ [(k, v)] ++ es.drop idx.toNat))
  | .internal _ _ _ _ => none

/-- `BPlusTreeLeafPage::MoveHalfTo(recipient)`: the remaining entries,
the moved entries, and the split key (the first moved key). -/
def leafMoveHalf (es : List (Nat × Nat)) :
    List (Nat × Nat) × List (Nat × Nat) × Nat :=
  let start := es.length / 2
  (es.take start, es.drop start, (es.getD start (0, 0)).1)

/-- `RemoveAt(index)` (signed; out of range is a no-op) on the entry
list. -/
def removeAtI (es : List (Nat × Nat)) (i : Int) : List (Nat × Nat) :=
  if 0 ≤ i ∧ i < (es.length : Int) then
    es.take i.toNat ++ es.drop (i.toNat + 1)
  else es

/-- `RemoveAt` on a node (both page kinds share the implementation
shape). -/
def BNode.removeAt (n : BNode) (i : Int) : BNode :=
  match n with
  | .leaf pi p nx m es => .leaf pi p nx m (removeAtI es i)
  | .internal pi p m es => .internal pi p m (removeAtI es i)

/-- The insert-position scan of `BPlusTreeInternalPage::Insert`: starting
from 1, advance past keys `< key`. -/
def internalScanGo (es : List (Nat × Nat)) (key : Nat) : Nat → Nat → Nat
  | i, 0 => i
  | i, gas + 1 =>
    if i < es.length then
      if (es.getD i (0, 0)).1 < key then internalScanGo es key (i + 1) gas else i
    else i

def internalScan (es : List (Nat × Nat)) (key i : Nat) : Nat :=
  internalScanGo es key i (es.length - i)

/-- `BPlusTreeInternalPage::Insert(key, value, comparator)`. -/
def BNode.internalInsert (n : BNode) (k v : Nat) : Option BNode :=
  match n with
  | .internal pi p m es =>
    if es.length ≥ m then none
    else if es.length = 0 then some (.internal pi p m [(0, v)])
    else
      let idx := internalScan es k 1
      if idx < es.length ∧ (es.getD idx (0, 0)).1 = k then none
      else some (.internal pi p m (es.take idx ++ [(k, v)] ++ es.drop idx))
  | .leaf _ _ _ _ _ => none

/-- `BPlusTreeInternalPage::FindValue(value)` (also the scan of
`InsertNodeAfter` and `FindIndexInParent`): the index of the child
pointer equal to `value`, or -1. -/
def findValueIdx (es : List (Nat × Nat)) (v : Nat) : Int :=
  match es.findIdx? (fun e => e.2 = v) with
  | some i => (i : Int)
  | none => -1

/-- `BPlusTreeInternalPage::InsertNodeAfter(old_value, new_key,
new_value)`: insert right after the entry whose child pointer is
`old_value`; silently do nothing when absent. No capacity check. -/
def BNode.insertNodeAfter (n : BNode) (oldV newK newV : Nat) : BNode :=
  match n with
  | .internal pi p m es =>
    match es.findIdx? (fun e => e.2 = oldV) with
    | none => n
    | some oldIdx =>
      .internal pi p m (es.take (oldIdx + 1) ++ [(newK, newV)] ++ es.drop (oldIdx + 1))
  | .leaf _ _ _ _ _ => n

/-- `BPlusTreeInternalPage::MoveHalfTo(recipient)`: start at
`max(1, size/2)`; the moved block's first key is promoted and zeroed in
the recipient. Returns remaining entries, recipient entries, split
key. -/
def internalMoveHalf (es : List (Nat × Nat)) :
    List (Nat × Nat) × List (Nat × Nat) × Nat :=
  let start := max 1 (es.length / 2)
  let moved := es.drop start
  (es.take start,
   match moved with
   | [] => []
   | e :: rest => (0, e.2) :: rest,
   (es.getD start (0, 0)).1)

/-- `BPlusTreeInternalPage::PopulateNewRoot(left, key, right)`. -/
def populateNewRoot (leftV key rightV : Nat) : List (Nat × Nat) :=
  [(0, leftV), (key, rightV)]

/-- `SetKeyAt(index, key)` (signed index; an out-of-range write of the
source would touch adjacent memory and is modelled as a no-op). -/
def BNode.setKeyAt (n : BNode) (i : Int) (k : Nat) : BNode :=
  match n with
  | .internal pi p m es =>
    if 0 ≤ i ∧ i < (es.length : Int) then
      .internal pi p m (es.set i.toNat (k, (es.getD i.toNat (0, 0)).2))
    else n
  | .leaf _ _ _ _ _ => n

/-- The page store backing the tree: the buffer pool manager of
`buffer_pool_manager_instance.cpp` specialised to the claims' standing
hypothesis of a pool large enough that no fetch or allocation fails and
hence no frame is ever evicted. Each resident page carries its pin
count, dirty flag and content; fetching a page id that is not resident
returns the zero-filled disk image, exactly as `FetchPgImp` would after
`ReadPage` of a never-written page; `DeletePage` mirrors `DeletePgImp`
(failing on pinned pages) and additionally logs every call, which the
no-leak claim counts. Page 0 is the header page pre-allocated by the
test harness; tree pages are allocated from id 1 up. -/
structure PageStore where
  pages : List (Nat × (Nat × Bool × BNode))
  nextPid : Nat
  deleteCalls : List Nat
deriving DecidableEq, Repr

/-- The store at tree construction: only the pinned header page. -/
def emptyStore : PageStore := ⟨[(0, (1, false, zeroNode))], 1, []⟩

def lookupPage (ps : List (Nat × (Nat × Bool × BNode))) (pid : Nat) :
    Option (Nat × Bool × BNode) :=
  match ps with
  | [] => none
  | e :: rest => if e.1 = pid then some e.2 else lookupPage rest pid

def updatePage (ps : List (Nat × (Nat × Bool × BNode))) (pid : Nat)
    (v : Nat × Bool × BNode) : List (Nat × (Nat × Bool × BNode)) :=
  match ps with
  | [] => []
  | e :: rest => if e.1 = pid then (pid, v) :: rest else e :: updatePage rest pid v

/-- The node currently stored at `pid` (a read through a held pointer). -/
def getNode (s : PageStore) (pid : Nat) : BNode :=
  match lookupPage s.pages pid with
  | some (_, _, n) => n
  | none => zeroNode

/-- `buffer_pool_manager_->FetchPage(pid)`: pin the resident page, or
materialise the zero-filled disk image pinned once. -/
def fetchPage (s : PageStore) (pid : Nat) : BNode × PageStore :=
  match lookupPage s.pages pid with
  | some (pin, d, n) => (n, { s with pages := updatePage s.pages pid (pin + 1, d, n) })
  | none => (zeroNode, { s with pages := s.pages ++ [(pid, (1, false, zeroNode))] })

/-- `buffer_pool_manager_->NewPage(&pid)`: allocate the next id, pinned
once, zeroed. -/
def newPage (s : PageStore) : Nat × PageStore :=
  (s.nextPid, { s with pages := s.pages ++ [(s.nextPid, (1, false, zeroNode))],
                       nextPid := s.nextPid + 1 })

/-- `buffer_pool_manager_->UnpinPage(pid, is_dirty)` (`UnpinPgImp`). -/
def unpinPage (s : PageStore) (pid : Nat) (dirty : Bool) : PageStore :=
  match lookupPage s.pages pid with
  | none => s
  | some (pin, d, n) =>
    if pin = 0 then s
    else { s with pages := updatePage s.pages pid (pin - 1, d || dirty, n) }

/-- A mutation of a pinned page's content through the held pointer. -/
def writeNode (s : PageStore) (pid : Nat) (n : BNode) : PageStore :=
  match lookupPage s.pages pid with
  | none => s
  | some (pin, d, _) => { s with pages := updatePage s.pages pid (pin, d, n) }

/-- `buffer_pool_manager_->DeletePage(pid)` (`DeletePgImp`), logging the
call: true when not resident; false when pinned; else drop the page. -/
def deletePage (s : PageStore) (pid : Nat) : Bool × PageStore :=
  let s0 := { s with deleteCalls := s.deleteCalls ++ [pid] }
  match lookupPage s0.pages pid with
  | none => (true, s0)
  | some (pin, _, _) =>
    if 0 < pin then (false, s0)
    else (true, { s0 with pages := s0.pages.filter (fun e => e.1 ≠ pid) })

/-- The tree object: `root_page_id_` and the two size parameters. -/
structure BPT where
  rootPageId : Option Nat
  leafMaxSize : Nat
  internalMaxSize : Nat
deriving DecidableEq, Repr

/-- `BPlusTree::BPlusTree(...)`. -/
def newTree (lm im : Nat) : BPT := ⟨none, lm, im⟩

/-- `BPlusTree::IsEmpty`. -/
def isEmpty (t : BPT) : Bool := t.rootPageId = none

/-- `BPlusTree::UpdateRootPageId`: fetch the header page
(`HEADER_PAGE_ID` = 0) and unpin it dirty. The header record write
itself is out of scope (spec section 1); only the pinning behaviour is
retained. -/
def updateRootPageId (s : PageStore) : PageStore :=
  unpinPage (fetchPage s 0).2 0 true

/-- The child-selection scan of `BPlusTree::FindLeafPage`: starting at 1,
advance while the separator key is `<= key`; descend into `index - 1`. -/
def childScanGo (es : List (Nat × Nat)) (key : Nat) : Nat → Nat → Nat
  | i, 0 => i
  | i, gas + 1 =>
    if i < es.length then
      if (es.getD i (0, 0)).1 ≤ key then childScanGo es key (i + 1) gas else i
    else i

def childScan (es : List (Nat × Nat)) (key i : Nat) : Nat :=
  childScanGo es key i (es.length - i)

/-- The descent loop of `BPlusTree::FindLeafPage`, with fuel standing for
the unbounded `while`: the current page is pinned; a leaf is returned
still pinned; otherwise fetch the child, unpin the current page and
continue. -/
def flpGo (key : Nat) : Nat → Nat → PageStore → Option (Nat × PageStore)
  | 0, _, _ => none
  | fuel + 1, pid, s =>
    let n := getNode s pid
    if n.isLeaf then some (pid, s)
    else
      let idx := childScan n.entries key 1
      let child := n.valueAt (idx - 1)
      let s2 := (fetchPage s child).2
      let s3 := unpinPage s2 pid false
      flpGo key fuel child s3

/-- `BPlusTree::FindLeafPage`. -/
def findLeafPage (t : BPT) (s : PageStore) (key fuel : Nat) :
    Option (Nat × PageStore) :=
  match t.rootPageId with
  | none => none
  | some rid => flpGo key fuel rid (fetchPage s rid).2

/-- The linear scan of `BPlusTree::GetValue` / `InsertIntoLeaf` /
`Remove`: the first index holding `key`. -/
def scanKey (es : List (Nat × Nat)) (key : Nat) : Option Nat :=
  es.findIdx? (fun e => e.1 = key)

/-- `BPlusTree::GetValue(key)`: the inner `none` means the key is
absent; the outer `Option` is fuel exhaustion of the descent. -/
def getValue (t : BPT) (s : PageStore) (key fuel : Nat) :
    Option (Option Nat × PageStore) :=
  if isEmpty t then some (none, s)
  else
    match findLeafPage t s key fuel with
    | none => none
    | some (leafPid, s1) =>
      let n := getNode s1 leafPid
      match scanKey n.entries key with
      | some i => some (some (n.valueAt i), unpinPage s1 leafPid false)
      | none => some (none, unpinPage s1 leafPid false)

/-- `BPlusTree::StartNewTree(key, value)`. -/
def startNewTree (t : BPT) (s : PageStore) (key value : Nat) :
    Bool × BPT × PageStore :=
  let r := newPage s
  let pid := r.1
  let s1 := writeNode r.2 pid (.leaf pid none none t.leafMaxSize [])
  match (getNode s1 pid).leafInsert key value with
  | none =>
    let s2 := unpinPage s1 pid false
    (false, t, (deletePage s2 pid).2)
  | some n' =>
    let s2 := writeNode s1 pid n'
    let t' := { t with rootPageId := some pid }
    let s3 := updateRootPageId s2
    (true, t', unpinPage s3 pid true)

/-- The leaf half of `BPlusTree::Split`: allocate the new leaf, splice it
into the chain, move the upper half. Returns the new page id and the
split key. -/
def splitLeaf (t : BPT) (s : PageStore) (leafPid : Nat) :
    Nat × Nat × PageStore :=
  let r := newPage s
  let newPid := r.1
  let old := getNode r.2 leafPid
  let s1 := writeNode r.2 newPid (.leaf newPid old.parent old.next t.leafMaxSize [])
  let s2 := writeNode s1 leafPid (old.setNext (some newPid))
  let old2 := getNode s2 leafPid
  let mh := leafMoveHalf old2.entries
  let s3 := writeNode s2 leafPid
    (.leaf old2.sid old2.parent old2.next old2.maxSize mh.1)
  let newN := getNode s3 newPid
  let s4 := writeNode s3 newPid
    (.leaf newN.sid newN.parent newN.next newN.maxSize mh.2.1)
  (newPid, mh.2.2, s4)

/-- The internal half of `BPlusTree::Split`: allocate the new internal
page, move the upper half, re-parent every moved child (to the new
node's stored page id). Returns the new page id and the promoted split
key. -/
def splitInternal (t : BPT) (s : PageStore) (nodePid : Nat) :
    Nat × Nat × PageStore :=
  let r := newPage s
  let newPid := r.1
  let old := getNode r.2 nodePid
  let s1 := writeNode r.2 newPid (.internal newPid old.parent t.internalMaxSize [])
  let mh := internalMoveHalf old.entries
  let s2 := writeNode s1 nodePid (.internal old.sid old.parent old.maxSize mh.1)
  let s3 := writeNode s2 newPid (.internal newPid old.parent t.internalMaxSize mh.2.1)
  let reparent := fun (st : PageStore) (child : Nat) =>
    let f := fetchPage st child
    unpinPage (writeNode f.2 child (f.1.setParent (some newPid))) child true
  let s4 := (mh.2.1.map Prod.snd).foldl reparent s3
  (newPid, mh.2.2, s4)

/-- `BPlusTree::InsertIntoParent(old_node, key, new_node)`, recursive on
the fuel. -/
def insertIntoParent (t : BPT) (s : PageStore) (oldPid key newPid : Nat) :
    Nat → Option (BPT × PageStore)
  | 0 => none
  | fuel + 1 =>
    let old := getNode s oldPid
    if old.isRoot then
      let r := newPage s
      let rootPid := r.1
      let s1 := writeNode r.2 rootPid
        (.internal rootPid none t.internalMaxSize
          (populateNewRoot old.sid key (getNode r.2 newPid).sid))
      let s2 := writeNode s1 oldPid ((getNode s1 oldPid).setParent (some rootPid))
      let s3 := writeNode s2 newPid ((getNode s2 newPid).setParent (some rootPid))
      let t' := { t with rootPageId := some rootPid }
      let s4 := updateRootPageId s3
      some (t', unpinPage s4 rootPid true)
    else
      let parentPid := (old.parent).getD 0
      let s1 := (fetchPage s parentPid).2
      let s2 := writeNode s1 parentPid
        ((getNode s1 parentPid).insertNodeAfter old.sid key (getNode s1 newPid).sid)
      let s3 := writeNode s2 newPid ((getNode s2 newPid).setParent (some parentPid))
      if (getNode s3 parentPid).size ≥ t.internalMaxSize then
        let sp := splitInternal t s3 parentPid
        match insertIntoParent t sp.2.2 parentPid sp.2.1 sp.1 fuel with
        | none => none
        | some (t1, s4) =>
          let s5 := unpinPage s4 (getNode s4 sp.1).sid true
          some (t1, unpinPage s5 parentPid true)
      else
        some (t, unpinPage s3 parentPid true)

/-- `BPlusTree::InsertIntoLeaf(key, value)`. -/
def insertIntoLeaf (t : BPT) (s : PageStore) (key value fuel : Nat) :
    Option (Bool × BPT × PageStore) :=
  match findLeafPage t s key fuel with
  | none => none
  | some (leafPid, s1) =>
    let n := getNode s1 leafPid
    match scanKey n.entries key with
    | some _ => some (false, t, unpinPage s1 leafPid false)
    | none =>
      match n.leafInsert key value with
      | none => some (false, t, unpinPage s1 leafPid false)
      | some n' =>
        let s2 := writeNode s1 leafPid n'
        if (getNode s2 leafPid).size ≥ t.leafMaxSize then
          let sp := splitLeaf t s2 leafPid
          match insertIntoParent t sp.2.2 leafPid sp.2.1 sp.1 fuel with
          | none => none
          | some (t1, s3) =>
            let s4 := unpinPage s3 (getNode s3 sp.1).sid true
            some (true, t1, unpinPage s4 leafPid true)
        else
          some (true, t, unpinPage s2 leafPid true)

/-- `BPlusTree::Insert(key, value)`. -/
def insertT (t : BPT) (s : PageStore) (key value fuel : Nat) :
    Option (Bool × BPT × PageStore) :=
  if isEmpty t then some (startNewTree t s key value)
  else insertIntoLeaf t s key value fuel

/-- `BPlusTree::FindIndexInParent(node)`: fetch the node's parent, scan
for the child pointer, unpin through the parent node's stored page id. -/
def findIndexInParent (s : PageStore) (nodePid : Nat) : Int × PageStore :=
  let parentPid := ((getNode s nodePid).parent).getD 0
  let f := fetchPage s parentPid
  let idx := findValueIdx f.1.entries (getNode f.2 nodePid).sid
  (idx, unpinPage f.2 f.1.sid false)

/-- `BPlusTree::FindSibling(node)`: prefer the left sibling, else the
right; the returned sibling page stays pinned. -/
def findSibling (s : PageStore) (nodePid : Nat) :
    Option (Nat × Bool) × PageStore :=
  let parentPid := ((getNode s nodePid).parent).getD 0
  let f := fetchPage s parentPid
  let r := findIndexInParent f.2 nodePid
  let idx := r.1
  let s1 := r.2
  if idx = -1 then (none, unpinPage s1 parentPid false)
  else
    let parentN := getNode s1 parentPid
    if 0 < idx then
      let sibId := parentN.valueAt (idx - 1).toNat
      let s2 := (fetchPage s1 sibId).2
      (some (sibId, true), unpinPage s2 parentPid false)
    else if idx < (parentN.size : Int) - 1 then
      let sibId := parentN.valueAt (idx + 1).toNat
      let s2 := (fetchPage s1 sibId).2
      (some (sibId, false), unpinPage s2 parentPid false)
    else (none, unpinPage s1 parentPid false)

/-- `BPlusTree::AdjustRoot(old_root_node)`. -/
def adjustRoot (t : BPT) (s : PageStore) (rootPid : Nat) : BPT × PageStore :=
  let n := getNode s rootPid
  if n.isLeaf ∧ n.size = 0 then
    let t' := { t with rootPageId := none }
    let s1 := updateRootPageId s
    (t', (deletePage s1 n.sid).2)
  else if ¬n.isLeaf ∧ n.size = 1 then
    let newRootId := n.valueAt 0
    let t' := { t with rootPageId := some newRootId }
    let f := fetchPage s newRootId
    let s1 := writeNode f.2 newRootId (f.1.setParent none)
    let s2 := updateRootPageId s1
    let s3 := unpinPage s2 newRootId true
    (t', (deletePage s3 n.sid).2)
  else (t, s)

/-- `BPlusTree::Redistribute(neighbor_node, node, parent, index)`: leaf
pages only (the source returns early for internal pages); borrow one
entry from the sibling's near end and fix the parent separator. -/
def redistribute (s : PageStore) (neighborPid nodePid parentPid : Nat)
    (index : Int) : PageStore :=
  let nodeN := getNode s nodePid
  if ¬nodeN.isLeaf then s
  else
    if 0 < index then
      let nb := getNode s neighborPid
      let lastIndex := (nb.size : Int) - 1
      let bk := nb.keyAtI lastIndex
      let bv := (nb.entries.getD lastIndex.toNat (0, 0)).2
      let s1 := writeNode s neighborPid (nb.removeAt lastIndex)
      let s2 := writeNode s1 nodePid
        (((getNode s1 nodePid).leafInsert bk bv).getD (getNode s1 nodePid))
      writeNode s2 parentPid
        ((getNode s2 parentPid).setKeyAt index ((getNode s2 nodePid).keyAt 0))
    else
      let nb := getNode s neighborPid
      let bk := nb.keyAt 0
      let bv := nb.valueAt 0
      let s1 := writeNode s neighborPid (nb.removeAt 0)
      let s2 := writeNode s1 nodePid
        (((getNode s1 nodePid).leafInsert bk bv).getD (getNode s1 nodePid))
      writeNode s2 parentPid
        ((getNode s2 parentPid).setKeyAt (index + 1)
          ((getNode s2 neighborPid).keyAt 0))

/-- The mutually recursive pair `BPlusTree::CoalesceOrRedistribute` /
`BPlusTree::Coalesce`, packed into one fuel-structural function (the tag
selects which of the two bodies runs; each body is the direct
translation of its source function, and the recursive calls cross over
exactly as in the source). -/
inductive CorCall where
  | cor (nodePid : Nat)
  | coal (neighborPid nodePid parentPid : Nat) (index : Int)

def corGo (t : BPT) : Nat → PageStore → CorCall → Option (BPT × PageStore)
  | 0, _, _ => none
  | fuel + 1, s, CorCall.cor nodePid =>
    let n := getNode s nodePid
    if n.isRoot then some (adjustRoot t s nodePid)
    else
      let fs := findSibling s nodePid
      match fs.1 with
      | none => some (t, fs.2)
      | some (sibPid, isPrev) =>
        let s1 := fs.2
        let parentPid := ((getNode s1 nodePid).parent).getD 0
        let s2 := (fetchPage s1 parentPid).2
        let fi := findIndexInParent s2 nodePid
        let nodeIndex := fi.1
        let s3 := fi.2
        if nodeIndex = -1 then
          some (t, unpinPage s3 parentPid false)
        else
          let nodeN := getNode s3 nodePid
          let sibN := getNode s3 sibPid
          if nodeN.size + sibN.size ≤
              (if nodeN.isLeaf then t.leafMaxSize else t.internalMaxSize) then
            if isPrev then
              corGo t fuel s3 (CorCall.coal sibPid nodePid parentPid nodeIndex)
            else
              corGo t fuel s3 (CorCall.coal nodePid sibPid parentPid (nodeIndex - 1))
          else
            let s4 := redistribute s3 sibPid nodePid parentPid nodeIndex
            some (t, unpinPage s4 parentPid true)
  | fuel + 1, s, CorCall.coal neighborPid nodePid parentPid index =>
    let nodeN := getNode s nodePid
    let s1 :=
      if nodeN.isLeaf then
        let merge := fun (st : PageStore) (kv : Nat × Nat) =>
          writeNode st neighborPid
            (((getNode st neighborPid).leafInsert kv.1 kv.2).getD
              (getNode st neighborPid))
        let sA := nodeN.entries.foldl merge s
        writeNode sA neighborPid ((getNode sA neighborPid).setNext nodeN.next)
      else
        let parentKey := (getNode s parentPid).keyAtI index
        let sA := writeNode s neighborPid
          (((getNode s neighborPid).internalInsert parentKey (nodeN.valueAt 0)).getD
            (getNode s neighborPid))
        let insRest := fun (st : PageStore) (kv : Nat × Nat) =>
          writeNode st neighborPid
            (((getNode st neighborPid).internalInsert kv.1 kv.2).getD
              (getNode st neighborPid))
        let sB := (nodeN.entries.drop 1).foldl insRest sA
        let reparent := fun (st : PageStore) (child : Nat) =>
          let f := fetchPage st child
          unpinPage
            (writeNode f.2 child
              (f.1.setParent (some (getNode f.2 neighborPid).sid))) child true
        (nodeN.entries.map Prod.snd).foldl reparent sB
    let s2 := writeNode s1 parentPid ((getNode s1 parentPid).removeAt index)
    let parentN := getNode s2 parentPid
    let after :=
      if parentN.size < parentN.minSize ∧ ¬parentN.isRoot then
        corGo t fuel s2 (CorCall.cor parentPid)
      else some (t, s2)
    match after with
    | none => none
    | some (t1, s3) =>
      let s4 := unpinPage s3 (getNode s3 nodePid).sid true
      some (t1, (deletePage s4 (getNode s4 nodePid).sid).2)

/-- `BPlusTree::CoalesceOrRedistribute(node)`. Pin handling mirrors the
source: the sibling pinned by `FindSibling` and the parent fetched here
are never unpinned on the coalesce path. -/
def coalesceOrRedistribute (t : BPT) (s : PageStore) (nodePid : Nat)
    (fuel : Nat) : Option (BPT × PageStore) :=
  corGo t fuel s (CorCall.cor nodePid)

/-- `BPlusTree::Coalesce(neighbor_node, node, parent, index)`: merge
`node` into `neighbor_node`, remove the parent separator at `index`
(silently a no-op when `index` is out of range, as for the source's
`RemoveAt(-1)`), recurse on parent underflow, then unpin and delete
`node` (through its stored page id). -/
def coalesce (t : BPT) (s : PageStore)
    (neighborPid nodePid parentPid : Nat) (index : Int)
    (fuel : Nat) : Option (BPT × PageStore) :=
  corGo t fuel s (CorCall.coal neighborPid nodePid parentPid index)

/-- `BPlusTree::Remove(key)`. -/
def removeT (t : BPT) (s : PageStore) (key fuel : Nat) :
    Option (BPT × PageStore) :=
  if isEmpty t then some (t, s)
  else
    match findLeafPage t s key fuel with
    | none => none
    | some (leafPid, s1) =>
      let n := getNode s1 leafPid
      match scanKey n.entries key with
      | none => some (t, unpinPage s1 leafPid false)
      | some idx =>
        let s2 := writeNode s1 leafPid (n.removeAt (idx : Int))
        let n2 := getNode s2 leafPid
        if n2.size < n2.minSize then
          coalesceOrRedistribute t s2 leafPid fuel
        else
          some (t, unpinPage s2 leafPid true)

/-- Drive a list of `(key, value)` inserts, all with the given fuel. -/
def insertAll (t : BPT) (s : PageStore) (fuel : Nat) :
    List (Nat × Nat) → Option (BPT × PageStore)
  | [] => some (t, s)
  | kv :: rest =>
    match insertT t s kv.1 kv.2 fuel with
    | none => none
    | some (_, t1, s1) => insertAll t1 s1 fuel rest

/-- Drive a list of removals, all with the given fuel. -/
def removeAll (t : BPT) (s : PageStore) (fuel : Nat) :
    List Nat → Option (BPT × PageStore)
  | [] => some (t, s)
  | k :: rest =>
    match removeT t s k fuel with
    | none => none
    | some (t1, s1) => removeAll t1 s1 fuel rest

/-- Scenario E: `leaf_max_size = 3`, `internal_max_size = 3`, keys 1..10
inserted in order (each key's record id equals the key, as in the
repository's tests). -/
def scenarioE : Option (BPT × PageStore) :=
  insertAll (newTree 3 3) emptyStore 60
    ((List.range 10).map (fun i => (i + 1, i + 1)))

/-- Scenario F: the Scenario E tree after removing keys 1..9 in order. -/
def scenarioF : Option (BPT × PageStore) :=
  match scenarioE with
  | none => none
  | some (t, s) => removeAll t s 60 ((List.range 9).map (fun i => i + 1))

end BTree

namespace BTree

/-- Observed pin count of a page (0 when not resident). -/
def pinOf (s : PageStore) (pid : Nat) : Nat :=
  match lookupPage s.pages pid with
  | some (p, _, _) => p
  | none => 0

/-- Observed dirty flag of a page (false when not resident). -/
def dirtyOf (s : PageStore) (pid : Nat) : Bool :=
  match lookupPage s.pages pid with
  | some (_, d, _) => d
  | none => false

lemma lookupPage_nil (pid : Nat) :
    lookupPage [] pid = none := rfl

lemma lookupPage_cons (e : Nat × (Nat × Bool × BNode))
    (rest : List (Nat × (Nat × Bool × BNode))) (pid : Nat) :
    lookupPage (e :: rest) pid = if e.1 = pid then some e.2 else lookupPage rest pid := rfl

lemma updatePage_cons (e : Nat × (Nat × Bool × BNode))
    (rest : List (Nat × (Nat × Bool × BNode))) (pid : Nat) (v : Nat × Bool × BNode) :
    updatePage (e :: rest) pid v =
      if e.1 = pid then (pid, v) :: rest else e :: updatePage rest pid v := rfl

lemma lookupPage_updatePage (ps : List (Nat × (Nat × Bool × BNode)))
    (pid : Nat) (v : Nat × Bool × BNode) (q : Nat) :
    lookupPage (updatePage ps pid v) q =
      if q = pid ∧ (lookupPage ps pid).isSome then some v else lookupPage ps q := by
  induction ps with
  | nil => simp [updatePage, lookupPage]
  | cons e rest ih =>
    rw [updatePage_cons]
    by_cases he : e.1 = pid
    · rw [if_pos he, lookupPage_cons, lookupPage_cons, lookupPage_cons, if_pos he]
      by_cases hq : q = pid
      · subst hq
        rw [if_pos rfl, if_pos ⟨rfl, rfl⟩]
      · rw [if_neg (fun hc : pid = q => hq hc.symm)]
        rw [if_neg (fun hc => hq hc.1)]
        rw [if_neg (fun hc : e.1 = q => hq (hc.symm.trans he))]
    · rw [if_neg he, lookupPage_cons, lookupPage_cons, lookupPage_cons, if_neg he]
      by_cases hq : e.1 = q
      · rw [if_pos hq, if_pos hq]
        rw [if_neg (fun hc => he (hq.trans hc.1))]
      · rw [if_neg hq, if_neg hq, ih]

lemma lookupPage_append_new (ps : List (Nat × (Nat × Bool × BNode)))
    (pid : Nat) (v : Nat × Bool × BNode) (q : Nat)
    (habs : lookupPage ps pid = none) :
    lookupPage (ps ++ [(pid, v)]) q =
      if q = pid then some v else lookupPage ps q := by
  induction ps with
  | nil =>
    simp only [List.nil_append, lookupPage_cons, lookupPage_nil]
    by_cases hq : q = pid
    · rw [if_pos (hq.symm), if_pos hq]
    · rw [if_neg (fun hc : pid = q => hq hc.symm), if_neg hq]
  | cons e rest ih =>
    rw [lookupPage_cons] at habs
    by_cases he : e.1 = pid
    · rw [if_pos he] at habs
      exact absurd habs (by simp)
    · rw [if_neg he] at habs
      simp only [List.cons_append, lookupPage_cons, ih habs]
      by_cases hq : e.1 = q
      · rw [if_pos hq, if_pos hq, if_neg (fun hc : q = pid => he (hq.trans hc))]
      · rw [if_neg hq, if_neg hq]

/-- `FetchPage` never changes any page's content. -/
lemma getNode_fetchPage (s : PageStore) (q p : Nat) :
    getNode (fetchPage s q).2 p = getNode s p := by
  rcases hl : lookupPage s.pages q with _ | ⟨pin, d, n⟩
  · unfold getNode
    simp only [fetchPage, hl]
    rw [lookupPage_append_new s.pages q _ p hl]
    by_cases hp : p = q
    · rw [if_pos hp, hp, hl]
    · rw [if_neg hp]
  · unfold getNode
    simp only [fetchPage, hl]
    rw [lookupPage_updatePage s.pages q _ p]
    by_cases hp : p = q
    · rw [if_pos ⟨hp, by rw [hl]; rfl⟩, hp, hl]
    · rw [if_neg (fun hc => hp hc.1)]

/-- `UnpinPage` never changes any page's content. -/
lemma getNode_unpinPage (s : PageStore) (q : Nat) (b : Bool) (p : Nat) :
    getNode (unpinPage s q b) p = getNode s p := by
  rcases hl : lookupPage s.pages q with _ | ⟨pin, d, n⟩
  · simp only [unpinPage, hl]
  · by_cases hz : pin = 0
    · simp [unpinPage, hl, hz]
    · unfold getNode
      simp only [unpinPage, hl, if_neg hz]
      rw [lookupPage_updatePage s.pages q _ p]
      by_cases hp : p = q
      · rw [if_pos ⟨hp, by rw [hl]; rfl⟩, hp, hl]
      · rw [if_neg (fun hc => hp hc.1)]

lemma pinOf_fetchPage (s : PageStore) (q p : Nat) :
    pinOf (fetchPage s q).2 p = if p = q then pinOf s p + 1 else pinOf s p := by
  rcases hl : lookupPage s.pages q with _ | ⟨pin, d, n⟩
  · unfold pinOf
    simp only [fetchPage, hl]
    rw [lookupPage_append_new s.pages q _ p hl]
    by_cases hp : p = q
    · rw [if_pos hp, if_pos hp, hp, hl]
    · rw [if_neg hp, if_neg hp]
  · unfold pinOf
    simp only [fetchPage, hl]
    rw [lookupPage_updatePage s.pages q _ p]
    by_cases hp : p = q
    · rw [if_pos ⟨hp, by rw [hl]; rfl⟩, if_pos hp, hp, hl]
    · rw [if_neg (fun hc => hp hc.1), if_neg hp]

lemma pinOf_unpinPage (s : PageStore) (q : Nat) (b : Bool) (p : Nat) :
    pinOf (unpinPage s q b) p = if p = q then pinOf s p - 1 else pinOf s p := by
  rcases hl : lookupPage s.pages q with _ | ⟨pin, d, n⟩
  · simp only [unpinPage, hl]
    by_cases hp : p = q
    · rw [if_pos hp]
      unfold pinOf
      rw [hp, hl]
      rfl
    · rw [if_neg hp]
  · by_cases hz : pin = 0
    · simp [unpinPage, hl, hz]
      by_cases hp : p = q
      · rw [if_pos hp]
        unfold pinOf
        rw [hp, hl, hz]
        rfl
      · rw [if_neg hp]
    · unfold pinOf
      simp only [unpinPage, hl, if_neg hz]
      rw [lookupPage_updatePage s.pages q _ p]
      by_cases hp : p = q
      · rw [if_pos ⟨hp, by rw [hl]; rfl⟩, if_pos hp, hp, hl]
      · rw [if_neg (fun hc => hp hc.1), if_neg hp]

lemma dirtyOf_fetchPage (s : PageStore) (q p : Nat) :
    dirtyOf (fetchPage s q).2 p = dirtyOf s p := by
  rcases hl : lookupPage s.pages q with _ | ⟨pin, d, n⟩
  · unfold dirtyOf
    simp only [fetchPage, hl]
    rw [lookupPage_append_new s.pages q _ p hl]
    by_cases hp : p = q
    · rw [if_pos hp, hp, hl]
    · rw [if_neg hp]
  · unfold dirtyOf
    simp only [fetchPage, hl]
    rw [lookupPage_updatePage s.pages q _ p]
    by_cases hp : p = q
    · rw [if_pos ⟨hp, by rw [hl]; rfl⟩, hp, hl]
    · rw [if_neg (fun hc => hp hc.1)]

lemma dirtyOf_unpinPage_false (s : PageStore) (q p : Nat) :
    dirtyOf (unpinPage s q false) p = dirtyOf s p := by
  rcases hl : lookupPage s.pages q with _ | ⟨pin, d, n⟩
  · simp only [unpinPage, hl]
  · by_cases hz : pin = 0
    · simp [unpinPage, hl, hz]
    · unfold dirtyOf
      simp only [unpinPage, hl, if_neg hz]
      rw [lookupPage_updatePage s.pages q _ p]
      by_cases hp : p = q
      · rw [if_pos ⟨hp, by rw [hl]; rfl⟩, hp, hl, Bool.or_false]
      · rw [if_neg (fun hc => hp hc.1)]

lemma nextPid_fetchPage (s : PageStore) (q : Nat) :
    (fetchPage s q).2.nextPid = s.nextPid := by
  rcases hl : lookupPage s.pages q with _ | ⟨pin, d, n⟩ <;> simp only [fetchPage, hl]

lemma nextPid_unpinPage (s : PageStore) (q : Nat) (b : Bool) :
    (unpinPage s q b).nextPid = s.nextPid := by
  rcases hl : lookupPage s.pages q with _ | ⟨pin, d, n⟩
  · simp only [unpinPage, hl]
  · by_cases hz : pin = 0
    · simp [unpinPage, hl, hz]
    · simp only [unpinPage, hl, if_neg hz]

lemma deleteCalls_fetchPage (s : PageStore) (q : Nat) :
    (fetchPage s q).2.deleteCalls = s.deleteCalls := by
  rcases hl : lookupPage s.pages q with _ | ⟨pin, d, n⟩ <;> simp only [fetchPage, hl]

lemma deleteCalls_unpinPage (s : PageStore) (q : Nat) (b : Bool) :
    (unpinPage s q b).deleteCalls = s.deleteCalls := by
  rcases hl : lookupPage s.pages q with _ | ⟨pin, d, n⟩
  · simp only [unpinPage, hl]
  · by_cases hz : pin = 0
    · simp [unpinPage, hl, hz]
    · simp only [unpinPage, hl, if_neg hz]

/-! Checkpointed states of the Scenario E / Scenario F runs: `tSt n` /
`sSt n` are the tree object and page store after the first `n`
operations of the sequence insert 1..10 (with record id = key), then
remove 1..8. Each step is verified against the embedding by `decide`
below. -/

def tSt0 : BPT := ⟨none, 3, 3⟩
def sSt0 : PageStore := ⟨[(0, (1, false, BNode.internal 0 (some 0) 0 []))],
  1, []⟩

def tSt1 : BPT := ⟨(some 1), 3, 3⟩
def sSt1 : PageStore := ⟨[(0, (1, true, BNode.internal 0 (some 0) 0 [])),
  (1, (0, true, BNode.leaf 1 none none 3 [(1, 1)]))],
  2, []⟩

def tSt2 : BPT := ⟨(some 1), 3, 3⟩
def sSt2 : PageStore := ⟨[(0, (1, true, BNode.internal 0 (some 0) 0 [])),
  (1, (0, true, BNode.leaf 1 none none 3 [(1, 1), (2, 2)]))],
  2, []⟩

def tSt3 : BPT := ⟨(some 3), 3, 3⟩
def sSt3 : PageStore := ⟨[(0, (1, true, BNode.internal 0 (some 0) 0 [])),
  (1, (0, true, BNode.leaf 1 (some 3) (some 2) 3 [(1, 1)])),
  (2, (0, true, BNode.leaf 2 (some 3) none 3 [(2, 2), (3, 3)])),
  (3, (0, true, BNode.internal 3 none 3 [(0, 1), (2, 2)]))],
  4, []⟩

def tSt4 : BPT := ⟨(some 6), 3, 3⟩
def sSt4 : PageStore := ⟨[(0, (1, true, BNode.internal 0 (some 0) 0 [])),
  (1, (0, true, BNode.leaf 1 (some 3) (some 2) 3 [(1, 1)])),
  (2, (0, true, BNode.leaf 2 (some 5) (some 4) 3 [(2, 2)])),
  (3, (0, true, BNode.internal 3 (some 6) 3 [(0, 1)])),
  (4, (0, true, BNode.leaf 4 (some 5) none 3 [(3, 3), (4, 4)])),
  (5, (0, true, BNode.internal 5 (some 6) 3 [(0, 2), (3, 4)])),
  (6, (0, true, BNode.internal 6 none 3 [(0, 3), (2, 5)]))],
  7, []⟩

def tSt5 : BPT := ⟨(some 10), 3, 3⟩
def sSt5 : PageStore := ⟨[(0, (1, true, BNode.internal 0 (some 0) 0 [])),
  (1, (0, true, BNode.leaf 1 (some 3) (some 2) 3 [(1, 1)])),
  (2, (0, true, BNode.leaf 2 (some 5) (some 4) 3 [(2, 2)])),
  (3, (0, true, BNode.internal 3 (some 6) 3 [(0, 1)])),
  (4, (0, true, BNode.leaf 4 (some 8) (some 7) 3 [(3, 3)])),
  (5, (0, true, BNode.internal 5 (some 9) 3 [(0, 2)])),
  (6, (0, true, BNode.internal 6 (some 10) 3 [(0, 3)])),
  (7, (0, true, BNode.leaf 7 (some 8) none 3 [(4, 4), (5, 5)])),
  (8, (0, true, BNode.internal 8 (some 9) 3 [(0, 4), (4, 7)])),
  (9, (0, true, BNode.internal 9 (some 10) 3 [(0, 5), (3, 8)])),
  (10, (0, true, BNode.internal 10 none 3 [(0, 6), (2, 9)]))],
  11, []⟩

def tSt6 : BPT := ⟨(some 15), 3, 3⟩
def sSt6 : PageStore := ⟨[(0, (1, true, BNode.internal 0 (some 0) 0 [])),
  (1, (0, true, BNode.leaf 1 (some 3) (some 2) 3 [(1, 1)])),
  (2, (0, true, BNode.leaf 2 (some 5) (some 4) 3 [(2, 2)])),
  (3, (0, true, BNode.internal 3 (some 6) 3 [(0, 1)])),
  (4, (0, true, BNode.leaf 4 (some 8) (some 7) 3 [(3, 3)])),
  (5, (0, true, BNode.internal 5 (some 9) 3 [(0, 2)])),
  (6, (0, true, BNode.internal 6 (some 10) 3 [(0, 3)])),
  (7, (0, true, BNode.leaf 7 (some 12) (some 11) 3 [(4, 4)])),
  (8, (0, true, BNode.internal 8 (some 13) 3 [(0, 4)])),
  (9, (0, true, BNode.internal 9 (some 14) 3 [(0, 5)])),
  (10, (0, true, BNode.internal 10 (some 15) 3 [(0, 6)])),
  (11, (0, true, BNode.leaf 11 (some 12) none 3 [(5, 5), (6, 6)])),
  (12, (0, true, BNode.internal 12 (some 13) 3 [(0, 7), (5, 11)])),
  (13, (0, true, BNode.internal 13 (some 14) 3 [(0, 8), (4, 12)])),
  (14, (0, true, BNode.internal 14 (some 15) 3 [(0, 9), (3, 13)])),
  (15, (0, true, BNode.internal 15 none 3 [(0, 10), (2, 14)]))],
  16, []⟩

def tSt7 : BPT := ⟨(some 21), 3, 3⟩
def sSt7 : PageStore := ⟨[(0, (1, true, BNode.internal 0 (some 0) 0 [])),
  (1, (0, true, BNode.leaf 1 (some 3) (some 2) 3 [(1, 1)])),
  (2, (0, true, BNode.leaf 2 (some 5) (some 4) 3 [(2, 2)])),
  (3, (0, true, BNode.internal 3 (some 6) 3 [(0, 1)])),
  (4, (0, true, BNode.leaf 4 (some 8) (some 7) 3 [(3, 3)])),
  (5, (0, true, BNode.internal 5 (some 9) 3 [(0, 2)])),
  (6, (0, true, BNode.internal 6 (some 10) 3 [(0, 3)])),
  (7, (0, true, BNode.leaf 7 (some 12) (some 11) 3 [(4, 4)])),
  (8, (0, true, BNode.internal 8 (some 13) 3 [(0, 4)])),
  (9, (0, true, BNode.internal 9 (some 14) 3 [(0, 5)])),
  (10, (0, true, BNode.internal 10 (some 15) 3 [(0, 6)])),
  (11, (0, true, BNode.leaf 11 (some 17) (some 16) 3 [(5, 5)])),
  (12, (0, true, BNode.internal 12 (some 18) 3 [(0, 7)])),
  (13, (0, true, BNode.internal 13 (some 19) 3 [(0, 8)])),
  (14, (0, true, BNode.internal 14 (some 20) 3 [(0, 9)])),
  (15, (0, true, BNode.internal 15 (some 21) 3 [(0, 10)])),
  (16, (0, true, BNode.leaf 16 (some 17) none 3 [(6, 6), (7, 7)])),
  (17, (0, true, BNode.internal 17 (some 18) 3 [(0, 11), (6, 16)])),
  (18, (0, true, BNode.internal 18 (some 19) 3 [(0, 12), (5, 17)])),
  (19, (0, true, BNode.internal 19 (some 20) 3 [(0, 13), (4, 18)])),
  (20, (0, true, BNode.internal 20 (some 21) 3 [(0, 14), (3, 19)])),
  (21, (0, true, BNode.internal 21 none 3 [(0, 15), (2, 20)]))],
  22, []⟩

def tSt8 : BPT := ⟨(some 28), 3, 3⟩
def sSt8 : PageStore := ⟨[(0, (1, true, BNode.internal 0 (some 0) 0 [])),
  (1, (0, true, BNode.leaf 1 (some 3) (some 2) 3 [(1, 1)])),
  (2, (0, true, BNode.leaf 2 (some 5) (some 4) 3 [(2, 2)])),
  (3, (0, true, BNode.internal 3 (some 6) 3 [(0, 1)])),
  (4, (0, true, BNode.leaf 4 (some 8) (some 7) 3 [(3, 3)])),
  (5, (0, true, BNode.internal 5 (some 9) 3 [(0, 2)])),
  (6, (0, true, BNode.internal 6 (some 10) 3 [(0, 3)])),
  (7, (0, true, BNode.leaf 7 (some 12) (some 11) 3 [(4, 4)])),
  (8, (0, true, BNode.internal 8 (some 13) 3 [(0, 4)])),
  (9, (0, true, BNode.internal 9 (some 14) 3 [(0, 5)])),
  (10, (0, true, BNode.internal 10 (some 15) 3 [(0, 6)])),
  (11, (0, true, BNode.leaf 11 (some 17) (some 16) 3 [(5, 5)])),
  (12, (0, true, BNode.internal 12 (some 18) 3 [(0, 7)])),
  (13, (0, true, BNode.internal 13 (some 19) 3 [(0, 8)])),
  (14, (0, true, BNode.internal 14 (some 20) 3 [(0, 9)])),
  (15, (0, true, BNode.internal 15 (some 21) 3 [(0, 10)])),
  (16, (0, true, BNode.leaf 16 (some 23) (some 22) 3 [(6, 6)])),
  (17, (0, true, BNode.internal 17 (some 24) 3 [(0, 11)])),
  (18, (0, true, BNode.internal 18 (some 25) 3 [(0, 12)])),
  (19, (0, true, BNode.internal 19 (some 26) 3 [(0, 13)])),
  (20, (0, true, BNode.internal 20 (some 27) 3 [(0, 14)])),
  (21, (0, true, BNode.internal 21 (some 28) 3 [(0, 15)])),
  (22, (0, true, BNode.leaf 22 (some 23) none 3 [(7, 7), (8, 8)])),
  (23, (0, true, BNode.internal 23 (some 24) 3 [(0, 16), (7, 22)])),
  (24, (0, true, BNode.internal 24 (some 25) 3 [(0, 17), (6, 23)])),
  (25, (0, true, BNode.internal 25 (some 26) 3 [(0, 18), (5, 24)])),
  (26, (0, true, BNode.internal 26 (some 27) 3 [(0, 19), (4, 25)])),
  (27, (0, true, BNode.internal 27 (some 28) 3 [(0, 20), (3, 26)])),
  (28, (0, true, BNode.internal 28 none 3 [(0, 21), (2, 27)]))],
  29, []⟩

def tSt9 : BPT := ⟨(some 36), 3, 3⟩
def sSt9 : PageStore := ⟨[(0, (1, true, BNode.internal 0 (some 0) 0 [])),
  (1, (0, true, BNode.leaf 1 (some 3) (some 2) 3 [(1, 1)])),
  (2, (0, true, BNode.leaf 2 (some 5) (some 4) 3 [(2, 2)])),
  (3, (0, true, BNode.internal 3 (some 6) 3 [(0, 1)])),
  (4, (0, true, BNode.leaf 4 (some 8) (some 7) 3 [(3, 3)])),
  (5, (0, true, BNode.internal 5 (some 9) 3 [(0, 2)])),
  (6, (0, true, BNode.internal 6 (some 10) 3 [(0, 3)])),
  (7, (0, true, BNode.leaf 7 (some 12) (some 11) 3 [(4, 4)])),
  (8, (0, true, BNode.internal 8 (some 13) 3 [(0, 4)])),
  (9, (0, true, BNode.internal 9 (some 14) 3 [(0, 5)])),
  (10, (0, true, BNode.internal 10 (some 15) 3 [(0, 6)])),
  (11, (0, true, BNode.leaf 11 (some 17) (some 16) 3 [(5, 5)])),
  (12, (0, true, BNode.internal 12 (some 18) 3 [(0, 7)])),
  (13, (0, true, BNode.internal 13 (some 19) 3 [(0, 8)])),
  (14, (0, true, BNode.internal 14 (some 20) 3 [(0, 9)])),
  (15, (0, true, BNode.internal 15 (some 21) 3 [(0, 10)])),
  (16, (0, true, BNode.leaf 16 (some 23) (some 22) 3 [(6, 6)])),
  (17, (0, true, BNode.internal 17 (some 24) 3 [(0, 11)])),
  (18, (0, true, BNode.internal 18 (some 25) 3 [(0, 12)])),
  (19, (0, true, BNode.internal 19 (some 26) 3 [(0, 13)])),
  (20, (0, true, BNode.internal 20 (some 27) 3 [(0, 14)])),
  (21, (0, true, BNode.internal 21 (some 28) 3 [(0, 15)])),
  (22, (0, true, BNode.leaf 22 (some 30) (some 29) 3 [(7, 7)])),
  (23, (0, true, BNode.internal 23 (some 31) 3 [(0, 16)])),
  (24, (0, true, BNode.internal 24 (some 32) 3 [(0, 17)])),
  (25, (0, true, BNode.internal 25 (some 33) 3 [(0, 18)])),
  (26, (0, true, BNode.internal 26 (some 34) 3 [(0, 19)])),
  (27, (0, true, BNode.internal 27 (some 35) 3 [(0, 20)])),
  (28, (0, true, BNode.internal 28 (some 36) 3 [(0, 21)])),
  (29, (0, true, BNode.leaf 29 (some 30) none 3 [(8, 8), (9, 9)])),
  (30, (0, true, BNode.internal 30 (some 31) 3 [(0, 22), (8, 29)])),
  (31, (0, true, BNode.internal 31 (some 32) 3 [(0, 23), (7, 30)])),
  (32, (0, true, BNode.internal 32 (some 33) 3 [(0, 24), (6, 31)])),
  (33, (0, true, BNode.internal 33 (some 34) 3 [(0, 25), (5, 32)])),
  (34, (0, true, BNode.internal 34 (some 35) 3 [(0, 26), (4, 33)])),
  (35, (0, true, BNode.internal 35 (some 36) 3 [(0, 27), (3, 34)])),
  (36, (0, true, BNode.internal 36 none 3 [(0, 28), (2, 35)]))],
  37, []⟩

def tSt10 : BPT := ⟨(some 45), 3, 3⟩
def sSt10 : PageStore := ⟨[(0, (1, true, BNode.internal 0 (some 0) 0 [])),
  (1, (0, true, BNode.leaf 1 (some 3) (some 2) 3 [(1, 1)])),
  (2, (0, true, BNode.leaf 2 (some 5) (some 4) 3 [(2, 2)])),
  (3, (0, true, BNode.internal 3 (some 6) 3 [(0, 1)])),
  (4, (0, true, BNode.leaf 4 (some 8) (some 7) 3 [(3, 3)])),
  (5, (0, true, BNode.internal 5 (some 9) 3 [(0, 2)])),
  (6, (0, true, BNode.internal 6 (some 10) 3 [(0, 3)])),
  (7, (0, true, BNode.leaf 7 (some 12) (some 11) 3 [(4, 4)])),
  (8, (0, true, BNode.internal 8 (some 13) 3 [(0, 4)])),
  (9, (0, true, BNode.internal 9 (some 14) 3 [(0, 5)])),
  (10, (0, true, BNode.internal 10 (some 15) 3 [(0, 6)])),
  (11, (0, true, BNode.leaf 11 (some 17) (some 16) 3 [(5, 5)])),
  (12, (0, true, BNode.internal 12 (some 18) 3 [(0, 7)])),
  (13, (0, true, BNode.internal 13 (some 19) 3 [(0, 8)])),
  (14, (0, true, BNode.internal 14 (some 20) 3 [(0, 9)])),
  (15, (0, true, BNode.internal 15 (some 21) 3 [(0, 10)])),
  (16, (0, true, BNode.leaf 16 (some 23) (some 22) 3 [(6, 6)])),
  (17, (0, true, BNode.internal 17 (some 24) 3 [(0, 11)])),
  (18, (0, true, BNode.internal 18 (some 25) 3 [(0, 12)])),
  (19, (0, true, BNode.internal 19 (some 26) 3 [(0, 13)])),
  (20, (0, true, BNode.internal 20 (some 27) 3 [(0, 14)])),
  (21, (0, true, BNode.internal 21 (some 28) 3 [(0, 15)])),
  (22, (0, true, BNode.leaf 22 (some 30) (some 29) 3 [(7, 7)])),
  (23, (0, true, BNode.internal 23 (some 31) 3 [(0, 16)])),
  (24, (0, true, BNode.internal 24 (some 32) 3 [(0, 17)])),
  (25, (0, true, BNode.internal 25 (some 33) 3 [(0, 18)])),
  (26, (0, true, BNode.internal 26 (some 34) 3 [(0, 19)])),
  (27, (0, true, BNode.internal 27 (some 35) 3 [(0, 20)])),
  (28, (0, true, BNode.internal 28 (some 36) 3 [(0, 21)])),
  (29, (0, true, BNode.leaf 29 (some 38) (some 37) 3 [(8, 8)])),
  (30, (0, true, BNode.internal 30 (some 39) 3 [(0, 22)])),
  (31, (0, true, BNode.internal 31 (some 40) 3 [(0, 23)])),
  (32, (0, true, BNode.internal 32 (some 41) 3 [(0, 24)])),
  (33, (0, true, BNode.internal 33 (some 42) 3 [(0, 25)])),
  (34, (0, true, BNode.internal 34 (some 43) 3 [(0, 26)])),
  (35, (0, true, BNode.internal 35 (some 44) 3 [(0, 27)])),
  (36, (0, true, BNode.internal 36 (some 45) 3 [(0, 28)])),
  (37, (0, true, BNode.leaf 37 (some 38) none 3 [(9, 9), (10, 10)])),
  (38, (0, true, BNode.internal 38 (some 39) 3 [(0, 29), (9, 37)])),
  (39, (0, true, BNode.internal 39 (some 40) 3 [(0, 30), (8, 38)])),
  (40, (0, true, BNode.internal 40 (some 41) 3 [(0, 31), (7, 39)])),
  (41, (0, true, BNode.internal 41 (some 42) 3 [(0, 32), (6, 40)])),
  (42, (0, true, BNode.internal 42 (some 43) 3 [(0, 33), (5, 41)])),
  (43, (0, true, BNode.internal 43 (some 44) 3 [(0, 34), (4, 42)])),
  (44, (0, true, BNode.internal 44 (some 45) 3 [(0, 35), (3, 43)])),
  (45, (0, true, BNode.internal 45 none 3 [(0, 36), (2, 44)]))],
  46, []⟩

def tSt11 : BPT := ⟨(some 45), 3, 3⟩
def sSt11 : PageStore := ⟨[(0, (1, true, BNode.internal 0 (some 0) 0 [])),
  (1, (1, true, BNode.leaf 1 (some 3) (some 2) 3 [])),
  (2, (0, true, BNode.leaf 2 (some 5) (some 4) 3 [(2, 2)])),
  (3, (0, true, BNode.internal 3 (some 6) 3 [(0, 1)])),
  (4, (0, true, BNode.leaf 4 (some 8) (some 7) 3 [(3, 3)])),
  (5, (0, true, BNode.internal 5 (some 9) 3 [(0, 2)])),
  (6, (0, true, BNode.internal 6 (some 10) 3 [(0, 3)])),
  (7, (0, true, BNode.leaf 7 (some 12) (some 11) 3 [(4, 4)])),
  (8, (0, true, BNode.internal 8 (some 13) 3 [(0, 4)])),
  (9, (0, true, BNode.internal 9 (some 14) 3 [(0, 5)])),
  (10, (0, true, BNode.internal 10 (some 15) 3 [(0, 6)])),
  (11, (0, true, BNode.leaf 11 (some 17) (some 16) 3 [(5, 5)])),
  (12, (0, true, BNode.internal 12 (some 18) 3 [(0, 7)])),
  (13, (0, true, BNode.internal 13 (some 19) 3 [(0, 8)])),
  (14, (0, true, BNode.internal 14 (some 20) 3 [(0, 9)])),
  (15, (0, true, BNode.internal 15 (some 21) 3 [(0, 10)])),
  (16, (0, true, BNode.leaf 16 (some 23) (some 22) 3 [(6, 6)])),
  (17, (0, true, BNode.internal 17 (some 24) 3 [(0, 11)])),
  (18, (0, true, BNode.internal 18 (some 25) 3 [(0, 12)])),
  (19, (0, true, BNode.internal 19 (some 26) 3 [(0, 13)])),
  (20, (0, true, BNode.internal 20 (some 27) 3 [(0, 14)])),
  (21, (0, true, BNode.internal 21 (some 28) 3 [(0, 15)])),
  (22, (0, true, BNode.leaf 22 (some 30) (some 29) 3 [(7, 7)])),
  (23, (0, true, BNode.internal 23 (some 31) 3 [(0, 16)])),
  (24, (0, true, BNode.internal 24 (some 32) 3 [(0, 17)])),
  (25, (0, true, BNode.internal 25 (some 33) 3 [(0, 18)])),
  (26, (0, true, BNode.internal 26 (some 34) 3 [(0, 19)])),
  (27, (0, true, BNode.internal 27 (some 35) 3 [(0, 20)])),
  (28, (0, true, BNode.internal 28 (some 36) 3 [(0, 21)])),
  (29, (0, true, BNode.leaf 29 (some 38) (some 37) 3 [(8, 8)])),
  (30, (0, true, BNode.internal 30 (some 39) 3 [(0, 22)])),
  (31, (0, true, BNode.internal 31 (some 40) 3 [(0, 23)])),
  (32, (0, true, BNode.internal 32 (some 41) 3 [(0, 24)])),
  (33, (0, true, BNode.internal 33 (some 42) 3 [(0, 25)])),
  (34, (0, true, BNode.internal 34 (some 43) 3 [(0, 26)])),
  (35, (0, true, BNode.internal 35 (some 44) 3 [(0, 27)])),
  (36, (0, true, BNode.internal 36 (some 45) 3 [(0, 28)])),
  (37, (0, true, BNode.leaf 37 (some 38) none 3 [(9, 9), (10, 10)])),
  (38, (0, true, BNode.internal 38 (some 39) 3 [(0, 29), (9, 37)])),
  (39, (0, true, BNode.internal 39 (some 40) 3 [(0, 30), (8, 38)])),
  (40, (0, true, BNode.internal 40 (some 41) 3 [(0, 31), (7, 39)])),
  (41, (0, true, BNode.internal 41 (some 42) 3 [(0, 32), (6, 40)])),
  (42, (0, true, BNode.internal 42 (some 43) 3 [(0, 33), (5, 41)])),
  (43, (0, true, BNode.internal 43 (some 44) 3 [(0, 34), (4, 42)])),
  (44, (0, true, BNode.internal 44 (some 45) 3 [(0, 35), (3, 43)])),
  (45, (0, true, BNode.internal 45 none 3 [(0, 36), (2, 44)]))],
  46, []⟩

def tSt12 : BPT := ⟨(some 45), 3, 3⟩
def sSt12 : PageStore := ⟨[(0, (1, true, BNode.internal 0 (some 0) 0 [])),
  (1, (1, true, BNode.leaf 1 (some 3) (some 2) 3 [])),
  (2, (1, true, BNode.leaf 2 (some 5) (some 4) 3 [])),
  (3, (0, true, BNode.internal 3 (some 6) 3 [(0, 1)])),
  (4, (0, true, BNode.leaf 4 (some 8) (some 7) 3 [(3, 3)])),
  (5, (0, true, BNode.internal 5 (some 9) 3 [(0, 2)])),
  (6, (0, true, BNode.internal 6 (some 10) 3 [(0, 3)])),
  (7, (0, true, BNode.leaf 7 (some 12) (some 11) 3 [(4, 4)])),
  (8, (0, true, BNode.internal 8 (some 13) 3 [(0, 4)])),
  (9, (0, true, BNode.internal 9 (some 14) 3 [(0, 5)])),
  (10, (0, true, BNode.internal 10 (some 15) 3 [(0, 6)])),
  (11, (0, true, BNode.leaf 11 (some 17) (some 16) 3 [(5, 5)])),
  (12, (0, true, BNode.internal 12 (some 18) 3 [(0, 7)])),
  (13, (0, true, BNode.internal 13 (some 19) 3 [(0, 8)])),
  (14, (0, true, BNode.internal 14 (some 20) 3 [(0, 9)])),
  (15, (0, true, BNode.internal 15 (some 21) 3 [(0, 10)])),
  (16, (0, true, BNode.leaf 16 (some 23) (some 22) 3 [(6, 6)])),
  (17, (0, true, BNode.internal 17 (some 24) 3 [(0, 11)])),
  (18, (0, true, BNode.internal 18 (some 25) 3 [(0, 12)])),
  (19, (0, true, BNode.internal 19 (some 26) 3 [(0, 13)])),
  (20, (0, true, BNode.internal 20 (some 27) 3 [(0, 14)])),
  (21, (0, true, BNode.internal 21 (some 28) 3 [(0, 15)])),
  (22, (0, true, BNode.leaf 22 (some 30) (some 29) 3 [(7, 7)])),
  (23, (0, true, BNode.internal 23 (some 31) 3 [(0, 16)])),
  (24, (0, true, BNode.internal 24 (some 32) 3 [(0, 17)])),
  (25, (0, true, BNode.internal 25 (some 33) 3 [(0, 18)])),
  (26, (0, true, BNode.internal 26 (some 34) 3 [(0, 19)])),
  (27, (0, true, BNode.internal 27 (some 35) 3 [(0, 20)])),
  (28, (0, true, BNode.internal 28 (some 36) 3 [(0, 21)])),
  (29, (0, true, BNode.leaf 29 (some 38) (some 37) 3 [(8, 8)])),
  (30, (0, true, BNode.internal 30 (some 39) 3 [(0, 22)])),
  (31, (0, true, BNode.internal 31 (some 40) 3 [(0, 23)])),
  (32, (0, true, BNode.internal 32 (some 41) 3 [(0, 24)])),
  (33, (0, true, BNode.internal 33 (some 42) 3 [(0, 25)])),
  (34, (0, true, BNode.internal 34 (some 43) 3 [(0, 26)])),
  (35, (0, true, BNode.internal 35 (some 44) 3 [(0, 27)])),
  (36, (0, true, BNode.internal 36 (some 45) 3 [(0, 28)])),
  (37, (0, true, BNode.leaf 37 (some 38) none 3 [(9, 9), (10, 10)])),
  (38, (0, true, BNode.internal 38 (some 39) 3 [(0, 29), (9, 37)])),
  (39, (0, true, BNode.internal 39 (some 40) 3 [(0, 30), (8, 38)])),
  (40, (0, true, BNode.internal 40 (some 41) 3 [(0, 31), (7, 39)])),
  (41, (0, true, BNode.internal 41 (some 42) 3 [(0, 32), (6, 40)])),
  (42, (0, true, BNode.internal 42 (some 43) 3 [(0, 33), (5, 41)])),
  (43, (0, true, BNode.internal 43 (some 44) 3 [(0, 34), (4, 42)])),
  (44, (0, true, BNode.internal 44 (some 45) 3 [(0, 35), (3, 43)])),
  (45, (0, true, BNode.internal 45 none 3 [(0, 36), (2, 44)]))],
  46, []⟩

def tSt13 : BPT := ⟨(some 45), 3, 3⟩
def sSt13 : PageStore := ⟨[(0, (1, true, BNode.internal 0 (some 0) 0 [])),
  (1, (1, true, BNode.leaf 1 (some 3) (some 2) 3 [])),
  (2, (1, true, BNode.leaf 2 (some 5) (some 4) 3 [])),
  (3, (0, true, BNode.internal 3 (some 6) 3 [(0, 1)])),
  (4, (1, true, BNode.leaf 4 (some 8) (some 7) 3 [])),
  (5, (0, true, BNode.internal 5 (some 9) 3 [(0, 2)])),
  (6, (0, true, BNode.internal 6 (some 10) 3 [(0, 3)])),
  (7, (0, true, BNode.leaf 7 (some 12) (some 11) 3 [(4, 4)])),
  (8, (0, true, BNode.internal 8 (some 13) 3 [(0, 4)])),
  (9, (0, true, BNode.internal 9 (some 14) 3 [(0, 5)])),
  (10, (0, true, BNode.internal 10 (some 15) 3 [(0, 6)])),
  (11, (0, true, BNode.leaf 11 (some 17) (some 16) 3 [(5, 5)])),
  (12, (0, true, BNode.internal 12 (some 18) 3 [(0, 7)])),
  (13, (0, true, BNode.internal 13 (some 19) 3 [(0, 8)])),
  (14, (0, true, BNode.internal 14 (some 20) 3 [(0, 9)])),
  (15, (0, true, BNode.internal 15 (some 21) 3 [(0, 10)])),
  (16, (0, true, BNode.leaf 16 (some 23) (some 22) 3 [(6, 6)])),
  (17, (0, true, BNode.internal 17 (some 24) 3 [(0, 11)])),
  (18, (0, true, BNode.internal 18 (some 25) 3 [(0, 12)])),
  (19, (0, true, BNode.internal 19 (some 26) 3 [(0, 13)])),
  (20, (0, true, BNode.internal 20 (some 27) 3 [(0, 14)])),
  (21, (0, true, BNode.internal 21 (some 28) 3 [(0, 15)])),
  (22, (0, true, BNode.leaf 22 (some 30) (some 29) 3 [(7, 7)])),
  (23, (0, true, BNode.internal 23 (some 31) 3 [(0, 16)])),
  (24, (0, true, BNode.internal 24 (some 32) 3 [(0, 17)])),
  (25, (0, true, BNode.internal 25 (some 33) 3 [(0, 18)])),
  (26, (0, true, BNode.internal 26 (some 34) 3 [(0, 19)])),
  (27, (0, true, BNode.internal 27 (some 35) 3 [(0, 20)])),
  (28, (0, true, BNode.internal 28 (some 36) 3 [(0, 21)])),
  (29, (0, true, BNode.leaf 29 (some 38) (some 37) 3 [(8, 8)])),
  (30, (0, true, BNode.internal 30 (some 39) 3 [(0, 22)])),
  (31, (0, true, BNode.internal 31 (some 40) 3 [(0, 23)])),
  (32, (0, true, BNode.internal 32 (some 41) 3 [(0, 24)])),
  (33, (0, true, BNode.internal 33 (some 42) 3 [(0, 25)])),
  (34, (0, true, BNode.internal 34 (some 43) 3 [(0, 26)])),
  (35, (0, true, BNode.internal 35 (some 44) 3 [(0, 27)])),
  (36, (0, true, BNode.internal 36 (some 45) 3 [(0, 28)])),
  (37, (0, true, BNode.leaf 37 (some 38) none 3 [(9, 9), (10, 10)])),
  (38, (0, true, BNode.internal 38 (some 39) 3 [(0, 29), (9, 37)])),
  (39, (0, true, BNode.internal 39 (some 40) 3 [(0, 30), (8, 38)])),
  (40, (0, true, BNode.internal 40 (some 41) 3 [(0, 31), (7, 39)])),
  (41, (0, true, BNode.internal 41 (some 42) 3 [(0, 32), (6, 40)])),
  (42, (0, true, BNode.internal 42 (some 43) 3 [(0, 33), (5, 41)])),
  (43, (0, true, BNode.internal 43 (some 44) 3 [(0, 34), (4, 42)])),
  (44, (0, true, BNode.internal 44 (some 45) 3 [(0, 35), (3, 43)])),
  (45, (0, true, BNode.internal 45 none 3 [(0, 36), (2, 44)]))],
  46, []⟩

def tSt14 : BPT := ⟨(some 45), 3, 3⟩
def sSt14 : PageStore := ⟨[(0, (1, true, BNode.internal 0 (some 0) 0 [])),
  (1, (1, true, BNode.leaf 1 (some 3) (some 2) 3 [])),
  (2, (1, true, BNode.leaf 2 (some 5) (some 4) 3 [])),
  (3, (0, true, BNode.internal 3 (some 6) 3 [(0, 1)])),
  (4, (1, true, BNode.leaf 4 (some 8) (some 7) 3 [])),
  (5, (0, true, BNode.internal 5 (some 9) 3 [(0, 2)])),
  (6, (0, true, BNode.internal 6 (some 10) 3 [(0, 3)])),
  (7, (1, true, BNode.leaf 7 (some 12) (some 11) 3 [])),
  (8, (0, true, BNode.internal 8 (some 13) 3 [(0, 4)])),
  (9, (0, true, BNode.internal 9 (some 14) 3 [(0, 5)])),
  (10, (0, true, BNode.internal 10 (some 15) 3 [(0, 6)])),
  (11, (0, true, BNode.leaf 11 (some 17) (some 16) 3 [(5, 5)])),
  (12, (0, true, BNode.internal 12 (some 18) 3 [(0, 7)])),
  (13, (0, true, BNode.internal 13 (some 19) 3 [(0, 8)])),
  (14, (0, true, BNode.internal 14 (some 20) 3 [(0, 9)])),
  (15, (0, true, BNode.internal 15 (some 21) 3 [(0, 10)])),
  (16, (0, true, BNode.leaf 16 (some 23) (some 22) 3 [(6, 6)])),
  (17, (0, true, BNode.internal 17 (some 24) 3 [(0, 11)])),
  (18, (0, true, BNode.internal 18 (some 25) 3 [(0, 12)])),
  (19, (0, true, BNode.internal 19 (some 26) 3 [(0, 13)])),
  (20, (0, true, BNode.internal 20 (some 27) 3 [(0, 14)])),
  (21, (0, true, BNode.internal 21 (some 28) 3 [(0, 15)])),
  (22, (0, true, BNode.leaf 22 (some 30) (some 29) 3 [(7, 7)])),
  (23, (0, true, BNode.internal 23 (some 31) 3 [(0, 16)])),
  (24, (0, true, BNode.internal 24 (some 32) 3 [(0, 17)])),
  (25, (0, true, BNode.internal 25 (some 33) 3 [(0, 18)])),
  (26, (0, true, BNode.internal 26 (some 34) 3 [(0, 19)])),
  (27, (0, true, BNode.internal 27 (some 35) 3 [(0, 20)])),
  (28, (0, true, BNode.internal 28 (some 36) 3 [(0, 21)])),
  (29, (0, true, BNode.leaf 29 (some 38) (some 37) 3 [(8, 8)])),
  (30, (0, true, BNode.internal 30 (some 39) 3 [(0, 22)])),
  (31, (0, true, BNode.internal 31 (some 40) 3 [(0, 23)])),
  (32, (0, true, BNode.internal 32 (some 41) 3 [(0, 24)])),
  (33, (0, true, BNode.internal 33 (some 42) 3 [(0, 25)])),
  (34, (0, true, BNode.internal 34 (some 43) 3 [(0, 26)])),
  (35, (0, true, BNode.internal 35 (some 44) 3 [(0, 27)])),
  (36, (0, true, BNode.internal 36 (some 45) 3 [(0, 28)])),
  (37, (0, true, BNode.leaf 37 (some 38) none 3 [(9, 9), (10, 10)])),
  (38, (0, true, BNode.internal 38 (some 39) 3 [(0, 29), (9, 37)])),
  (39, (0, true, BNode.internal 39 (some 40) 3 [(0, 30), (8, 38)])),
  (40, (0, true, BNode.internal 40 (some 41) 3 [(0, 31), (7, 39)])),
  (41, (0, true, BNode.internal 41 (some 42) 3 [(0, 32), (6, 40)])),
  (42, (0, true, BNode.internal 42 (some 43) 3 [(0, 33), (5, 41)])),
  (43, (0, true, BNode.internal 43 (some 44) 3 [(0, 34), (4, 42)])),
  (44, (0, true, BNode.internal 44 (some 45) 3 [(0, 35), (3, 43)])),
  (45, (0, true, BNode.internal 45 none 3 [(0, 36), (2, 44)]))],
  46, []⟩

def tSt15 : BPT := ⟨(some 45), 3, 3⟩
def sSt15 : PageStore := ⟨[(0, (1, true, BNode.internal 0 (some 0) 0 [])),
  (1, (1, true, BNode.leaf 1 (some 3) (some 2) 3 [])),
  (2, (1, true, BNode.leaf 2 (some 5) (some 4) 3 [])),
  (3, (0, true, BNode.internal 3 (some 6) 3 [(0, 1)])),
  (4, (1, true, BNode.leaf 4 (some 8) (some 7) 3 [])),
  (5, (0, true, BNode.internal 5 (some 9) 3 [(0, 2)])),
  (6, (0, true, BNode.internal 6 (some 10) 3 [(0, 3)])),
  (7, (1, true, BNode.leaf 7 (some 12) (some 11) 3 [])),
  (8, (0, true, BNode.internal 8 (some 13) 3 [(0, 4)])),
  (9, (0, true, BNode.internal 9 (some 14) 3 [(0, 5)])),
  (10, (0, true, BNode.internal 10 (some 15) 3 [(0, 6)])),
  (11, (1, true, BNode.leaf 11 (some 17) (some 16) 3 [])),
  (12, (0, true, BNode.internal 12 (some 18) 3 [(0, 7)])),
  (13, (0, true, BNode.internal 13 (some 19) 3 [(0, 8)])),
  (14, (0, true, BNode.internal 14 (some 20) 3 [(0, 9)])),
  (15, (0, true, BNode.internal 15 (some 21) 3 [(0, 10)])),
  (16, (0, true, BNode.leaf 16 (some 23) (some 22) 3 [(6, 6)])),
  (17, (0, true, BNode.internal 17 (some 24) 3 [(0, 11)])),
  (18, (0, true, BNode.internal 18 (some 25) 3 [(0, 12)])),
  (19, (0, true, BNode.internal 19 (some 26) 3 [(0, 13)])),
  (20, (0, true, BNode.internal 20 (some 27) 3 [(0, 14)])),
  (21, (0, true, BNode.internal 21 (some 28) 3 [(0, 15)])),
  (22, (0, true, BNode.leaf 22 (some 30) (some 29) 3 [(7, 7)])),
  (23, (0, true, BNode.internal 23 (some 31) 3 [(0, 16)])),
  (24, (0, true, BNode.internal 24 (some 32) 3 [(0, 17)])),
  (25, (0, true, BNode.internal 25 (some 33) 3 [(0, 18)])),
  (26, (0, true, BNode.internal 26 (some 34) 3 [(0, 19)])),
  (27, (0, true, BNode.internal 27 (some 35) 3 [(0, 20)])),
  (28, (0, true, BNode.internal 28 (some 36) 3 [(0, 21)])),
  (29, (0, true, BNode.leaf 29 (some 38) (some 37) 3 [(8, 8)])),
  (30, (0, true, BNode.internal 30 (some 39) 3 [(0, 22)])),
  (31, (0, true, BNode.internal 31 (some 40) 3 [(0, 23)])),
  (32, (0, true, BNode.internal 32 (some 41) 3 [(0, 24)])),
  (33, (0, true, BNode.internal 33 (some 42) 3 [(0, 25)])),
  (34, (0, true, BNode.internal 34 (some 43) 3 [(0, 26)])),
  (35, (0, true, BNode.internal 35 (some 44) 3 [(0, 27)])),
  (36, (0, true, BNode.internal 36 (some 45) 3 [(0, 28)])),
  (37, (0, true, BNode.leaf 37 (some 38) none 3 [(9, 9), (10, 10)])),
  (38, (0, true, BNode.internal 38 (some 39) 3 [(0, 29), (9, 37)])),
  (39, (0, true, BNode.internal 39 (some 40) 3 [(0, 30), (8, 38)])),
  (40, (0, true, BNode.internal 40 (some 41) 3 [(0, 31), (7, 39)])),
  (41, (0, true, BNode.internal 41 (some 42) 3 [(0, 32), (6, 40)])),
  (42, (0, true, BNode.internal 42 (some 43) 3 [(0, 33), (5, 41)])),
  (43, (0, true, BNode.internal 43 (some 44) 3 [(0, 34), (4, 42)])),
  (44, (0, true, BNode.internal 44 (some 45) 3 [(0, 35), (3, 43)])),
  (45, (0, true, BNode.internal 45 none 3 [(0, 36), (2, 44)]))],
  46, []⟩

def tSt16 : BPT := ⟨(some 45), 3, 3⟩
def sSt16 : PageStore := ⟨[(0, (1, true, BNode.internal 0 (some 0) 0 [])),
  (1, (1, true, BNode.leaf 1 (some 3) (some 2) 3 [])),
  (2, (1, true, BNode.leaf 2 (some 5) (some 4) 3 [])),
  (3, (0, true, BNode.internal 3 (some 6) 3 [(0, 1)])),
  (4, (1, true, BNode.leaf 4 (some 8) (some 7) 3 [])),
  (5, (0, true, BNode.internal 5 (some 9) 3 [(0, 2)])),
  (6, (0, true, BNode.internal 6 (some 10) 3 [(0, 3)])),
  (7, (1, true, BNode.leaf 7 (some 12) (some 11) 3 [])),
  (8, (0, true, BNode.internal 8 (some 13) 3 [(0, 4)])),
  (9, (0, true, BNode.internal 9 (some 14) 3 [(0, 5)])),
  (10, (0, true, BNode.internal 10 (some 15) 3 [(0, 6)])),
  (11, (1, true, BNode.leaf 11 (some 17) (some 16) 3 [])),
  (12, (0, true, BNode.internal 12 (some 18) 3 [(0, 7)])),
  (13, (0, true, BNode.internal 13 (some 19) 3 [(0, 8)])),
  (14, (0, true, BNode.internal 14 (some 20) 3 [(0, 9)])),
  (15, (0, true, BNode.internal 15 (some 21) 3 [(0, 10)])),
  (16, (1, true, BNode.leaf 16 (some 23) (some 22) 3 [])),
  (17, (0, true, BNode.internal 17 (some 24) 3 [(0, 11)])),
  (18, (0, true, BNode.internal 18 (some 25) 3 [(0, 12)])),
  (19, (0, true, BNode.internal 19 (some 26) 3 [(0, 13)])),
  (20, (0, true, BNode.internal 20 (some 27) 3 [(0, 14)])),
  (21, (0, true, BNode.internal 21 (some 28) 3 [(0, 15)])),
  (22, (0, true, BNode.leaf 22 (some 30) (some 29) 3 [(7, 7)])),
  (23, (0, true, BNode.internal 23 (some 31) 3 [(0, 16)])),
  (24, (0, true, BNode.internal 24 (some 32) 3 [(0, 17)])),
  (25, (0, true, BNode.internal 25 (some 33) 3 [(0, 18)])),
  (26, (0, true, BNode.internal 26 (some 34) 3 [(0, 19)])),
  (27, (0, true, BNode.internal 27 (some 35) 3 [(0, 20)])),
  (28, (0, true, BNode.internal 28 (some 36) 3 [(0, 21)])),
  (29, (0, true, BNode.leaf 29 (some 38) (some 37) 3 [(8, 8)])),
  (30, (0, true, BNode.internal 30 (some 39) 3 [(0, 22)])),
  (31, (0, true, BNode.internal 31 (some 40) 3 [(0, 23)])),
  (32, (0, true, BNode.internal 32 (some 41) 3 [(0, 24)])),
  (33, (0, true, BNode.internal 33 (some 42) 3 [(0, 25)])),
  (34, (0, true, BNode.internal 34 (some 43) 3 [(0, 26)])),
  (35, (0, true, BNode.internal 35 (some 44) 3 [(0, 27)])),
  (36, (0, true, BNode.internal 36 (some 45) 3 [(0, 28)])),
  (37, (0, true, BNode.leaf 37 (some 38) none 3 [(9, 9), (10, 10)])),
  (38, (0, true, BNode.internal 38 (some 39) 3 [(0, 29), (9, 37)])),
  (39, (0, true, BNode.internal 39 (some 40) 3 [(0, 30), (8, 38)])),
  (40, (0, true, BNode.internal 40 (some 41) 3 [(0, 31), (7, 39)])),
  (41, (0, true, BNode.internal 41 (some 42) 3 [(0, 32), (6, 40)])),
  (42, (0, true, BNode.internal 42 (some 43) 3 [(0, 33), (5, 41)])),
  (43, (0, true, BNode.internal 43 (some 44) 3 [(0, 34), (4, 42)])),
  (44, (0, true, BNode.internal 44 (some 45) 3 [(0, 35), (3, 43)])),
  (45, (0, true, BNode.internal 45 none 3 [(0, 36), (2, 44)]))],
  46, []⟩

def tSt17 : BPT := ⟨(some 45), 3, 3⟩
def sSt17 : PageStore := ⟨[(0, (1, true, BNode.internal 0 (some 0) 0 [])),
  (1, (1, true, BNode.leaf 1 (some 3) (some 2) 3 [])),
  (2, (1, true, BNode.leaf 2 (some 5) (some 4) 3 [])),
  (3, (0, true, BNode.internal 3 (some 6) 3 [(0, 1)])),
  (4, (1, true, BNode.leaf 4 (some 8) (some 7) 3 [])),
  (5, (0, true, BNode.internal 5 (some 9) 3 [(0, 2)])),
  (6, (0, true, BNode.internal 6 (some 10) 3 [(0, 3)])),
  (7, (1, true, BNode.leaf 7 (some 12) (some 11) 3 [])),
  (8, (0, true, BNode.internal 8 (some 13) 3 [(0, 4)])),
  (9, (0, true, BNode.internal 9 (some 14) 3 [(0, 5)])),
  (10, (0, true, BNode.internal 10 (some 15) 3 [(0, 6)])),
  (11, (1, true, BNode.leaf 11 (some 17) (some 16) 3 [])),
  (12, (0, true, BNode.internal 12 (some 18) 3 [(0, 7)])),
  (13, (0, true, BNode.internal 13 (some 19) 3 [(0, 8)])),
  (14, (0, true, BNode.internal 14 (some 20) 3 [(0, 9)])),
  (15, (0, true, BNode.internal 15 (some 21) 3 [(0, 10)])),
  (16, (1, true, BNode.leaf 16 (some 23) (some 22) 3 [])),
  (17, (0, true, BNode.internal 17 (some 24) 3 [(0, 11)])),
  (18, (0, true, BNode.internal 18 (some 25) 3 [(0, 12)])),
  (19, (0, true, BNode.internal 19 (some 26) 3 [(0, 13)])),
  (20, (0, true, BNode.internal 20 (some 27) 3 [(0, 14)])),
  (21, (0, true, BNode.internal 21 (some 28) 3 [(0, 15)])),
  (22, (1, true, BNode.leaf 22 (some 30) (some 29) 3 [])),
  (23, (0, true, BNode.internal 23 (some 31) 3 [(0, 16)])),
  (24, (0, true, BNode.internal 24 (some 32) 3 [(0, 17)])),
  (25, (0, true, BNode.internal 25 (some 33) 3 [(0, 18)])),
  (26, (0, true, BNode.internal 26 (some 34) 3 [(0, 19)])),
  (27, (0, true, BNode.internal 27 (some 35) 3 [(0, 20)])),
  (28, (0, true, BNode.internal 28 (some 36) 3 [(0, 21)])),
  (29, (0, true, BNode.leaf 29 (some 38) (some 37) 3 [(8, 8)])),
  (30, (0, true, BNode.internal 30 (some 39) 3 [(0, 22)])),
  (31, (0, true, BNode.internal 31 (some 40) 3 [(0, 23)])),
  (32, (0, true, BNode.internal 32 (some 41) 3 [(0, 24)])),
  (33, (0, true, BNode.internal 33 (some 42) 3 [(0, 25)])),
  (34, (0, true, BNode.internal 34 (some 43) 3 [(0, 26)])),
  (35, (0, true, BNode.internal 35 (some 44) 3 [(0, 27)])),
  (36, (0, true, BNode.internal 36 (some 45) 3 [(0, 28)])),
  (37, (0, true, BNode.leaf 37 (some 38) none 3 [(9, 9), (10, 10)])),
  (38, (0, true, BNode.internal 38 (some 39) 3 [(0, 29), (9, 37)])),
  (39, (0, true, BNode.internal 39 (some 40) 3 [(0, 30), (8, 38)])),
  (40, (0, true, BNode.internal 40 (some 41) 3 [(0, 31), (7, 39)])),
  (41, (0, true, BNode.internal 41 (some 42) 3 [(0, 32), (6, 40)])),
  (42, (0, true, BNode.internal 42 (some 43) 3 [(0, 33), (5, 41)])),
  (43, (0, true, BNode.internal 43 (some 44) 3 [(0, 34), (4, 42)])),
  (44, (0, true, BNode.internal 44 (some 45) 3 [(0, 35), (3, 43)])),
  (45, (0, true, BNode.internal 45 none 3 [(0, 36), (2, 44)]))],
  46, []⟩

def tSt18 : BPT := ⟨(some 45), 3, 3⟩
def sSt18 : PageStore := ⟨[(0, (1, true, BNode.internal 0 (some 0) 0 [])),
  (1, (1, true, BNode.leaf 1 (some 3) (some 2) 3 [])),
  (2, (1, true, BNode.leaf 2 (some 5) (some 4) 3 [])),
  (3, (0, true, BNode.internal 3 (some 6) 3 [(0, 1)])),
  (4, (1, true, BNode.leaf 4 (some 8) (some 7) 3 [])),
  (5, (0, true, BNode.internal 5 (some 9) 3 [(0, 2)])),
  (6, (0, true, BNode.internal 6 (some 10) 3 [(0, 3)])),
  (7, (1, true, BNode.leaf 7 (some 12) (some 11) 3 [])),
  (8, (0, true, BNode.internal 8 (some 13) 3 [(0, 4)])),
  (9, (0, true, BNode.internal 9 (some 14) 3 [(0, 5)])),
  (10, (0, true, BNode.internal 10 (some 15) 3 [(0, 6)])),
  (11, (1, true, BNode.leaf 11 (some 17) (some 16) 3 [])),
  (12, (0, true, BNode.internal 12 (some 18) 3 [(0, 7)])),
  (13, (0, true, BNode.internal 13 (some 19) 3 [(0, 8)])),
  (14, (0, true, BNode.internal 14 (some 20) 3 [(0, 9)])),
  (15, (0, true, BNode.internal 15 (some 21) 3 [(0, 10)])),
  (16, (1, true, BNode.leaf 16 (some 23) (some 22) 3 [])),
  (17, (0, true, BNode.internal 17 (some 24) 3 [(0, 11)])),
  (18, (0, true, BNode.internal 18 (some 25) 3 [(0, 12)])),
  (19, (0, true, BNode.internal 19 (some 26) 3 [(0, 13)])),
  (20, (0, true, BNode.internal 20 (some 27) 3 [(0, 14)])),
  (21, (0, true, BNode.internal 21 (some 28) 3 [(0, 15)])),
  (22, (1, true, BNode.leaf 22 (some 30) (some 29) 3 [])),
  (23, (0, true, BNode.internal 23 (some 31) 3 [(0, 16)])),
  (24, (0, true, BNode.internal 24 (some 32) 3 [(0, 17)])),
  (25, (0, true, BNode.internal 25 (some 33) 3 [(0, 18)])),
  (26, (0, true, BNode.internal 26 (some 34) 3 [(0, 19)])),
  (27, (0, true, BNode.internal 27 (some 35) 3 [(0, 20)])),
  (28, (0, true, BNode.internal 28 (some 36) 3 [(0, 21)])),
  (29, (1, true, BNode.leaf 29 (some 38) none 3 [(9, 9), (10, 10)])),
  (30, (0, true, BNode.internal 30 (some 39) 3 [(0, 22)])),
  (31, (0, true, BNode.internal 31 (some 40) 3 [(0, 23)])),
  (32, (0, true, BNode.internal 32 (some 41) 3 [(0, 24)])),
  (33, (0, true, BNode.internal 33 (some 42) 3 [(0, 25)])),
  (34, (0, true, BNode.internal 34 (some 43) 3 [(0, 26)])),
  (35, (0, true, BNode.internal 35 (some 44) 3 [(0, 27)])),
  (36, (0, true, BNode.internal 36 (some 45) 3 [(0, 28)])),
  (38, (1, true, BNode.internal 38 (some 39) 3 [(0, 29), (9, 37)])),
  (39, (0, true, BNode.internal 39 (some 40) 3 [(0, 30), (8, 38)])),
  (40, (0, true, BNode.internal 40 (some 41) 3 [(0, 31), (7, 39)])),
  (41, (0, true, BNode.internal 41 (some 42) 3 [(0, 32), (6, 40)])),
  (42, (0, true, BNode.internal 42 (some 43) 3 [(0, 33), (5, 41)])),
  (43, (0, true, BNode.internal 43 (some 44) 3 [(0, 34), (4, 42)])),
  (44, (0, true, BNode.internal 44 (some 45) 3 [(0, 35), (3, 43)])),
  (45, (0, true, BNode.internal 45 none 3 [(0, 36), (2, 44)]))],
  46, [37]⟩

lemma stepE1 : insertT tSt0 sSt0 1 1 60 = some (true, tSt1, sSt1) := by
  decide

lemma stepE2 : insertT tSt1 sSt1 2 2 60 = some (true, tSt2, sSt2) := by
  decide

lemma stepE3 : insertT tSt2 sSt2 3 3 60 = some (true, tSt3, sSt3) := by
  decide

lemma stepE4 : insertT tSt3 sSt3 4 4 60 = some (true, tSt4, sSt4) := by
  decide

lemma stepE5 : insertT tSt4 sSt4 5 5 60 = some (true, tSt5, sSt5) := by
  decide

lemma stepE6 : insertT tSt5 sSt5 6 6 60 = some (true, tSt6, sSt6) := by
  decide

lemma stepE7 : insertT tSt6 sSt6 7 7 60 = some (true, tSt7, sSt7) := by
  decide

lemma stepE8 : insertT tSt7 sSt7 8 8 60 = some (true, tSt8, sSt8) := by
  decide

lemma stepE9 : insertT tSt8 sSt8 9 9 60 = some (true, tSt9, sSt9) := by
  decide

lemma stepE10 : insertT tSt9 sSt9 10 10 60 = some (true, tSt10, sSt10) := by
  decide

lemma stepF1 : removeT tSt10 sSt10 1 60 = some (tSt11, sSt11) := by
  decide

lemma stepF2 : removeT tSt11 sSt11 2 60 = some (tSt12, sSt12) := by
  decide

lemma stepF3 : removeT tSt12 sSt12 3 60 = some (tSt13, sSt13) := by
  decide

lemma stepF4 : removeT tSt13 sSt13 4 60 = some (tSt14, sSt14) := by
  decide

lemma stepF5 : removeT tSt14 sSt14 5 60 = some (tSt15, sSt15) := by
  decide

lemma stepF6 : removeT tSt15 sSt15 6 60 = some (tSt16, sSt16) := by
  decide

lemma stepF7 : removeT tSt16 sSt16 7 60 = some (tSt17, sSt17) := by
  decide

lemma stepF8 : removeT tSt17 sSt17 8 60 = some (tSt18, sSt18) := by
  decide

lemma insertAll_cons {t : BPT} {s : PageStore} {fuel k v : Nat}
    {b : Bool} {t1 : BPT} {s1 : PageStore} (rest : List (Nat × Nat))
    (h : insertT t s k v fuel = some (b, t1, s1)) :
    insertAll t s fuel ((k, v) :: rest) = insertAll t1 s1 fuel rest := by
  simp [insertAll, h]

lemma removeAll_cons {t : BPT} {s : PageStore} {fuel k : Nat}
    {t1 : BPT} {s1 : PageStore} (rest : List Nat)
    (h : removeT t s k fuel = some (t1, s1)) :
    removeAll t s fuel (k :: rest) = removeAll t1 s1 fuel rest := by
  simp [removeAll, h]

/-- Scenario E evaluated: after the ten inserts the tree object and the
page store are the checkpointed literals. -/
lemma scenarioE_eq : scenarioE = some (tSt10, sSt10) := by
  unfold scenarioE
  rw [show (List.range 10).map (fun i => (i + 1, i + 1)) =
        [(1, 1), (2, 2), (3, 3), (4, 4), (5, 5), (6, 6), (7, 7), (8, 8),
         (9, 9), (10, 10)] from by decide]
  rw [show newTree 3 3 = tSt0 from rfl, show emptyStore = sSt0 from rfl]
  rw [insertAll_cons _ stepE1, insertAll_cons _ stepE2, insertAll_cons _ stepE3,
      insertAll_cons _ stepE4, insertAll_cons _ stepE5, insertAll_cons _ stepE6,
      insertAll_cons _ stepE7, insertAll_cons _ stepE8, insertAll_cons _ stepE9,
      insertAll_cons _ stepE10]
  rfl

/-- The first eight removals of Scenario F evaluated. -/
lemma removeAll_eight : removeAll tSt10 sSt10 60 [1, 2, 3, 4, 5, 6, 7, 8] =
    some (tSt18, sSt18) := by
  rw [removeAll_cons _ stepF1, removeAll_cons _ stepF2, removeAll_cons _ stepF3,
      removeAll_cons _ stepF4, removeAll_cons _ stepF5, removeAll_cons _ stepF6,
      removeAll_cons _ stepF7, removeAll_cons _ stepF8]
  rfl

/-- The page ids visited by the descent for key 9 after the eighth
removal: the remaining right spine, then the coalesced-away (and
delete-called) page 37 still referenced by its parent 38, then the
header page 0 which the zero-filled image of 37 points at, forever. -/
def chainPids : List Nat := [45, 44, 43, 42, 41, 40, 39, 38, 37, 0]

/-- The store contents along that descent (stable under fetch/unpin). -/
def ChainOK (s : PageStore) : Prop :=
  getNode s 45 = BNode.internal 45 none 3 [(0, 36), (2, 44)] ∧
  getNode s 44 = BNode.internal 44 (some 45) 3 [(0, 35), (3, 43)] ∧
  getNode s 43 = BNode.internal 43 (some 44) 3 [(0, 34), (4, 42)] ∧
  getNode s 42 = BNode.internal 42 (some 43) 3 [(0, 33), (5, 41)] ∧
  getNode s 41 = BNode.internal 41 (some 42) 3 [(0, 32), (6, 40)] ∧
  getNode s 40 = BNode.internal 40 (some 41) 3 [(0, 31), (7, 39)] ∧
  getNode s 39 = BNode.internal 39 (some 40) 3 [(0, 30), (8, 38)] ∧
  getNode s 38 = BNode.internal 38 (some 39) 3 [(0, 29), (9, 37)] ∧
  getNode s 37 = zeroNode ∧
  getNode s 0 = zeroNode

lemma flpGo_succ (key fuel pid : Nat) (s : PageStore) :
    flpGo key (fuel + 1) pid s =
      if (getNode s pid).isLeaf then some (pid, s)
      else
        flpGo key fuel
          ((getNode s pid).valueAt (childScan (getNode s pid).entries key 1 - 1))
          (unpinPage
            (fetchPage s
              ((getNode s pid).valueAt
                (childScan (getNode s pid).entries key 1 - 1))).2 pid false) := rfl

/-- On any store whose descent path for key 9 looks like the
post-removal Scenario F store, `FindLeafPage` never terminates: the
walk enters the deleted page 37 and then cycles on page 0 for any
amount of fuel. -/
lemma flpGo_chain (fuel : Nat) : ∀ s p, p ∈ chainPids → ChainOK s →
    flpGo 9 fuel p s = none := by
  induction fuel with
  | zero => intro s p _ _; rfl
  | succ f ih =>
    intro s p hp hok
    obtain ⟨h45, h44, h43, h42, h41, h40, h39, h38, h37, h0⟩ := hok
    have hpres : ∀ c q b, ChainOK (unpinPage (fetchPage s c).2 q b) := by
      intro c q b
      refine ⟨?_, ?_, ?_, ?_, ?_, ?_, ?_, ?_, ?_, ?_⟩ <;>
        rw [getNode_unpinPage, getNode_fetchPage] <;> assumption
    rw [chainPids] at hp
    simp only [List.mem_cons, List.not_mem_nil, or_false] at hp
    rcases hp with rfl | rfl | rfl | rfl | rfl | rfl | rfl | rfl | rfl | rfl
    · rw [flpGo_succ, h45]
      rw [if_neg (by decide)]
      rw [show (BNode.internal 45 none 3 [(0, 36), (2, 44)]).valueAt
            (childScan (BNode.internal 45 none 3 [(0, 36), (2, 44)]).entries 9 1 - 1) = 44 from by decide]
      exact ih _ 44 (by decide) (hpres 44 45 false)
    · rw [flpGo_succ, h44]
      rw [if_neg (by decide)]
      rw [show (BNode.internal 44 (some 45) 3 [(0, 35), (3, 43)]).valueAt
            (childScan (BNode.internal 44 (some 45) 3 [(0, 35), (3, 43)]).entries 9 1 - 1) = 43 from by decide]
      exact ih _ 43 (by decide) (hpres 43 44 false)
    · rw [flpGo_succ, h43]
      rw [if_neg (by decide)]
      rw [show (BNode.internal 43 (some 44) 3 [(0, 34), (4, 42)]).valueAt
            (childScan (BNode.internal 43 (some 44) 3 [(0, 34), (4, 42)]).entries 9 1 - 1) = 42 from by decide]
      exact ih _ 42 (by decide) (hpres 42 43 false)
    · rw [flpGo_succ, h42]
      rw [if_neg (by decide)]
      rw [show (BNode.internal 42 (some 43) 3 [(0, 33), (5, 41)]).valueAt
            (childScan (BNode.internal 42 (some 43) 3 [(0, 33), (5, 41)]).entries 9 1 - 1) = 41 from by decide]
      exact ih _ 41 (by decide) (hpres 41 42 false)
    · rw [flpGo_succ, h41]
      rw [if_neg (by decide)]
      rw [show (BNode.internal 41 (some 42) 3 [(0, 32), (6, 40)]).valueAt
            (childScan (BNode.internal 41 (some 42) 3 [(0, 32), (6, 40)]).entries 9 1 - 1) = 40 from by decide]
      exact ih _ 40 (by decide) (hpres 40 41 false)
    · rw [flpGo_succ, h40]
      rw [if_neg (by decide)]
      rw [show (BNode.internal 40 (some 41) 3 [(0, 31), (7, 39)]).valueAt
            (childScan (BNode.internal 40 (some 41) 3 [(0, 31), (7, 39)]).entries 9 1 - 1) = 39 from by decide]
      exact ih _ 39 (by decide) (hpres 39 40 false)
    · rw [flpGo_succ, h39]
      rw [if_neg (by decide)]
      rw [show (BNode.internal 39 (some 40) 3 [(0, 30), (8, 38)]).valueAt
            (childScan (BNode.internal 39 (some 40) 3 [(0, 30), (8, 38)]).entries 9 1 - 1) = 38 from by decide]
      exact ih _ 38 (by decide) (hpres 38 39 false)
    · rw [flpGo_succ, h38]
      rw [if_neg (by decide)]
      rw [show (BNode.internal 38 (some 39) 3 [(0, 29), (9, 37)]).valueAt
            (childScan (BNode.internal 38 (some 39) 3 [(0, 29), (9, 37)]).entries 9 1 - 1) = 37 from by decide]
      exact ih _ 37 (by decide) (hpres 37 38 false)
    · rw [flpGo_succ, h37]
      rw [if_neg (by decide)]
      rw [show (zeroNode).valueAt
            (childScan (zeroNode).entries 9 1 - 1) = 0 from by decide]
      exact ih _ 0 (by decide) (hpres 0 37 false)
    · rw [flpGo_succ, h0]
      rw [if_neg (by decide)]
      rw [show (zeroNode).valueAt
            (childScan (zeroNode).entries 9 1 - 1) = 0 from by decide]
      exact ih _ 0 (by decide) (hpres 0 0 false)

/-- After the eighth removal, removing key 9 runs forever: for every
fuel the descent fails to reach a leaf. -/
lemma removeT_nine_diverges (fuel : Nat) : removeT tSt18 sSt18 9 fuel = none := by
  have hchain : ChainOK (fetchPage sSt18 45).2 := by
    refine ⟨?_, ?_, ?_, ?_, ?_, ?_, ?_, ?_, ?_, ?_⟩ <;>
      rw [getNode_fetchPage] <;> decide
  have hflp : findLeafPage tSt18 sSt18 9 fuel = none := by
    have : tSt18.rootPageId = some 45 := rfl
    simp only [findLeafPage, this]
    exact flpGo_chain fuel _ 45 (by decide) hchain
  unfold removeT
  rw [if_neg (by decide), hflp]

/-- Scenario F as written in the spec never completes: the ninth
removal diverges. -/
lemma scenarioF_none : scenarioF = none := by
  unfold scenarioF
  rw [scenarioE_eq]
  rw [show (List.range 9).map (fun i => i + 1) =
        [1, 2, 3, 4, 5, 6, 7, 8, 9] from by decide]
  show removeAll tSt10 sSt10 60 [1, 2, 3, 4, 5, 6, 7, 8, 9] = none
  rw [removeAll_cons _ stepF1, removeAll_cons _ stepF2, removeAll_cons _ stepF3,
      removeAll_cons _ stepF4, removeAll_cons _ stepF5, removeAll_cons _ stepF6,
      removeAll_cons _ stepF7, removeAll_cons _ stepF8]
  unfold removeAll
  rw [removeT_nine_diverges 60]

/-- C2: refuted — the remove path is broken. After inserting 1..10 and
removing 1..8 (Scenario F's prefix), only one `DeletePage` call ever
happened (page 37) although 45 tree pages were allocated; the parent
page 38 still holds the separator `(9 → page 37)` for the deleted page
37 while the surviving leaf 29 holds keys 9 and 10 (the right-sibling
coalesce removed the separator at `node_index - 1 = -1`, a no-op);
empty leaves such as page 1 are left resident and pinned; the root is
still the internal page 45, not a single leaf; and the ninth removal
never terminates for any fuel, because the descent for key 9 follows
the dangling separator into the zero-filled image of the deleted page
and then cycles on the header page. -/
theorem scenarioF_remove_corrupts_and_diverges :
    scenarioE = some (tSt10, sSt10) ∧
    removeAll tSt10 sSt10 60 [1, 2, 3, 4, 5, 6, 7, 8] = some (tSt18, sSt18) ∧
    sSt18.nextPid = 46 ∧
    sSt18.deleteCalls = [37] ∧
    lookupPage sSt18.pages 37 = none ∧
    getNode sSt18 38 = BNode.internal 38 (some 39) 3 [(0, 29), (9, 37)] ∧
    getNode sSt18 29 = BNode.leaf 29 (some 38) none 3 [(9, 9), (10, 10)] ∧
    tSt18.rootPageId = some 45 ∧
    (getNode sSt18 45).isLeaf = false ∧
    getNode sSt18 1 = BNode.leaf 1 (some 3) (some 2) 3 [] ∧
    pinOf sSt18 1 = 1 ∧
    (∀ fuel, removeT tSt18 sSt18 9 fuel = none) ∧
    scenarioF = none :=
  ⟨scenarioE_eq, removeAll_eight, by decide, by decide, by decide, by decide,
   by decide, rfl, by decide, by decide, by decide,
   removeT_nine_diverges, scenarioF_none⟩

/-- The descent of `FindLeafPage` only moves pin counts: once the leaf
it returns is unpinned, every observation of the store (contents, pins,
dirty flags, allocation counter, delete log) is as it was after
unpinning the starting page. -/
lemma flpGo_obs (key : Nat) : ∀ (fuel pid : Nat) (s : PageStore)
    (leaf : Nat) (s1 : PageStore),
    flpGo key fuel pid s = some (leaf, s1) →
    (∀ p, getNode (unpinPage s1 leaf false) p = getNode (unpinPage s pid false) p) ∧
    (∀ p, pinOf (unpinPage s1 leaf false) p = pinOf (unpinPage s pid false) p) ∧
    (∀ p, dirtyOf (unpinPage s1 leaf false) p = dirtyOf (unpinPage s pid false) p) ∧
    (unpinPage s1 leaf false).nextPid = (unpinPage s pid false).nextPid ∧
    (unpinPage s1 leaf false).deleteCalls = (unpinPage s pid false).deleteCalls := by
  intro fuel
  induction fuel with
  | zero =>
    intro pid s leaf s1 h
    exact absurd h (by simp [flpGo])
  | succ f ih =>
    intro pid s leaf s1 h
    rw [flpGo_succ] at h
    by_cases hleaf : (getNode s pid).isLeaf
    · rw [if_pos hleaf] at h
      obtain ⟨hpl, hss⟩ : pid = leaf ∧ s = s1 := by
        have h2 := Option.some.inj h
        exact ⟨congrArg Prod.fst h2, congrArg Prod.snd h2⟩
      subst hpl
      subst hss
      exact ⟨fun p => rfl, fun p => rfl, fun p => rfl, rfl, rfl⟩
    · rw [if_neg hleaf] at h
      obtain ⟨hg, hp, hd, hn, hdel⟩ := ih _ _ leaf s1 h
      refine ⟨?_, ?_, ?_, ?_, ?_⟩
      · intro p
        simp only [hg p, getNode_unpinPage, getNode_fetchPage]
      · intro p
        simp only [hp p, pinOf_unpinPage, pinOf_fetchPage]
        split_ifs <;> omega
      · intro p
        simp only [hd p, dirtyOf_unpinPage_false, dirtyOf_fetchPage]
      · simp only [hn, nextPid_unpinPage, nextPid_fetchPage]
      · simp only [hdel, deleteCalls_unpinPage, deleteCalls_fetchPage]

/-- `FindLeafPage` followed by unpinning the returned leaf restores
every observation of the store. -/
lemma findLeafPage_obs (t : BPT) (s : PageStore) (key fuel leaf : Nat)
    (s1 : PageStore) (h : findLeafPage t s key fuel = some (leaf, s1)) :
    (∀ p, getNode (unpinPage s1 leaf false) p = getNode s p) ∧
    (∀ p, pinOf (unpinPage s1 leaf false) p = pinOf s p) ∧
    (∀ p, dirtyOf (unpinPage s1 leaf false) p = dirtyOf s p) ∧
    (unpinPage s1 leaf false).nextPid = s.nextPid ∧
    (unpinPage s1 leaf false).deleteCalls = s.deleteCalls := by
  unfold findLeafPage at h
  rcases hr : t.rootPageId with _ | rid
  · rw [hr] at h
    exact absurd h (by simp)
  · rw [hr] at h
    have h' : flpGo key fuel rid (fetchPage s rid).2 = some (leaf, s1) := h
    obtain ⟨hg, hp, hd, hn, hdel⟩ := flpGo_obs key fuel rid ((fetchPage s rid).2) leaf s1 h'
    refine ⟨?_, ?_, ?_, ?_, ?_⟩
    · intro p
      simp only [hg p, getNode_unpinPage, getNode_fetchPage]
    · intro p
      simp only [hp p, pinOf_unpinPage, pinOf_fetchPage]
      split_ifs <;> omega
    · intro p
      simp only [hd p, dirtyOf_unpinPage_false, dirtyOf_fetchPage]
    · simp only [hn, nextPid_unpinPage, nextPid_fetchPage]
    · simp only [hdel, deleteCalls_unpinPage, deleteCalls_fetchPage]

/-- C9: for every B+tree and store on which `GetValue` finds `key`
(returning some record, so the tree is non-empty and the key present),
`Insert(key, v)` returns false and leaves the tree object and every
observation of the page store unchanged: all page contents, all pin
counts (the touched leaf is unpinned again), all dirty flags, the
allocation counter and the delete log. -/
theorem insert_duplicate_unchanged (t : BPT) (s : PageStore)
    (key v w fuel : Nat)
    (hfound : (getValue t s key fuel).map Prod.fst = some (some w)) :
    ∃ s', insertT t s key v fuel = some (false, t, s') ∧
      (∀ pid, getNode s' pid = getNode s pid) ∧
      (∀ pid, pinOf s' pid = pinOf s pid) ∧
      (∀ pid, dirtyOf s' pid = dirtyOf s pid) ∧
      s'.nextPid = s.nextPid ∧ s'.deleteCalls = s.deleteCalls := by
  cases hemp : isEmpty t with
  | true =>
    rw [getValue, if_pos hemp] at hfound
    simp at hfound
  | false =>
    rw [getValue, if_neg (by rw [hemp]; simp)] at hfound
    rcases hf : findLeafPage t s key fuel with _ | ⟨leafPid, s1⟩
    · rw [hf] at hfound
      simp at hfound
    · rw [hf] at hfound
      rcases hscan : scanKey (getNode s1 leafPid).entries key with _ | i
      · simp only [hscan] at hfound
        simp at hfound
      · obtain ⟨hg, hp, hd, hn, hdel⟩ := findLeafPage_obs t s key fuel leafPid s1 hf
        refine ⟨unpinPage s1 leafPid false, ?_, hg, hp, hd, hn, hdel⟩
        rw [insertT, if_neg (by rw [hemp]; simp)]
        rw [insertIntoLeaf, hf]
        simp only [hscan]

/-- Witness for C9 at a concrete instance: the two-entry root leaf after
inserting 1 and 2; re-inserting key 1 with a new record id fails and
changes nothing. -/
theorem insert_duplicate_unchanged_witness :
    (getValue tSt2 sSt2 1 60).map Prod.fst = some (some 1) ∧
    (∃ s', insertT tSt2 sSt2 1 99 60 = some (false, tSt2, s') ∧
      (∀ pid, getNode s' pid = getNode sSt2 pid) ∧
      (∀ pid, pinOf s' pid = pinOf sSt2 pid) ∧
      (∀ pid, dirtyOf s' pid = dirtyOf sSt2 pid) ∧
      s'.nextPid = sSt2.nextPid ∧ s'.deleteCalls = sSt2.deleteCalls) :=
  ⟨by decide, insert_duplicate_unchanged tSt2 sSt2 1 99 1 60 (by decide)⟩

/-! ### Search-tree invariant for the B+tree claim

The remaining definitions support the round-trip statement: a
fuel-indexed well-formedness predicate over the page store (the fuel is
the subtree height), the in-order contents of a subtree, the page ids
of a subtree, and a zipper-style description of the ancestors of a node
used to reason about `InsertIntoParent`'s upward recursion. -/

/-- `k` lies below the (exclusive) upper bound, `none` meaning +∞. -/
def inHi (k : Nat) (hi : Option Nat) : Prop :=
  match hi with
  | none => True
  | some b => k < b

/-- Lower bound of the `i`-th child range of an internal page with
entries `es` whose own range starts at `lo`. -/
def childLo (es : List (Nat × Nat)) (lo i : Nat) : Nat :=
  if i = 0 then lo else (es.getD i (0, 0)).1

/-- Upper bound of the `i`-th child range. -/
def childHi (es : List (Nat × Nat)) (hi : Option Nat) (i : Nat) : Option Nat :=
  if i + 1 < es.length then some (es.getD (i + 1) (0, 0)).1 else hi

/-- In-order key/record contents of the subtree at `pid`. -/
def flatten (s : PageStore) : Nat → Nat → List (Nat × Nat)
  | 0, _ => []
  | h + 1, pid =>
    match getNode s pid with
    | .leaf _ _ _ _ es => es
    | .internal _ _ _ es => (es.map (fun kc => flatten s h kc.2)).flatten

/-- Page ids of the subtree at `pid`. -/
def pids (s : PageStore) : Nat → Nat → List Nat
  | 0, _ => []
  | h + 1, pid =>
    pid ::
      (match getNode s pid with
       | .leaf _ _ _ _ _ => []
       | .internal _ _ _ es => (es.map (fun kc => pids s h kc.2)).flatten)

/-- Well-formed subtree of height below the fuel: stored page id equals
the page id, parent pointer as expected, leaf capacity `lm` with room
to insert, strictly sorted leaf entries inside the range, non-empty
internal pages with weakly sorted separators and correctly bounded
children. -/
def WFS (lm : Nat) (s : PageStore) : Nat → Nat → Option Nat → Nat → Option Nat → Prop
  | 0, _, _, _, _ => False
  | h + 1, pid, par, lo, hi =>
    match getNode s pid with
    | .leaf sid p _ mx es =>
      sid = pid ∧ p = par ∧ mx = lm ∧ es ≠ [] ∧ es.length < lm ∧
      List.Pairwise (fun a b : Nat × Nat => a.1 < b.1) es ∧
      (∀ e ∈ es, lo ≤ e.1 ∧ inHi e.1 hi)
    | .internal sid p _ es =>
      sid = pid ∧ p = par ∧ es ≠ [] ∧
      List.Pairwise (· ≤ ·) ((es.drop 1).map Prod.fst) ∧
      (∀ k ∈ (es.drop 1).map Prod.fst, lo ≤ k ∧ inHi k hi) ∧
      (∀ i, i < es.length →
        WFS lm s h (es.getD i (0, 0)).2 (some pid) (childLo es lo i) (childHi es hi i))

/-- One ancestor level of a node: the ancestor's page id, the entries to
the left and right of the hole, the separator key stored at the hole,
and the ancestor's own key range. -/
structure Frame where
  pid : Nat
  esL : List (Nat × Nat)
  holeKey : Nat
  esR : List (Nat × Nat)
  lo : Nat
  hi : Option Nat

/-- The ancestor's full entry list once the hole is filled with child
pointer `c`. -/
def Frame.plugged (f : Frame) (c : Nat) : List (Nat × Nat) :=
  f.esL ++ (f.holeKey, c) :: f.esR

/-- The parent pointer an ancestor context prescribes for its innermost
node. -/
def ctxParent : List Frame → Option Nat
  | [] => none
  | f :: _ => some f.pid

/-- `CtxOK lm s ctx h c lo hi`: the ancestors of the height-`h` subtree
at `c`, innermost first; `lo`/`hi` is the hole's key range. Each frame
is a well-formed internal page except that the hole's child subtree is
described externally; an empty context means `c` is the root. -/
def CtxOK (lm : Nat) (s : PageStore) : List Frame → Nat → Nat → Nat → Option Nat → Prop
  | [], _, _, lo, hi => lo = 0 ∧ hi = none
  | f :: rest, h, c, lo, hi =>
    (∃ mx, getNode s f.pid = BNode.internal f.pid (ctxParent rest) mx (f.plugged c)) ∧
    (f.plugged c) ≠ [] ∧
    List.Pairwise (· ≤ ·) (((f.plugged c).drop 1).map Prod.fst) ∧
    (∀ k ∈ ((f.plugged c).drop 1).map Prod.fst, f.lo ≤ k ∧ inHi k f.hi) ∧
    lo = childLo (f.plugged c) f.lo f.esL.length ∧
    hi = childHi (f.plugged c) f.hi f.esL.length ∧
    (∀ i, i < (f.plugged c).length → i ≠ f.esL.length →
      WFS lm s h ((f.plugged c).getD i (0, 0)).2 (some f.pid)
        (childLo (f.plugged c) f.lo i) (childHi (f.plugged c) f.hi i)) ∧
    CtxOK lm s rest (h + 1) f.pid f.lo f.hi

/-- Page ids owned by the context: each ancestor and the subtrees of all
its other children. -/
def ctxPids (s : PageStore) : List Frame → Nat → Nat → List Nat
  | [], _, _ => []
  | f :: rest, h, _ =>
    f.pid ::
      ((f.esL.map (fun kc => pids s h kc.2)).flatten ++
       (f.esR.map (fun kc => pids s h kc.2)).flatten) ++
      ctxPids s rest (h + 1) f.pid

/-- In-order contents of the whole tree when the hole's subtree
flattens to `x`. -/
def ctxFlatten (s : PageStore) : List Frame → Nat → Nat → List (Nat × Nat) → List (Nat × Nat)
  | [], _, _, x => x
  | f :: rest, h, c, x =>
    ctxFlatten s rest (h + 1) f.pid
      (((f.esL.map (fun kc => flatten s h kc.2)).flatten) ++ x ++
       ((f.esR.map (fun kc => flatten s h kc.2)).flatten))

/-- Store-level side conditions on a set of page ids: resident, never
the header page, and below the allocation counter. -/
def PB (s : PageStore) (l : List Nat) : Prop :=
  l.Nodup ∧ ∀ p ∈ l, 1 ≤ p ∧ p < s.nextPid ∧ (lookupPage s.pages p).isSome

/-- The full-tree representation invariant tying a tree object to its
page store: either empty, or a well-formed root of some height whose
page ids are distinct, resident and below the allocation counter. -/
def TreeRep (lm im : Nat) (t : BPT) (s : PageStore) (contents : List (Nat × Nat)) : Prop :=
  t.leafMaxSize = lm ∧ t.internalMaxSize = im ∧
  match t.rootPageId with
  | none => contents = []
  | some r => ∃ h, WFS lm s h r none 0 none ∧
      flatten s h r = contents ∧ PB s (pids s h r)

/-- First record for `key`, as `GetValue`'s scan reports it. -/
def specLookup (es : List (Nat × Nat)) (k : Nat) : Option Nat :=
  (es.find? (fun e => e.1 = k)).map Prod.snd

/-- Global sanity of the allocation counter: only pages below it are
resident. -/
def StoreOK (s : PageStore) : Prop :=
  ∀ p, (lookupPage s.pages p).isSome → p < s.nextPid

lemma getNode_writeNode (s : PageStore) (pid : Nat) (n : BNode)
    (hres : (lookupPage s.pages pid).isSome) (p : Nat) :
    getNode (writeNode s pid n) p = if p = pid then n else getNode s p := by
  rcases hl : lookupPage s.pages pid with _ | ⟨pin, d, old⟩
  · rw [hl] at hres
    simp at hres
  · unfold getNode
    simp only [writeNode, hl]
    rw [lookupPage_updatePage s.pages pid _ p]
    by_cases hp : p = pid
    · rw [if_pos ⟨hp, by rw [hl]; rfl⟩, if_pos hp]
    · rw [if_neg (fun hc => hp hc.1), if_neg hp]

lemma writeNode_nextPid (s : PageStore) (pid : Nat) (n : BNode) :
    (writeNode s pid n).nextPid = s.nextPid := by
  rcases hl : lookupPage s.pages pid with _ | ⟨pin, d, old⟩ <;>
    simp only [writeNode, hl]

lemma writeNode_isSome (s : PageStore) (pid : Nat) (n : BNode) (p : Nat) :
    (lookupPage (writeNode s pid n).pages p).isSome =
      (lookupPage s.pages p).isSome := by
  rcases hl : lookupPage s.pages pid with _ | ⟨pin, d, old⟩
  · simp only [writeNode, hl]
  · simp only [writeNode, hl]
    rw [lookupPage_updatePage s.pages pid _ p]
    by_cases hp : p = pid
    · rw [if_pos ⟨hp, by rw [hl]; rfl⟩, hp, hl]
      rfl
    · rw [if_neg (fun hc => hp hc.1)]

lemma fetchPage_isSome (s : PageStore) (q : Nat)
    (hres : (lookupPage s.pages q).isSome) (p : Nat) :
    (lookupPage ((fetchPage s q).2).pages p).isSome =
      (lookupPage s.pages p).isSome := by
  rcases hl : lookupPage s.pages q with _ | ⟨pin, d, n⟩
  · rw [hl] at hres
    simp at hres
  · simp only [fetchPage, hl]
    rw [lookupPage_updatePage s.pages q _ p]
    by_cases hp : p = q
    · rw [if_pos ⟨hp, by rw [hl]; rfl⟩, hp, hl]
      rfl
    · rw [if_neg (fun hc => hp hc.1)]

lemma unpinPage_isSome (s : PageStore) (q : Nat) (b : Bool) (p : Nat) :
    (lookupPage ((unpinPage s q b)).pages p).isSome =
      (lookupPage s.pages p).isSome := by
  rcases hl : lookupPage s.pages q with _ | ⟨pin, d, n⟩
  · simp only [unpinPage, hl]
  · by_cases hz : pin = 0
    · simp [unpinPage, hl, hz]
    · simp only [unpinPage, hl, if_neg hz]
      rw [lookupPage_updatePage s.pages q _ p]
      by_cases hp : p = q
      · rw [if_pos ⟨hp, by rw [hl]; rfl⟩, hp, hl]
        rfl
      · rw [if_neg (fun hc => hp hc.1)]

lemma newPage_fst (s : PageStore) : (newPage s).1 = s.nextPid := rfl

lemma newPage_nextPid (s : PageStore) : (newPage s).2.nextPid = s.nextPid + 1 := rfl

lemma newPage_getNode (s : PageStore) (hok : StoreOK s) (p : Nat) :
    getNode (newPage s).2 p = if p = s.nextPid then zeroNode else getNode s p := by
  have habs : lookupPage s.pages s.nextPid = none := by
    rcases hl : lookupPage s.pages s.nextPid with _ | v
    · rfl
    · exact absurd (hok s.nextPid (by rw [hl]; rfl)) (lt_irrefl _)
  unfold getNode
  show (match lookupPage (s.pages ++ [(s.nextPid, (1, false, zeroNode))]) p with
    | some (_, _, n) => n
    | none => zeroNode) = _
  rw [lookupPage_append_new s.pages s.nextPid _ p habs]
  by_cases hp : p = s.nextPid
  · rw [if_pos hp, if_pos hp]
  · rw [if_neg hp, if_neg hp]

lemma newPage_isSome (s : PageStore) (hok : StoreOK s) (p : Nat) :
    (lookupPage ((newPage s).2).pages p).isSome =
      (p = s.nextPid || (lookupPage s.pages p).isSome) := by
  have habs : lookupPage s.pages s.nextPid = none := by
    rcases hl : lookupPage s.pages s.nextPid with _ | v
    · rfl
    · exact absurd (hok s.nextPid (by rw [hl]; rfl)) (lt_irrefl _)
  show (lookupPage (s.pages ++ [(s.nextPid, (1, false, zeroNode))]) p).isSome = _
  rw [lookupPage_append_new s.pages s.nextPid _ p habs]
  by_cases hp : p = s.nextPid
  · rw [if_pos hp]
    simp [hp]
  · rw [if_neg hp]
    simp [hp]

lemma StoreOK_writeNode (s : PageStore) (pid : Nat) (n : BNode)
    (hok : StoreOK s) : StoreOK (writeNode s pid n) := by
  intro p hp
  rw [writeNode_isSome] at hp
  rw [writeNode_nextPid]
  exact hok p hp

lemma StoreOK_fetchPage (s : PageStore) (q : Nat)
    (hres : (lookupPage s.pages q).isSome) (hok : StoreOK s) :
    StoreOK (fetchPage s q).2 := by
  intro p hp
  rw [fetchPage_isSome s q hres] at hp
  rw [nextPid_fetchPage]
  exact hok p hp

lemma StoreOK_unpinPage (s : PageStore) (q : Nat) (b : Bool)
    (hok : StoreOK s) : StoreOK (unpinPage s q b) := by
  intro p hp
  rw [unpinPage_isSome] at hp
  rw [nextPid_unpinPage]
  exact hok p hp

lemma StoreOK_newPage (s : PageStore) (hok : StoreOK s) :
    StoreOK (newPage s).2 := by
  intro p hp
  rw [newPage_isSome s hok] at hp
  rw [newPage_nextPid]
  rcases Bool.or_eq_true_iff.mp hp with h | h
  · have : p = s.nextPid := by simpa using h
    omega
  · have := hok p h
    omega

lemma pids_zero (s : PageStore) (pid : Nat) : pids s 0 pid = [] := rfl

lemma pids_leaf {s : PageStore} {pid sid : Nat} {p : Option Nat}
    {nx : Option Nat} {mx : Nat} {es : List (Nat × Nat)} (h : Nat)
    (hn : getNode s pid = BNode.leaf sid p nx mx es) :
    pids s (h + 1) pid = [pid] := by
  conv_lhs => rw [pids]
  rw [hn]

lemma pids_internal {s : PageStore} {pid sid : Nat} {p : Option Nat}
    {mx : Nat} {es : List (Nat × Nat)} (h : Nat)
    (hn : getNode s pid = BNode.internal sid p mx es) :
    pids s (h + 1) pid = pid :: (es.map (fun kc => pids s h kc.2)).flatten := by
  conv_lhs => rw [pids]
  rw [hn]

lemma flatten_zero (s : PageStore) (pid : Nat) : flatten s 0 pid = [] := rfl

lemma flatten_leaf {s : PageStore} {pid sid : Nat} {p : Option Nat}
    {nx : Option Nat} {mx : Nat} {es : List (Nat × Nat)} (h : Nat)
    (hn : getNode s pid = BNode.leaf sid p nx mx es) :
    flatten s (h + 1) pid = es := by
  conv_lhs => rw [flatten]
  rw [hn]

lemma flatten_internal {s : PageStore} {pid sid : Nat} {p : Option Nat}
    {mx : Nat} {es : List (Nat × Nat)} (h : Nat)
    (hn : getNode s pid = BNode.internal sid p mx es) :
    flatten s (h + 1) pid = (es.map (fun kc => flatten s h kc.2)).flatten := by
  conv_lhs => rw [flatten]
  rw [hn]

lemma WFS_zero_iff (lm : Nat) (s : PageStore) (pid : Nat) (par : Option Nat)
    (lo : Nat) (hi : Option Nat) : WFS lm s 0 pid par lo hi ↔ False := Iff.rfl

lemma WFS_leaf_iff {s : PageStore} {pid sid : Nat} {p : Option Nat}
    {nx : Option Nat} {mx : Nat} {es : List (Nat × Nat)}
    (lm h : Nat) (par : Option Nat) (lo : Nat) (hi : Option Nat)
    (hn : getNode s pid = BNode.leaf sid p nx mx es) :
    WFS lm s (h + 1) pid par lo hi ↔
      (sid = pid ∧ p = par ∧ mx = lm ∧ es ≠ [] ∧ es.length < lm ∧
       List.Pairwise (fun a b : Nat × Nat => a.1 < b.1) es ∧
       (∀ e ∈ es, lo ≤ e.1 ∧ inHi e.1 hi)) := by
  conv_lhs => rw [WFS]
  rw [hn]

lemma WFS_internal_iff {s : PageStore} {pid sid : Nat} {p : Option Nat}
    {mx : Nat} {es : List (Nat × Nat)}
    (lm h : Nat) (par : Option Nat) (lo : Nat) (hi : Option Nat)
    (hn : getNode s pid = BNode.internal sid p mx es) :
    WFS lm s (h + 1) pid par lo hi ↔
      (sid = pid ∧ p = par ∧ es ≠ [] ∧
       List.Pairwise (· ≤ ·) ((es.drop 1).map Prod.fst) ∧
       (∀ k ∈ (es.drop 1).map Prod.fst, lo ≤ k ∧ inHi k hi) ∧
       (∀ i, i < es.length →
         WFS lm s h (es.getD i (0, 0)).2 (some pid) (childLo es lo i) (childHi es hi i))) := by
  conv_lhs => rw [WFS]
  rw [hn]

/-- Changing no page of a subtree changes none of its observations. -/
lemma pres_congr (h : Nat) : ∀ pid s s',
    (∀ p ∈ pids s h pid, getNode s' p = getNode s p) →
    pids s' h pid = pids s h pid ∧ flatten s' h pid = flatten s h pid ∧
    (∀ lm par lo hi, WFS lm s h pid par lo hi → WFS lm s' h pid par lo hi) := by
  induction h with
  | zero =>
    intro pid s s' hpres
    exact ⟨rfl, rfl, fun lm par lo hi hw => hw.elim⟩
  | succ h ih =>
    intro pid s s' hpres
    have hpid : getNode s' pid = getNode s pid := hpres pid (by
      show pid ∈ pids s (h + 1) pid
      unfold pids
      exact List.mem_cons_self _ _)
    rcases hn : getNode s pid with ⟨sid, par0, nx, mx, es⟩ | ⟨sid, par0, mx, es⟩
    · refine ⟨?_, ?_, ?_⟩
      · rw [pids_leaf h (hpid.trans hn), pids_leaf h hn]
      · rw [flatten_leaf h (hpid.trans hn), flatten_leaf h hn]
      · intro lm par lo hi hw
        rw [WFS_leaf_iff lm h par lo hi hn] at hw
        rw [WFS_leaf_iff lm h par lo hi (hpid.trans hn)]
        exact hw
    · have hch : ∀ kc ∈ es, pids s' h kc.2 = pids s h kc.2 ∧
          flatten s' h kc.2 = flatten s h kc.2 ∧
          (∀ lm par lo hi, WFS lm s h kc.2 par lo hi → WFS lm s' h kc.2 par lo hi) := by
        intro kc hkc
        apply ih
        intro p hp
        apply hpres
        show p ∈ pids s (h + 1) pid
        rw [pids_internal h hn]
        apply List.mem_cons_of_mem
        refine List.mem_flatten.mpr ⟨pids s h kc.2, ?_, hp⟩
        exact List.mem_map_of_mem _ hkc
      refine ⟨?_, ?_, ?_⟩
      · rw [pids_internal h (hpid.trans hn), pids_internal h hn]
        have hmap : List.map (fun kc => pids s' h kc.2) es =
            List.map (fun kc => pids s h kc.2) es :=
          List.map_congr_left (fun kc hkc => (hch kc hkc).1)
        rw [hmap]
      · rw [flatten_internal h (hpid.trans hn), flatten_internal h hn]
        have hmap : List.map (fun kc => flatten s' h kc.2) es =
            List.map (fun kc => flatten s h kc.2) es :=
          List.map_congr_left (fun kc hkc => (hch kc hkc).2.1)
        rw [hmap]
      · intro lm par lo hi hw
        rw [WFS_internal_iff lm h par lo hi hn] at hw
        rw [WFS_internal_iff lm h par lo hi (hpid.trans hn)]
        obtain ⟨h1, h2, h3, h4, h5, h6⟩ := hw
        refine ⟨h1, h2, h3, h4, h5, ?_⟩
        intro i hilt
        have hmem : es.getD i (0, 0) ∈ es := by
          rw [List.getD_eq_get _ _ hilt]
          exact List.get_mem _ _ _
        exact (hch _ hmem).2.2 lm _ _ _ (h6 i hilt)

lemma sorted_getD {es : List (Nat × Nat)}
    (hs : List.Pairwise (fun a b : Nat × Nat => a.1 < b.1) es)
    {i j : Nat} (hij : i < j) (hj : j < es.length) :
    (es.getD i (0, 0)).1 < (es.getD j (0, 0)).1 := by
  have hi : i < es.length := lt_trans hij hj
  rw [List.getD_eq_get _ _ hi, List.getD_eq_get _ _ hj]
  exact List.pairwise_iff_get.mp hs ⟨i, hi⟩ ⟨j, hj⟩ hij

lemma fresh_getD_ne {es : List (Nat × Nat)} {key : Nat}
    (hfresh : key ∉ es.map Prod.fst) {m : Nat} (hm : m < es.length) :
    (es.getD m (0, 0)).1 ≠ key := by
  intro hc
  apply hfresh
  rw [← hc]
  apply List.mem_map_of_mem
  rw [List.getD_eq_get _ _ hm]
  exact List.get_mem _ _ _

/-- What the child-selection scan computes: the first separator index
greater than the key (all separators before it are at most the key). -/
lemma childScanGo_spec (es : List (Nat × Nat)) (key : Nat) :
    ∀ gas i, es.length - i ≤ gas → i ≤ es.length →
    i ≤ childScanGo es key i gas ∧ childScanGo es key i gas ≤ es.length ∧
    (∀ j, i ≤ j → j < childScanGo es key i gas → (es.getD j (0, 0)).1 ≤ key) ∧
    (childScanGo es key i gas < es.length →
      key < (es.getD (childScanGo es key i gas) (0, 0)).1) := by
  intro gas
  induction gas with
  | zero =>
    intro i hgas hile
    have : childScanGo es key i 0 = i := rfl
    rw [this]
    refine ⟨le_refl i, hile, fun j hj1 hj2 => absurd (lt_of_le_of_lt hj1 hj2) (lt_irrefl _), ?_⟩
    intro hlt
    omega
  | succ gas ih =>
    intro i hgas hile
    rw [show childScanGo es key i (gas + 1) =
        (if i < es.length then
          if (es.getD i (0, 0)).1 ≤ key then childScanGo es key (i + 1) gas else i
        else i) from rfl]
    by_cases hi : i < es.length
    · rw [if_pos hi]
      by_cases hk : (es.getD i (0, 0)).1 ≤ key
      · rw [if_pos hk]
        obtain ⟨r1, r2, r3, r4⟩ := ih (i + 1) (by omega) (by omega)
        refine ⟨by omega, r2, ?_, r4⟩
        intro j hj1 hj2
        rcases Nat.eq_or_lt_of_le hj1 with rfl | hj1'
        · exact hk
        · exact r3 j hj1' hj2
      · rw [if_neg hk]
        exact ⟨le_refl i, le_of_lt hi,
          fun j hj1 hj2 => absurd (lt_of_le_of_lt hj1 hj2) (lt_irrefl _),
          fun _ => lt_of_not_le hk⟩
    · rw [if_neg hi]
      refine ⟨le_refl i, hile,
        fun j hj1 hj2 => absurd (lt_of_le_of_lt hj1 hj2) (lt_irrefl _), ?_⟩
      intro hlt
      omega

lemma childScan_spec (es : List (Nat × Nat)) (key : Nat) (hne : es ≠ []) :
    1 ≤ childScan es key 1 ∧ childScan es key 1 ≤ es.length ∧
    (∀ j, 1 ≤ j → j < childScan es key 1 → (es.getD j (0, 0)).1 ≤ key) ∧
    (childScan es key 1 < es.length → key < (es.getD (childScan es key 1) (0, 0)).1) := by
  have hlen : 1 ≤ es.length := by
    cases es with
    | nil => exact absurd rfl hne
    | cons a l => simp
  exact childScanGo_spec es key (es.length - 1) 1 (le_refl _) hlen

/-- The binary search of `FindKeyIndex` on a sorted leaf with a fresh
key: it returns the unique insertion position. -/
lemma fkiGo_spec (es : List (Nat × Nat)) (key : Nat)
    (hs : List.Pairwise (fun a b : Nat × Nat => a.1 < b.1) es)
    (hfresh : key ∉ es.map Prod.fst) :
    ∀ gas (left right : Int), 0 ≤ left → left ≤ (es.length : Int) →
    right < (es.length : Int) →
    (right + 1 - left).toNat ≤ gas →
    (∀ j : Nat, j < es.length → (j : Int) < left → (es.getD j (0, 0)).1 < key) →
    (∀ j : Nat, j < es.length → right < (j : Int) → key < (es.getD j (0, 0)).1) →
    ∃ i : Nat, fkiGo es key gas left right = some (i : Int) ∧ i ≤ es.length ∧
      (∀ j, j < i → (es.getD j (0, 0)).1 < key) ∧
      (∀ j, i ≤ j → j < es.length → key < (es.getD j (0, 0)).1) := by
  intro gas
  induction gas with
  | zero =>
    intro left right h0 hllen hrlen hgas hleft hright
    refine ⟨left.toNat, ?_, by omega, ?_, ?_⟩
    · show some left = some ((left.toNat : Nat) : Int)
      congr 1
      omega
    · intro j hj
      exact hleft j (by omega) (by omega)
    · intro j hj1 hj2
      exact hright j hj2 (by omega)
  | succ gas ih =>
    intro left right h0 hllen hrlen hgas hleft hright
    by_cases hlr : left ≤ right
    · have hmid0 : 0 ≤ left + (right - left) / 2 := by omega
      have hmidr : left + (right - left) / 2 ≤ right := by omega
      have hmidlen : (left + (right - left) / 2).toNat < es.length := by omega
      have hmidkey : (es.getD (left + (right - left) / 2).toNat (0, 0)).1 ≠ key :=
        fresh_getD_ne hfresh hmidlen
      show (∃ i : Nat, (if left ≤ right then _ else some left) = some (i : Int) ∧ _)
      rw [if_pos hlr]
      by_cases hlt : (es.getD (left + (right - left) / 2).toNat (0, 0)).1 < key
      · rw [if_neg hmidkey, if_pos hlt]
        apply ih (left + (right - left) / 2 + 1) right (by omega) (by omega) hrlen (by omega)
        · intro j hj hjlt
          rcases Nat.lt_or_ge j (left + (right - left) / 2).toNat with hc | hc
          · exact lt_trans (sorted_getD hs hc hmidlen) hlt
          · have : j = (left + (right - left) / 2).toNat := by omega
            rw [this]
            exact hlt
        · exact hright
      · have hgt : key < (es.getD (left + (right - left) / 2).toNat (0, 0)).1 := by omega
        rw [if_neg hmidkey, if_neg (by omega)]
        apply ih left (left + (right - left) / 2 - 1) h0 hllen (by omega) (by omega) hleft
        intro j hj hjgt
        rcases Nat.lt_or_ge (left + (right - left) / 2).toNat j with hc | hc
        · exact lt_trans hgt (sorted_getD hs hc hj)
        · have : j = (left + (right - left) / 2).toNat := by omega
          rw [this]
          exact hgt
    · refine ⟨left.toNat, ?_, by omega, ?_, ?_⟩
      · show (if left ≤ right then _ else some left) = _
        rw [if_neg hlr]
        congr 1
        omega
      · intro j hj
        exact hleft j (by omega) (by omega)
      · intro j hj1 hj2
        exact hright j hj2 (by omega)

lemma findKeyIndex_spec (es : List (Nat × Nat)) (key : Nat)
    (hs : List.Pairwise (fun a b : Nat × Nat => a.1 < b.1) es)
    (hfresh : key ∉ es.map Prod.fst) :
    ∃ i : Nat, findKeyIndex es key = some (i : Int) ∧ i ≤ es.length ∧
      (∀ j, j < i → (es.getD j (0, 0)).1 < key) ∧
      (∀ j, i ≤ j → j < es.length → key < (es.getD j (0, 0)).1) := by
  unfold findKeyIndex
  exact fkiGo_spec es key hs hfresh (es.length + 1) 0 ((es.length : Int) - 1)
    (le_refl 0) (by omega) (by omega) (by omega)
    (fun j _ hj => by omega) (fun j hj hgt => by omega)

/-- All-store content equality transfers every tree observation. -/
lemma getNode_all_congr {s s' : PageStore}
    (hall : ∀ p, getNode s' p = getNode s p) (h : Nat) (pid : Nat) :
    pids s' h pid = pids s h pid ∧ flatten s' h pid = flatten s h pid ∧
    (∀ lm par lo hi, WFS lm s h pid par lo hi → WFS lm s' h pid par lo hi) :=
  pres_congr h pid s s' (fun p _ => hall p)

lemma CtxOK_all_congr {s s' : PageStore}
    (hall : ∀ p, getNode s' p = getNode s p) (lm : Nat) :
    ∀ ctx h c lo hi, CtxOK lm s ctx h c lo hi → CtxOK lm s' ctx h c lo hi := by
  intro ctx
  induction ctx with
  | nil =>
    intro h c lo hi hc
    exact hc
  | cons f rest ih =>
    intro h c lo hi hc
    obtain ⟨⟨mx, hmx⟩, h1, h2, h3, h4, h5, h6, h7⟩ := hc
    refine ⟨⟨mx, (hall f.pid).trans hmx⟩, h1, h2, h3, h4, h5, ?_, ih _ _ _ _ h7⟩
    intro i hi1 hi2
    exact (getNode_all_congr hall h _).2.2 lm _ _ _ (h6 i hi1 hi2)

lemma ctxPids_all_congr {s s' : PageStore}
    (hall : ∀ p, getNode s' p = getNode s p) :
    ∀ ctx h c, ctxPids s' ctx h c = ctxPids s ctx h c := by
  intro ctx
  induction ctx with
  | nil => intro h c; rfl
  | cons f rest ih =>
    intro h c
    show f.pid :: _ ++ _ = f.pid :: _ ++ _
    rw [ih (h + 1) f.pid]
    have hL : f.esL.map (fun kc => pids s' h kc.2) =
        f.esL.map (fun kc => pids s h kc.2) :=
      List.map_congr_left (fun kc _ => (getNode_all_congr hall h kc.2).1)
    have hR : f.esR.map (fun kc => pids s' h kc.2) =
        f.esR.map (fun kc => pids s h kc.2) :=
      List.map_congr_left (fun kc _ => (getNode_all_congr hall h kc.2).1)
    rw [hL, hR]

lemma ctxFlatten_all_congr {s s' : PageStore}
    (hall : ∀ p, getNode s' p = getNode s p) :
    ∀ ctx h c x, ctxFlatten s' ctx h c x = ctxFlatten s ctx h c x := by
  intro ctx
  induction ctx with
  | nil => intro h c x; rfl
  | cons f rest ih =>
    intro h c x
    show ctxFlatten s' rest (h + 1) f.pid _ = ctxFlatten s rest (h + 1) f.pid _
    rw [ih]
    have hL : f.esL.map (fun kc => flatten s' h kc.2) =
        f.esL.map (fun kc => flatten s h kc.2) :=
      List.map_congr_left (fun kc _ => (getNode_all_congr hall h kc.2).2.1)
    have hR : f.esR.map (fun kc => flatten s' h kc.2) =
        f.esR.map (fun kc => flatten s h kc.2) :=
      List.map_congr_left (fun kc _ => (getNode_all_congr hall h kc.2).2.1)
    rw [hL, hR]

/-- A well-formed subtree is well-formed at any larger fuel, with the
same contents and page ids. -/
lemma WFS_fuel_mono (lm : Nat) : ∀ h s pid par lo hi,
    WFS lm s h pid par lo hi →
    WFS lm s (h + 1) pid par lo hi ∧
    flatten s (h + 1) pid = flatten s h pid ∧
    pids s (h + 1) pid = pids s h pid := by
  intro h
  induction h with
  | zero =>
    intro s pid par lo hi hw
    exact hw.elim
  | succ h ih =>
    intro s pid par lo hi hw
    rcases hn : getNode s pid with ⟨sid, par0, nx, mx, es⟩ | ⟨sid, par0, mx, es⟩
    · rw [WFS_leaf_iff lm h par lo hi hn] at hw
      rw [WFS_leaf_iff lm (h + 1) par lo hi hn]
      exact ⟨hw, by rw [flatten_leaf (h + 1) hn, flatten_leaf h hn],
        by rw [pids_leaf (h + 1) hn, pids_leaf h hn]⟩
    · rw [WFS_internal_iff lm h par lo hi hn] at hw
      rw [WFS_internal_iff lm (h + 1) par lo hi hn]
      obtain ⟨h1, h2, h3, h4, h5, h6⟩ := hw
      have hch : ∀ kc ∈ es, flatten s (h + 1) kc.2 = flatten s h kc.2 ∧
          pids s (h + 1) kc.2 = pids s h kc.2 := by
        intro kc hkc
        obtain ⟨i, hig⟩ := List.mem_iff_get.mp hkc
        have h6i := h6 i.1 i.2
        have h7 : es.getD i.1 (0, 0) = kc := by
          rw [List.getD_eq_get _ _ i.2]
          exact hig
        rw [h7] at h6i
        exact ⟨(ih s kc.2 _ _ _ h6i).2.1, (ih s kc.2 _ _ _ h6i).2.2⟩
      refine ⟨⟨h1, h2, h3, h4, h5, ?_⟩, ?_, ?_⟩
      · intro i hilt
        exact (ih s _ _ _ _ (h6 i hilt)).1
      · rw [flatten_internal (h + 1) hn, flatten_internal h hn]
        have : es.map (fun kc => flatten s (h + 1) kc.2) =
            es.map (fun kc => flatten s h kc.2) :=
          List.map_congr_left (fun kc hkc => (hch kc hkc).1)
        rw [this]
      · rw [pids_internal (h + 1) hn, pids_internal h hn]
        have : es.map (fun kc => pids s (h + 1) kc.2) =
            es.map (fun kc => pids s h kc.2) :=
          List.map_congr_left (fun kc hkc => (hch kc hkc).2)
        rw [this]

lemma WFS_fuel_le (lm : Nat) {h h' : Nat} (hle : h ≤ h') {s : PageStore}
    {pid : Nat} {par : Option Nat} {lo : Nat} {hi : Option Nat}
    (hw : WFS lm s h pid par lo hi) :
    WFS lm s h' pid par lo hi ∧ flatten s h' pid = flatten s h pid ∧
    pids s h' pid = pids s h pid := by
  induction h' with
  | zero =>
    have : h = 0 := by omega
    subst this
    exact ⟨hw, rfl, rfl⟩
  | succ h' ih =>
    rcases Nat.eq_or_lt_of_le hle with rfl | hlt
    · exact ⟨hw, rfl, rfl⟩
    · obtain ⟨w1, w2, w3⟩ := ih (by omega)
      obtain ⟨m1, m2, m3⟩ := WFS_fuel_mono lm h' s pid par lo hi w1
      exact ⟨m1, m2.trans w2, m3.trans w3⟩

lemma plugged_length (f : Frame) (c : Nat) :
    (f.plugged c).length = f.esL.length + f.esR.length + 1 := by
  unfold Frame.plugged
  simp
  omega

lemma plugged_getD_hole (f : Frame) (c : Nat) (d : Nat × Nat) :
    (f.plugged c).getD f.esL.length d = (f.holeKey, c) := by
  unfold Frame.plugged
  have := EHT.getD_append_ge f.esL ((f.holeKey, c) :: f.esR) 0 d
  simpa using this

/-- The root page of a context. -/
def rootOf : List Frame → Nat → Nat
  | [], c => c
  | f :: rest, _ => rootOf rest f.pid

/-- Plugging a well-formed subtree back into its ancestor context gives
a well-formed root whose contents are the context's flattening and
whose page ids are the context's plus the subtree's. -/
lemma reassemble (lm : Nat) : ∀ ctx h c lo hi s,
    CtxOK lm s ctx h c lo hi →
    WFS lm s h c (ctxParent ctx) lo hi →
    WFS lm s (h + ctx.length) (rootOf ctx c) none 0 none ∧
    flatten s (h + ctx.length) (rootOf ctx c) = ctxFlatten s ctx h c (flatten s h c) ∧
    (pids s (h + ctx.length) (rootOf ctx c)).Perm
      (ctxPids s ctx h c ++ pids s h c) := by
  intro ctx
  induction ctx with
  | nil =>
    intro h c lo hi s hctx hw
    obtain ⟨hlo, hhi⟩ := hctx
    subst hlo
    subst hhi
    exact ⟨hw, rfl, List.Perm.refl _⟩
  | cons f rest ih =>
    intro h c lo hi s hctx hw
    obtain ⟨⟨mx, hmx⟩, h1, h2, h3, h4, h5, h6, h7⟩ := hctx
    have hpw : WFS lm s (h + 1) f.pid (ctxParent rest) f.lo f.hi := by
      rw [WFS_internal_iff lm h (ctxParent rest) f.lo f.hi hmx]
      refine ⟨rfl, rfl, h1, h2, h3, ?_⟩
      intro i hilt
      by_cases hih : i = f.esL.length
      · subst hih
        rw [plugged_getD_hole]
        rw [← h4, ← h5]
        exact hw
      · exact h6 i hilt hih
    have hflat : flatten s (h + 1) f.pid =
        (f.esL.map (fun kc => flatten s h kc.2)).flatten ++ flatten s h c ++
        (f.esR.map (fun kc => flatten s h kc.2)).flatten := by
      rw [flatten_internal h hmx]
      unfold Frame.plugged
      simp
    have hpids : pids s (h + 1) f.pid =
        f.pid :: ((f.esL.map (fun kc => pids s h kc.2)).flatten ++ pids s h c ++
        (f.esR.map (fun kc => pids s h kc.2)).flatten) := by
      rw [pids_internal h hmx]
      unfold Frame.plugged
      simp
    obtain ⟨hw', hflat', hperm'⟩ := ih (h + 1) f.pid f.lo f.hi s h7 hpw
    have hlen : h + (f :: rest).length = (h + 1) + rest.length := by
      simp
      omega
    rw [hlen]
    simp only [rootOf]
    refine ⟨hw', ?_, ?_⟩
    · rw [hflat']
      show ctxFlatten s rest (h + 1) f.pid (flatten s (h + 1) f.pid) =
        ctxFlatten s rest (h + 1) f.pid _
      rw [hflat]
    · refine hperm'.trans ?_
      show (ctxPids s rest (h + 1) f.pid ++ pids s (h + 1) f.pid).Perm
        ((f.pid :: ((f.esL.map (fun kc => pids s h kc.2)).flatten ++
          (f.esR.map (fun kc => pids s h kc.2)).flatten) ++
          ctxPids s rest (h + 1) f.pid) ++ pids s h c)
      rw [hpids]
      refine List.perm_iff_count.mpr ?_
      intro a
      simp [List.count_append, List.count_cons]
      omega

lemma list_split_getD {α : Type} (es : List α) (j : Nat) (d : α)
    (hj : j < es.length) :
    es = es.take j ++ es.getD j d :: es.drop (j + 1) := by
  rw [List.getD_eq_get _ _ hj]
  rw [← List.drop_eq_get_cons]
  exact (List.take_append_drop j es).symm

lemma getD_drop' {α : Type} : ∀ (n : Nat) (es : List α) (m : Nat) (d : α),
    (es.drop n).getD m d = es.getD (n + m) d := by
  intro n
  induction n with
  | zero =>
    intro es m d
    rw [Nat.zero_add]
    rfl
  | succ n ih =>
    intro es m d
    cases es with
    | nil => simp
    | cons a l =>
      show (l.drop n).getD m d = (a :: l).getD (n + 1 + m) d
      rw [ih l m d]
      have h2 : n + 1 + m = (n + m) + 1 := by omega
      rw [h2]
      rfl

lemma getD_mem' {α : Type} (l : List α) (i : Nat) (d : α) (h : i < l.length) :
    l.getD i d ∈ l := by
  rw [List.getD_eq_get _ _ h]
  exact List.get_mem _ _ _

lemma getD_map_fst (l : List (Nat × Nat)) (n : Nat) :
    (l.map Prod.fst).getD n 0 = (l.getD n (0, 0)).1 := by
  induction l generalizing n with
  | nil => rfl
  | cons a rest ih =>
    cases n with
    | zero => rfl
    | succ n => exact ih n

lemma pairwise_le_getD (l : List Nat) (hp : List.Pairwise (· ≤ ·) l)
    {a b : Nat} (hab : a ≤ b) (hb : b < l.length) :
    l.getD a 0 ≤ l.getD b 0 := by
  rcases Nat.eq_or_lt_of_le hab with rfl | hlt
  · exact le_refl _
  · rw [List.getD_eq_get _ _ (lt_trans hlt hb), List.getD_eq_get _ _ hb]
    exact List.pairwise_iff_get.mp hp _ _ (Fin.mk_lt_mk.mpr hlt)

lemma sep_getD (es : List (Nat × Nat)) {i : Nat} (h1 : 1 ≤ i) :
    ((es.drop 1).map Prod.fst).getD (i - 1) 0 = (es.getD i (0, 0)).1 := by
  rw [getD_map_fst, getD_drop']
  have h2 : 1 + (i - 1) = i := by omega
  rw [h2]

lemma sep_mem (es : List (Nat × Nat)) {i : Nat} (h1 : 1 ≤ i)
    (h2 : i < es.length) :
    (es.getD i (0, 0)).1 ∈ (es.drop 1).map Prod.fst := by
  rw [← sep_getD es h1]
  apply getD_mem'
  rw [List.length_map, List.length_drop]
  omega

lemma seps_mono {es : List (Nat × Nat)}
    (h4 : List.Pairwise (· ≤ ·) ((es.drop 1).map Prod.fst))
    {i1 i2 : Nat} (hge : 1 ≤ i1) (hle : i1 ≤ i2) (h2 : i2 < es.length) :
    (es.getD i1 (0, 0)).1 ≤ (es.getD i2 (0, 0)).1 := by
  rw [← sep_getD es hge, ← sep_getD es (le_trans hge hle)]
  apply pairwise_le_getD _ h4 (by omega)
  rw [List.length_map, List.length_drop]
  omega

/-- Every entry of a well-formed subtree lies inside its key range. -/
lemma flatten_bounds (lm : Nat) : ∀ h s pid par lo hi,
    WFS lm s h pid par lo hi →
    ∀ e ∈ flatten s h pid, lo ≤ e.1 ∧ inHi e.1 hi := by
  intro h
  induction h with
  | zero =>
    intro s pid par lo hi hw
    exact hw.elim
  | succ h ih =>
    intro s pid par lo hi hw e he
    rcases hn : getNode s pid with ⟨sid, p0, nx, mx, es⟩ | ⟨sid, p0, mx, es⟩
    · rw [WFS_leaf_iff lm h par lo hi hn] at hw
      rw [flatten_leaf h hn] at he
      exact hw.2.2.2.2.2.2 e he
    · rw [WFS_internal_iff lm h par lo hi hn] at hw
      obtain ⟨h1, h2, h3, h4, h5, h6⟩ := hw
      rw [flatten_internal h hn] at he
      obtain ⟨l, hl, hel⟩ := List.mem_flatten.mp he
      obtain ⟨kc, hkc, hfkc⟩ := List.mem_map.mp hl
      obtain ⟨i, hig⟩ := List.mem_iff_get.mp hkc
      have hgetD : es.getD i.1 (0, 0) = kc := by
        rw [List.getD_eq_get _ _ i.2]
        exact hig
      have hwc := h6 i.1 i.2
      rw [hgetD] at hwc
      rw [← hfkc] at hel
      have hce := ih s kc.2 (some pid) _ _ hwc e hel
      constructor
      · refine le_trans ?_ hce.1
        unfold childLo
        by_cases h0 : i.1 = 0
        · rw [if_pos h0]
        · rw [if_neg h0]
          rw [hgetD]
          exact (h5 _ (hgetD ▸ sep_mem es (by omega) i.2)).1
      · have hhic : inHi e.1 (childHi es hi i.1) := hce.2
        unfold childHi at hhic
        by_cases hlast : i.1 + 1 < es.length
        · rw [if_pos hlast] at hhic
          have hsep := h5 _ (sep_mem es (by omega) hlast)
          rcases hi with _ | b
          · exact trivial
          · show e.1 < b
            exact lt_trans hhic hsep.2
        · rw [if_neg hlast] at hhic
          exact hhic

lemma mem_flatten_map_take {α β : Type} (f : α → List β) (es : List α)
    (j : Nat) (d : α) (b : β)
    (hb : b ∈ ((es.take j).map f).flatten) :
    ∃ i, i < j ∧ i < es.length ∧ b ∈ f (es.getD i d) := by
  obtain ⟨l, hl, hbl⟩ := List.mem_flatten.mp hb
  obtain ⟨a, ha, hfa⟩ := List.mem_map.mp hl
  obtain ⟨i, hig⟩ := List.mem_iff_get.mp ha
  have hij : i.1 < j := by
    have h1 := i.2
    have h2 := List.length_take j es
    omega
  have hilen : i.1 < es.length := by
    have h1 := i.2
    have h2 := List.length_take j es
    omega
  refine ⟨i.1, hij, hilen, ?_⟩
  have hgetD : es.getD i.1 d = a :=
    (List.getD_eq_get es d hilen).trans ((List.get_take' es).symm.trans hig)
  rw [hgetD, hfa]
  exact hbl

lemma mem_flatten_map_drop {α β : Type} (f : α → List β) (es : List α)
    (j : Nat) (d : α) (b : β)
    (hb : b ∈ ((es.drop j).map f).flatten) :
    ∃ i, j ≤ i ∧ i < es.length ∧ b ∈ f (es.getD i d) := by
  obtain ⟨l, hl, hbl⟩ := List.mem_flatten.mp hb
  obtain ⟨a, ha, hfa⟩ := List.mem_map.mp hl
  obtain ⟨i, hig⟩ := List.mem_iff_get.mp ha
  have hilen : j + i.1 < es.length := by
    have h1 := i.2
    have h2 := List.length_drop j es
    omega
  refine ⟨j + i.1, by omega, hilen, ?_⟩
  have hgetD : es.getD (j + i.1) d = a :=
    (List.getD_eq_get es d hilen).trans ((List.get_drop' es).symm.trans hig)
  rw [hgetD, hfa]
  exact hbl

lemma map_flatten_split {α β : Type} (f : α → List β) (es : List α)
    (j : Nat) (d : α) (mid : List β) (hj : j < es.length)
    (hmid : f (es.getD j d) = mid) :
    (es.map f).flatten =
      ((es.take j).map f).flatten ++ mid ++ ((es.drop (j + 1)).map f).flatten := by
  conv_lhs => rw [list_split_getD es j d hj]
  rw [List.map_append, List.map_cons, List.flatten_append, List.flatten_cons, hmid]
  simp [List.append_assoc]

/-- The descent of `FindLeafPage` under the search-tree invariant: it
reaches a pinned leaf whose key range contains the key, extending the
ancestor context frame by frame, changing no page content, and
splitting the subtree's contents and page ids around the leaf. -/
lemma descend (lm key : Nat) : ∀ h fuel pid s ctx lo hi,
    WFS lm s h pid (ctxParent ctx) lo hi →
    CtxOK lm s ctx h pid lo hi →
    lo ≤ key → inHi key hi →
    h ≤ fuel →
    (∀ p ∈ pids s h pid, (lookupPage s.pages p).isSome) →
    ∃ ext L hL s' lo2 hi2,
      flpGo key fuel pid s = some (L, s') ∧
      (∀ p, getNode s' p = getNode s p) ∧
      (∀ p, (lookupPage s'.pages p).isSome = (lookupPage s.pages p).isSome) ∧
      s'.nextPid = s.nextPid ∧ s'.deleteCalls = s.deleteCalls ∧
      1 ≤ hL ∧ hL ≤ h ∧
      WFS lm s hL L (ctxParent (ext ++ ctx)) lo2 hi2 ∧
      CtxOK lm s (ext ++ ctx) hL L lo2 hi2 ∧
      lo2 ≤ key ∧ inHi key hi2 ∧
      (getNode s L).isLeaf = true ∧
      (∃ E, ctxPids s (ext ++ ctx) hL L = E ++ ctxPids s ctx h pid ∧
        (pids s h pid).Perm (E ++ pids s hL L)) ∧
      (∃ A B, (∀ x, ctxFlatten s (ext ++ ctx) hL L x =
          ctxFlatten s ctx h pid (A ++ x ++ B)) ∧
        flatten s h pid = A ++ flatten s hL L ++ B ∧
        (∀ e ∈ A, e.1 < key) ∧ (∀ e ∈ B, key < e.1)) := by
  intro h
  induction h with
  | zero =>
    intro fuel pid s ctx lo hi hw
    exact hw.elim
  | succ h ih =>
    intro fuel pid s ctx lo hi hw hctx hlo hhi hfuel hres
    obtain ⟨f0, rfl⟩ : ∃ f0, fuel = f0 + 1 := ⟨fuel - 1, by omega⟩
    rcases hn : getNode s pid with ⟨sid, par0, nx, mx, es⟩ | ⟨sid, par0, mx, es⟩
    · refine ⟨[], pid, h + 1, s, lo, hi, ?_, fun p => rfl, fun p => rfl, rfl, rfl,
        by omega, le_refl _, hw, hctx, hlo, hhi, by rw [hn]; rfl,
        ⟨[], by simp, by simp⟩,
        ⟨[], [], fun x => by simp, by simp,
          fun e he => absurd he (List.not_mem_nil e),
          fun e he => absurd he (List.not_mem_nil e)⟩⟩
      rw [flpGo_succ]
      rw [hn]
      rfl
    · rw [WFS_internal_iff lm h (ctxParent ctx) lo hi hn] at hw
      obtain ⟨h1, h2, h3, h4, h5, h6⟩ := hw
      rw [h1, h2] at hn
      obtain ⟨c1, c2, c3, c4⟩ := childScan_spec es key h3
      have hj : childScan es key 1 - 1 < es.length := by omega
      have hjle : childScan es key 1 - 1 ≤ es.length := by omega
      have hchildlo : childLo es lo (childScan es key 1 - 1) ≤ key := by
        unfold childLo
        by_cases h0 : childScan es key 1 - 1 = 0
        · rw [if_pos h0]
          exact hlo
        · rw [if_neg h0]
          exact c3 _ (by omega) (by omega)
      have hchildhi : inHi key (childHi es hi (childScan es key 1 - 1)) := by
        unfold childHi
        by_cases hlast : childScan es key 1 - 1 + 1 < es.length
        · rw [if_pos hlast]
          show key < (es.getD (childScan es key 1 - 1 + 1) (0, 0)).1
          have : childScan es key 1 - 1 + 1 = childScan es key 1 := by omega
          rw [this]
          exact c4 (by omega)
        · rw [if_neg hlast]
          exact hhi
      have hwc := h6 (childScan es key 1 - 1) hj
      set j := childScan es key 1 - 1 with hjdef
      set c := (es.getD j (0, 0)).2 with hcdef
      have hsplit : es = es.take j ++ es.getD j (0, 0) :: es.drop (j + 1) :=
        list_split_getD es j (0, 0) hj
      set f := Frame.mk pid (es.take j) (es.getD j (0, 0)).1 (es.drop (j + 1)) lo hi
        with hfdef
      have hplug : f.plugged c = es := by
        rw [hfdef]
        unfold Frame.plugged
        simp only
        conv_rhs => rw [hsplit]
      have hesL : f.esL.length = j := by
        rw [hfdef]
        simp only
        rw [List.length_take]
        omega
      have hctx2 : CtxOK lm s (f :: ctx) h c (childLo es lo j) (childHi es hi j) := by
        refine ⟨⟨mx, by rw [hplug]; exact hn⟩, by rw [hplug]; exact h3,
          by rw [hplug]; exact h4, by rw [hplug]; exact h5,
          by rw [hplug, hesL], by rw [hplug, hesL], ?_, hctx⟩
        intro i hilt hine
        rw [hplug] at hilt ⊢
        rw [hesL] at hine
        exact h6 i hilt
      have hchild_mem : ∀ p ∈ pids s h c, p ∈ pids s (h + 1) pid := by
        intro p hp
        rw [pids_internal h hn]
        apply List.mem_cons_of_mem
        refine List.mem_flatten.mpr ⟨pids s h c, ?_, hp⟩
        apply List.mem_map_of_mem
        rw [List.getD_eq_get _ _ hj]
        exact List.get_mem _ _ _
      have hcres : (lookupPage s.pages c).isSome := by
        apply hres
        apply hchild_mem
        obtain ⟨hh, rfl⟩ : ∃ hh, h = hh + 1 := by
          cases h with
          | zero => exact hwc.elim
          | succ hh => exact ⟨hh, rfl⟩
        unfold pids
        exact List.mem_cons_self _ _
      set s3 := unpinPage (fetchPage s c).2 pid false with hs3
      have hall3 : ∀ p, getNode s3 p = getNode s p := by
        intro p
        rw [hs3, getNode_unpinPage, getNode_fetchPage]
      have hsome3 : ∀ p, (lookupPage s3.pages p).isSome = (lookupPage s.pages p).isSome := by
        intro p
        rw [hs3, unpinPage_isSome, fetchPage_isSome _ _ hcres]
      have hnext3 : s3.nextPid = s.nextPid := by
        rw [hs3, nextPid_unpinPage, nextPid_fetchPage]
      have hdel3 : s3.deleteCalls = s.deleteCalls := by
        rw [hs3, deleteCalls_unpinPage, deleteCalls_fetchPage]
      have hw3 : WFS lm s3 h c (ctxParent (f :: ctx)) (childLo es lo j) (childHi es hi j) := by
        refine (getNode_all_congr hall3 h c).2.2 lm _ _ _ ?_
        show WFS lm s h c (some pid) _ _
        exact hwc
      have hctx3 : CtxOK lm s3 (f :: ctx) h c (childLo es lo j) (childHi es hi j) :=
        CtxOK_all_congr hall3 lm _ _ _ _ _ hctx2
      have hres3 : ∀ p ∈ pids s3 h c, (lookupPage s3.pages p).isSome := by
        intro p hp
        rw [(getNode_all_congr hall3 h c).1] at hp
        rw [hsome3 p]
        exact hres p (hchild_mem p hp)
      obtain ⟨ext', L, hL, s', lo2, hi2, r1, r2, r3, r4, r5, r6, r7, r8, r9, r10,
        r11, r12, ⟨E', rE1, rE2⟩, ⟨A', B', rA1, rA2, rA3, rA4⟩⟩ :=
        ih f0 c s3 (f :: ctx) (childLo es lo j) (childHi es hi j)
          hw3 hctx3 hchildlo hchildhi (by omega) hres3
      have hallS : ∀ p, getNode s' p = getNode s p := fun p => (r2 p).trans (hall3 p)
      refine ⟨ext' ++ [f], L, hL, s', lo2, hi2, ?_, hallS,
        fun p => (r3 p).trans (hsome3 p), r4.trans hnext3, r5.trans hdel3,
        r6, by omega, ?_, ?_, r10, r11, ?_, ?_, ?_⟩
      · rw [flpGo_succ, hn]
        rw [show (BNode.internal pid (ctxParent ctx) mx es).isLeaf = false from rfl]
        show flpGo key f0 _ _ = _
        have hval : (BNode.internal pid (ctxParent ctx) mx es).valueAt
            (childScan (BNode.internal pid (ctxParent ctx) mx es).entries key 1 - 1) = c := by
          show ((BNode.internal pid (ctxParent ctx) mx es).entries.getD _ (0, 0)).2 = c
          rfl
        rw [hval]
        exact r1
      · have := (getNode_all_congr (fun p => (hall3 p).symm) hL L).2.2 lm
          (ctxParent (ext' ++ (f :: ctx))) lo2 hi2 r8
        rw [show (ext' ++ [f]) ++ ctx = ext' ++ (f :: ctx) by simp]
        exact this
      · rw [show (ext' ++ [f]) ++ ctx = ext' ++ (f :: ctx) by simp]
        exact CtxOK_all_congr (fun p => (hall3 p).symm) lm _ _ _ _ _ r9
      · rw [← hallS L]
        rw [← r2 L] at r12
        exact r12
      · -- page id decomposition
        have rE1' : ctxPids s (ext' ++ (f :: ctx)) hL L =
            E' ++ ctxPids s (f :: ctx) h c := by
          rw [← ctxPids_all_congr hall3, ← ctxPids_all_congr hall3]
          exact rE1
        have rE2' : (pids s h c).Perm (E' ++ pids s hL L) := by
          rw [← (getNode_all_congr hall3 h c).1, ← (getNode_all_congr hall3 hL L).1]
          exact rE2
        refine ⟨E' ++ (pid :: ((f.esL.map (fun kc => pids s h kc.2)).flatten ++
          (f.esR.map (fun kc => pids s h kc.2)).flatten)), ?_, ?_⟩
        · rw [show (ext' ++ [f]) ++ ctx = ext' ++ (f :: ctx) by simp]
          rw [rE1']
          show E' ++ ((f.pid :: ((f.esL.map (fun kc => pids s h kc.2)).flatten ++
            (f.esR.map (fun kc => pids s h kc.2)).flatten)) ++
            ctxPids s ctx (h + 1) f.pid) = _
          simp
        · have hpids_split : pids s (h + 1) pid =
              pid :: ((f.esL.map (fun kc => pids s h kc.2)).flatten ++
                pids s h c ++ (f.esR.map (fun kc => pids s h kc.2)).flatten) := by
            rw [pids_internal h hn,
              map_flatten_split (fun kc => pids s h kc.2) es j (0, 0) (pids s h c) hj
                (by show pids s h (es.getD j (0, 0)).2 = pids s h c
                    rw [hcdef])]
          rw [hpids_split]
          refine List.perm_iff_count.mpr (fun a => ?_)
          have hc2 := rE2'.count_eq a
          simp only [List.count_append, List.count_cons] at hc2 ⊢
          omega
      · -- contents decomposition
        have rA1' : ∀ x, ctxFlatten s (ext' ++ (f :: ctx)) hL L x =
            ctxFlatten s (f :: ctx) h c (A' ++ x ++ B') := by
          intro x
          rw [← ctxFlatten_all_congr hall3, ← ctxFlatten_all_congr hall3]
          exact rA1 x
        have rA2' : flatten s h c = A' ++ flatten s hL L ++ B' := by
          rw [← (getNode_all_congr hall3 h c).2.1]
          rw [rA2]
          rw [(getNode_all_congr hall3 hL L).2.1]
        refine ⟨(f.esL.map (fun kc => flatten s h kc.2)).flatten ++ A',
          B' ++ (f.esR.map (fun kc => flatten s h kc.2)).flatten, ?_, ?_, ?_, ?_⟩
        · intro x
          rw [show (ext' ++ [f]) ++ ctx = ext' ++ (f :: ctx) by simp]
          rw [rA1' x]
          show ctxFlatten s ctx (h + 1) f.pid _ = ctxFlatten s ctx h.succ pid _
          rw [hfdef]
          simp
        · have hflat_split : flatten s (h + 1) pid =
              (f.esL.map (fun kc => flatten s h kc.2)).flatten ++
                flatten s h c ++ (f.esR.map (fun kc => flatten s h kc.2)).flatten := by
            rw [flatten_internal h hn,
              map_flatten_split (fun kc => flatten s h kc.2) es j (0, 0) (flatten s h c) hj
                (by show flatten s h (es.getD j (0, 0)).2 = flatten s h c
                    rw [hcdef])]
          rw [hflat_split, rA2']
          simp
        · intro e he
          rcases List.mem_append.mp he with heL | heA
          · rw [hfdef] at heL
            obtain ⟨i, hij2, hilen2, hei⟩ :=
              mem_flatten_map_take (fun kc => flatten s h kc.2) es j (0, 0) e heL
            have hbnds := flatten_bounds lm h s (es.getD i (0, 0)).2 (some pid)
              (childLo es lo i) (childHi es hi i) (h6 i hilen2) e hei
            have hhi2 : childHi es hi i = some (es.getD (i + 1) (0, 0)).1 := by
              unfold childHi
              rw [if_pos (by omega)]
            rw [hhi2] at hbnds
            have hlt : e.1 < (es.getD (i + 1) (0, 0)).1 := hbnds.2
            exact lt_of_lt_of_le hlt (c3 (i + 1) (by omega) (by omega))
          · exact rA3 e heA
        · intro e he
          rcases List.mem_append.mp he with heB | heR
          · exact rA4 e heB
          · rw [hfdef] at heR
            obtain ⟨i, hij2, hilen2, hei⟩ :=
              mem_flatten_map_drop (fun kc => flatten s h kc.2) es (j + 1) (0, 0) e heR
            have hbnds := flatten_bounds lm h s (es.getD i (0, 0)).2 (some pid)
              (childLo es lo i) (childHi es hi i) (h6 i hilen2) e hei
            have hlo2 : childLo es lo i = (es.getD i (0, 0)).1 := by
              unfold childLo
              rw [if_neg (by omega)]
            rw [hlo2] at hbnds
            refine lt_of_lt_of_le (lt_of_lt_of_le (c4 (by omega)) ?_) hbnds.1
            exact seps_mono h4 (by omega) (by omega) hilen2


lemma specLookup_frame (A el B : List (Nat × Nat)) (key : Nat)
    (hA : ∀ e ∈ A, e.1 ≠ key) (hB : ∀ e ∈ B, e.1 ≠ key) :
    specLookup (A ++ el ++ B) key = specLookup el key := by
  unfold specLookup
  rw [List.append_assoc, List.find?_append, List.find?_append]
  have hAn : A.find? (fun e => e.1 = key) = none :=
    List.find?_eq_none.mpr (fun x hx => by
      intro hc
      exact hA x hx (of_decide_eq_true hc))
  have hBn : B.find? (fun e => e.1 = key) = none :=
    List.find?_eq_none.mpr (fun x hx => by
      intro hc
      exact hB x hx (of_decide_eq_true hc))
  rw [hAn, hBn]
  simp

lemma scanKey_none_spec {key : Nat} : ∀ {es : List (Nat × Nat)},
    scanKey es key = none → specLookup es key = none := by
  intro es
  induction es with
  | nil => intro _; rfl
  | cons e rest ih =>
    intro h
    unfold scanKey at h ih
    rw [List.findIdx?_cons] at h
    by_cases he : e.1 = key
    · rw [if_pos (by simpa using he)] at h
      exact absurd h (by simp)
    · rw [if_neg (by simpa using he), List.findIdx?_succ] at h
      have hrest : List.findIdx? (fun e : Nat × Nat => decide (e.1 = key)) rest 0 = none := by
        rcases hr : List.findIdx? (fun e : Nat × Nat => decide (e.1 = key)) rest 0 with _ | i
        · rfl
        · rw [hr] at h
          simp at h
      unfold specLookup
      rw [List.find?_cons,
        show decide (e.1 = key) = false from by simpa using he]
      show (List.find? (fun e : Nat × Nat => decide (e.1 = key)) rest).map Prod.snd = none
      exact ih hrest

lemma scanKey_some_spec {key : Nat} : ∀ {es : List (Nat × Nat)} {i : Nat},
    scanKey es key = some i → specLookup es key = some (es.getD i (0, 0)).2 := by
  intro es
  induction es with
  | nil =>
    intro i h
    exact absurd h (by simp [scanKey])
  | cons e rest ih =>
    intro i h
    unfold scanKey at h ih
    rw [List.findIdx?_cons] at h
    by_cases he : e.1 = key
    · rw [if_pos (by simpa using he)] at h
      obtain rfl : i = 0 := (Option.some.inj h).symm
      unfold specLookup
      rw [List.find?_cons,
        show decide (e.1 = key) = true from by simpa using he]
      rfl
    · rw [if_neg (by simpa using he), List.findIdx?_succ] at h
      rcases hr : List.findIdx? (fun e : Nat × Nat => decide (e.1 = key)) rest 0 with _ | i0
      · rw [hr] at h
        simp at h
      · rw [hr] at h
        simp only [Option.map_some'] at h
        have hi : i0 + 1 = i := Option.some.inj h
        subst hi
        unfold specLookup
        rw [List.find?_cons,
          show decide (e.1 = key) = false from by simpa using he]
        show (List.find? (fun e : Nat × Nat => decide (e.1 = key)) rest).map Prod.snd =
          some (rest.getD i0 (0, 0)).2
        exact ih hr

lemma getValue_found_eq (t : BPT) (s : PageStore) (key fuel L : Nat)
    (s1 : PageStore) (hemp : isEmpty t = false)
    (hflp : findLeafPage t s key fuel = some (L, s1)) :
    (getValue t s key fuel).map Prod.fst =
      some (match scanKey (getNode s1 L).entries key with
            | some i => some ((getNode s1 L).valueAt i)
            | none => none) := by
  unfold getValue
  rw [if_neg (by rw [hemp]; simp), hflp]
  show Option.map Prod.fst
      (match scanKey (getNode s1 L).entries key with
       | some i => some (some ((getNode s1 L).valueAt i), unpinPage s1 L false)
       | none => some (none, unpinPage s1 L false)) =
    some (match scanKey (getNode s1 L).entries key with
          | some i => some ((getNode s1 L).valueAt i)
          | none => none)
  rcases hsc : scanKey (getNode s1 L).entries key with _ | i <;> rfl

/-- `GetValue` under the invariant computes exactly the lookup in the
tree's flattened contents. -/
lemma getValue_spec (lm : Nat) (t : BPT) (s : PageStore) (key fuel h r : Nat)
    (hroot : t.rootPageId = some r)
    (hw : WFS lm s h r none 0 none)
    (hres : ∀ p ∈ pids s h r, (lookupPage s.pages p).isSome)
    (hfuel : h ≤ fuel) :
    (getValue t s key fuel).map Prod.fst =
      some (specLookup (flatten s h r) key) := by
  obtain ⟨hh, rfl⟩ : ∃ hh, h = hh + 1 := by
    cases h with
    | zero => exact hw.elim
    | succ hh => exact ⟨hh, rfl⟩
  have hrmem : r ∈ pids s (hh + 1) r := by
    unfold pids
    exact List.mem_cons_self _ _
  have hall2 : ∀ p, getNode (fetchPage s r).2 p = getNode s p :=
    getNode_fetchPage s r
  have hw2 : WFS lm (fetchPage s r).2 (hh + 1) r none 0 none :=
    (getNode_all_congr hall2 (hh + 1) r).2.2 lm none 0 none hw
  have hres2 : ∀ p ∈ pids (fetchPage s r).2 (hh + 1) r,
      (lookupPage ((fetchPage s r).2).pages p).isSome := by
    intro p hp
    rw [(getNode_all_congr hall2 (hh + 1) r).1] at hp
    rw [fetchPage_isSome s r (hres r hrmem)]
    exact hres p hp
  obtain ⟨ext, L, hL, s', lo2, hi2, d1, d2, d3, d4, d5, d6, d7, d8, d9, d10,
    d11, d12, ⟨E, dE1, dE2⟩, ⟨A, B, dA1, dA2, dA3, dA4⟩⟩ :=
    descend lm key (hh + 1) fuel r (fetchPage s r).2 [] 0 none hw2 ⟨rfl, rfl⟩
      (Nat.zero_le key) trivial hfuel hres2
  have hflp : findLeafPage t s key fuel = some (L, s') := by
    unfold findLeafPage
    rw [hroot]
    exact d1
  have hemp : isEmpty t = false := by
    simp [isEmpty, hroot]
  have hLs : getNode s' L = getNode s L := by
    rw [d2 L, hall2 L]
  obtain ⟨hl0, rfl⟩ : ∃ hl0, hL = hl0 + 1 := ⟨hL - 1, by omega⟩
  rcases hLn : getNode (fetchPage s r).2 L with ⟨sid, p0, nx, mx, el⟩ | ⟨sid, p0, mx, el⟩
  · have helem : flatten (fetchPage s r).2 (hl0 + 1) L = el := flatten_leaf hl0 hLn
    have hflatr : flatten s (hh + 1) r = A ++ el ++ B := by
      rw [← (getNode_all_congr hall2 (hh + 1) r).2.1]
      rw [dA2, helem]
    rw [hflatr]
    rw [specLookup_frame A el B key
      (fun e he => Nat.ne_of_lt (dA3 e he))
      (fun e he => Nat.ne_of_gt (dA4 e he))]
    have hent : (getNode s' L).entries = el := by
      rw [d2 L, hLn]
      rfl
    rw [getValue_found_eq t s key fuel L s' hemp hflp]
    rw [hent]
    rcases hscan : scanKey el key with _ | i
    · rw [scanKey_none_spec hscan]
    · rw [scanKey_some_spec hscan]
      show some (some ((getNode s' L).valueAt i)) = _
      have hval : (getNode s' L).valueAt i = (el.getD i (0, 0)).2 := by
        show ((getNode s' L).entries.getD i (0, 0)).2 = _
        rw [hent]
      rw [hval]
  · rw [hLn] at d12
    exact absurd d12 (by simp [BNode.isLeaf])

lemma flatten_ne_nil (lm : Nat) : ∀ h s pid par lo hi,
    WFS lm s h pid par lo hi → flatten s h pid ≠ [] := by
  intro h
  induction h with
  | zero =>
    intro s pid par lo hi hw
    exact hw.elim
  | succ h ih =>
    intro s pid par lo hi hw
    rcases hn : getNode s pid with ⟨sid, p0, nx, mx, es⟩ | ⟨sid, p0, mx, es⟩
    · rw [WFS_leaf_iff lm h par lo hi hn] at hw
      rw [flatten_leaf h hn]
      exact hw.2.2.2.1
    · rw [WFS_internal_iff lm h par lo hi hn] at hw
      obtain ⟨h1, h2, h3, h4, h5, h6⟩ := hw
      rw [flatten_internal h hn]
      intro hc
      have h0len : 0 < es.length := by
        cases es with
        | nil => exact absurd rfl h3
        | cons a l => simp
      have hch := ih s (es.getD 0 (0, 0)).2 (some pid) _ _ (h6 0 h0len)
      apply hch
      have hmem : flatten s h (es.getD 0 (0, 0)).2 ∈
          es.map (fun kc => flatten s h kc.2) := by
        apply List.mem_map_of_mem
        exact getD_mem' es 0 (0, 0) h0len
      exact List.flatten_eq_nil_iff.mp hc _ hmem

lemma setParent_self (n : BNode) (p : Option Nat) (hp : n.parent = p) :
    n.setParent p = n := by
  cases n with
  | leaf i q nx m es =>
    show BNode.leaf i p nx m es = BNode.leaf i q nx m es
    rw [show q = p from hp]
  | internal i q m es =>
    show BNode.internal i p m es = BNode.internal i q m es
    rw [show q = p from hp]

/-- Writing the current content back changes no observation. -/
lemma writeNode_self_obs (s : PageStore) (q : Nat) (n : BNode)
    (hn : getNode s q = n) :
    (∀ p, getNode (writeNode s q n) p = getNode s p) ∧
    (∀ p, (lookupPage (writeNode s q n).pages p).isSome =
      (lookupPage s.pages p).isSome) ∧
    (writeNode s q n).nextPid = s.nextPid := by
  refine ⟨?_, writeNode_isSome s q n, writeNode_nextPid s q n⟩
  intro p
  rcases hres : lookupPage s.pages q with _ | v
  · simp only [writeNode, hres]
  · rw [getNode_writeNode s q n (by rw [hres]; rfl) p]
    by_cases hp : p = q
    · rw [if_pos hp, hp, hn]
    · rw [if_neg hp]

/-- Restricted congruence for contexts: nothing in the context's pages
changed. -/
lemma CtxOK_congr (lm : Nat) {s s' : PageStore} : ∀ ctx h c lo hi,
    (∀ p ∈ ctxPids s ctx h c, getNode s' p = getNode s p) →
    CtxOK lm s ctx h c lo hi → CtxOK lm s' ctx h c lo hi := by
  intro ctx
  induction ctx with
  | nil =>
    intro h c lo hi _ hc
    exact hc
  | cons f rest ih =>
    intro h c lo hi hpres hc
    obtain ⟨⟨mx, hmx⟩, h1, h2, h3, h4, h5, h6, h7⟩ := hc
    have hfmem : f.pid ∈ ctxPids s (f :: rest) h c := List.mem_cons_self _ _
    have hsibL : ∀ kc ∈ f.esL, ∀ p ∈ pids s h kc.2, getNode s' p = getNode s p := by
      intro kc hkc p hp
      apply hpres
      show p ∈ _ :: (_ ++ _) ++ _
      apply List.mem_cons_of_mem
      apply List.mem_append_left
      apply List.mem_append_left
      exact List.mem_flatten.mpr ⟨pids s h kc.2, List.mem_map_of_mem _ hkc, hp⟩
    have hsibR : ∀ kc ∈ f.esR, ∀ p ∈ pids s h kc.2, getNode s' p = getNode s p := by
      intro kc hkc p hp
      apply hpres
      show p ∈ _ :: (_ ++ _) ++ _
      apply List.mem_cons_of_mem
      apply List.mem_append_left
      apply List.mem_append_right
      exact List.mem_flatten.mpr ⟨pids s h kc.2, List.mem_map_of_mem _ hkc, hp⟩
    refine ⟨⟨mx, (hpres f.pid hfmem).trans hmx⟩, h1, h2, h3, h4, h5, ?_, ?_⟩
    · intro i hilt hine
      have hw := h6 i hilt hine
      have hkcmem : (f.plugged c).getD i (0, 0) ∈ f.esL ∨
          (f.plugged c).getD i (0, 0) ∈ f.esR := by
        have hsplit : f.plugged c = f.esL ++ (f.holeKey, c) :: f.esR := rfl
        rcases Nat.lt_or_ge i f.esL.length with hlt | hge
        · left
          rw [hsplit, EHT.getD_append_lt _ _ _ _ hlt]
          exact getD_mem' _ _ _ hlt
        · right
          have hgt : f.esL.length < i := by
            rcases Nat.eq_or_lt_of_le hge with rfl | h
            · exact absurd rfl hine
            · exact h
          rw [hsplit]
          have : i = f.esL.length + (i - f.esL.length) := by omega
          rw [this, EHT.getD_append_ge]
          have hi2 : i - f.esL.length = (i - f.esL.length - 1) + 1 := by omega
          rw [hi2]
          show ((f.holeKey, c) :: f.esR).getD (i - f.esL.length - 1 + 1) (0, 0) ∈ f.esR
          rw [show ((f.holeKey, c) :: f.esR).getD (i - f.esL.length - 1 + 1) (0, 0) =
            f.esR.getD (i - f.esL.length - 1) (0, 0) from rfl]
          apply getD_mem'
          have hplen : (f.plugged c).length = f.esL.length + f.esR.length + 1 :=
            plugged_length f c
          omega
      rcases hkcmem with hm | hm
      · exact (pres_congr h _ s s' (hsibL _ hm)).2.2 lm _ _ _ hw
      · exact (pres_congr h _ s s' (hsibR _ hm)).2.2 lm _ _ _ hw
    · apply ih (h + 1) f.pid f.lo f.hi ?_ h7
      intro p hp
      apply hpres
      show p ∈ _ :: (_ ++ _) ++ _
      apply List.mem_cons_of_mem
      exact List.mem_append_right _ hp

lemma ctxPids_congr {s s' : PageStore} : ∀ ctx h c,
    (∀ p ∈ ctxPids s ctx h c, getNode s' p = getNode s p) →
    ctxPids s' ctx h c = ctxPids s ctx h c := by
  intro ctx
  induction ctx with
  | nil => intro h c _; rfl
  | cons f rest ih =>
    intro h c hpres
    show f.pid :: (_ ++ _) ++ _ = f.pid :: (_ ++ _) ++ _
    have hL : f.esL.map (fun kc => pids s' h kc.2) =
        f.esL.map (fun kc => pids s h kc.2) := by
      apply List.map_congr_left
      intro kc hkc
      apply (pres_congr h kc.2 s s' ?_).1
      intro p hp
      apply hpres
      show p ∈ _ :: (_ ++ _) ++ _
      apply List.mem_cons_of_mem
      apply List.mem_append_left
      apply List.mem_append_left
      exact List.mem_flatten.mpr ⟨pids s h kc.2, List.mem_map_of_mem _ hkc, hp⟩
    have hR : f.esR.map (fun kc => pids s' h kc.2) =
        f.esR.map (fun kc => pids s h kc.2) := by
      apply List.map_congr_left
      intro kc hkc
      apply (pres_congr h kc.2 s s' ?_).1
      intro p hp
      apply hpres
      show p ∈ _ :: (_ ++ _) ++ _
      apply List.mem_cons_of_mem
      apply List.mem_append_left
      apply List.mem_append_right
      exact List.mem_flatten.mpr ⟨pids s h kc.2, List.mem_map_of_mem _ hkc, hp⟩
    rw [hL, hR, ih (h + 1) f.pid (fun p hp => hpres p (by
      show p ∈ _ :: (_ ++ _) ++ _
      apply List.mem_cons_of_mem
      exact List.mem_append_right _ hp))]

lemma ctxFlatten_congr {s s' : PageStore} : ∀ ctx h c x,
    (∀ p ∈ ctxPids s ctx h c, getNode s' p = getNode s p) →
    ctxFlatten s' ctx h c x = ctxFlatten s ctx h c x := by
  intro ctx
  induction ctx with
  | nil => intro h c x _; rfl
  | cons f rest ih =>
    intro h c x hpres
    show ctxFlatten s' rest (h + 1) f.pid _ = ctxFlatten s rest (h + 1) f.pid _
    have hL : f.esL.map (fun kc => flatten s' h kc.2) =
        f.esL.map (fun kc => flatten s h kc.2) := by
      apply List.map_congr_left
      intro kc hkc
      apply (pres_congr h kc.2 s s' ?_).2.1
      intro p hp
      apply hpres
      show p ∈ _ :: (_ ++ _) ++ _
      apply List.mem_cons_of_mem
      apply List.mem_append_left
      apply List.mem_append_left
      exact List.mem_flatten.mpr ⟨pids s h kc.2, List.mem_map_of_mem _ hkc, hp⟩
    have hR : f.esR.map (fun kc => flatten s' h kc.2) =
        f.esR.map (fun kc => flatten s h kc.2) := by
      apply List.map_congr_left
      intro kc hkc
      apply (pres_congr h kc.2 s s' ?_).2.1
      intro p hp
      apply hpres
      show p ∈ _ :: (_ ++ _) ++ _
      apply List.mem_cons_of_mem
      apply List.mem_append_left
      apply List.mem_append_right
      exact List.mem_flatten.mpr ⟨pids s h kc.2, List.mem_map_of_mem _ hkc, hp⟩
    rw [hL, hR, ih (h + 1) f.pid _ (fun p hp => hpres p (by
      show p ∈ _ :: (_ ++ _) ++ _
      apply List.mem_cons_of_mem
      exact List.mem_append_right _ hp))]

/-- Rewriting just the parent pointer of a subtree's root. -/
lemma WFS_reparent (lm : Nat) (h : Nat) (s : PageStore) (pid : Nat)
    (par par2 : Option Nat) (lo : Nat) (hi : Option Nat)
    (hw : WFS lm s h pid par lo hi)
    (hnd : (pids s h pid).Nodup)
    (hres : (lookupPage s.pages pid).isSome) :
    WFS lm (writeNode s pid ((getNode s pid).setParent par2)) h pid par2 lo hi ∧
    flatten (writeNode s pid ((getNode s pid).setParent par2)) h pid =
      flatten s h pid ∧
    pids (writeNode s pid ((getNode s pid).setParent par2)) h pid =
      pids s h pid := by
  obtain ⟨hh, rfl⟩ : ∃ hh, h = hh + 1 := by
    cases h with
    | zero => exact hw.elim
    | succ hh => exact ⟨hh, rfl⟩
  obtain ⟨nd0, hn0⟩ : ∃ nd0, getNode s pid = nd0 := ⟨_, rfl⟩
  rw [hn0]
  rcases nd0 with ⟨sid, p0, nx, mx, es⟩ | ⟨sid, p0, mx, es⟩
  · have hwr : ∀ p,
        getNode (writeNode s pid ((BNode.leaf sid p0 nx mx es).setParent par2)) p =
        if p = pid then (BNode.leaf sid p0 nx mx es).setParent par2
        else getNode s p :=
      getNode_writeNode s pid _ hres
    rw [WFS_leaf_iff lm hh par lo hi hn0] at hw
    have hn' : getNode (writeNode s pid
        ((BNode.leaf sid p0 nx mx es).setParent par2)) pid =
        BNode.leaf sid par2 nx mx es := by
      rw [hwr pid, if_pos rfl]
      rfl
    refine ⟨?_, ?_, ?_⟩
    · rw [WFS_leaf_iff lm hh par2 lo hi hn']
      exact ⟨hw.1, rfl, hw.2.2.1, hw.2.2.2.1, hw.2.2.2.2.1, hw.2.2.2.2.2.1,
        hw.2.2.2.2.2.2⟩
    · rw [flatten_leaf hh hn', flatten_leaf hh hn0]
    · rw [pids_leaf hh hn', pids_leaf hh hn0]
  · have hwr : ∀ p,
        getNode (writeNode s pid ((BNode.internal sid p0 mx es).setParent par2)) p =
        if p = pid then (BNode.internal sid p0 mx es).setParent par2
        else getNode s p :=
      getNode_writeNode s pid _ hres
    rw [WFS_internal_iff lm hh par lo hi hn0] at hw
    obtain ⟨h1, h2, h3, h4, h5, h6⟩ := hw
    have hn' : getNode (writeNode s pid
        ((BNode.internal sid p0 mx es).setParent par2)) pid =
        BNode.internal sid par2 mx es := by
      rw [hwr pid, if_pos rfl]
      rfl
    have hnd2 : pid ∉ (es.map (fun kc => pids s hh kc.2)).flatten := by
      rw [pids_internal hh hn0] at hnd
      exact (List.nodup_cons.mp hnd).1
    have hch : ∀ kc ∈ es, ∀ p ∈ pids s hh kc.2,
        getNode (writeNode s pid ((BNode.internal sid p0 mx es).setParent par2)) p =
          getNode s p := by
      intro kc hkc p hp
      rw [hwr p]
      rw [if_neg ?_]
      intro hc
      apply hnd2
      rw [← hc]
      exact List.mem_flatten.mpr ⟨pids s hh kc.2, List.mem_map_of_mem _ hkc, hp⟩
    refine ⟨?_, ?_, ?_⟩
    · rw [WFS_internal_iff lm hh par2 lo hi hn']
      refine ⟨h1, rfl, h3, h4, h5, ?_⟩
      intro i hilt
      exact (pres_congr hh _ s _ (hch _ (getD_mem' es i (0, 0) hilt))).2.2
        lm _ _ _ (h6 i hilt)
    · rw [flatten_internal hh hn', flatten_internal hh hn0]
      congr 1
      exact List.map_congr_left (fun kc hkc => (pres_congr hh _ s _ (hch kc hkc)).2.1)
    · rw [pids_internal hh hn', pids_internal hh hn0]
      congr 2
      exact List.map_congr_left (fun kc hkc => (pres_congr hh _ s _ (hch kc hkc)).1)

lemma fetchPage_fst (s : PageStore) (q : Nat) :
    (fetchPage s q).1 = getNode s q := by
  unfold fetchPage getNode
  rcases hl : lookupPage s.pages q with _ | ⟨pin, d, n⟩ <;> simp [hl]

lemma setParent_parent (n : BNode) (p : Option Nat) :
    (n.setParent p).parent = p := by
  cases n <;> rfl

lemma setParent_setParent (n : BNode) (p q : Option Nat) :
    (n.setParent p).setParent q = n.setParent q := by
  cases n <;> rfl

lemma nodup_key_unique : ∀ {es : List (Nat × Nat)},
    (es.map Prod.fst).Nodup → ∀ {a b : Nat × Nat}, a ∈ es → b ∈ es →
    a.1 = b.1 → a = b := by
  intro es
  induction es with
  | nil =>
    intro _ a b ha
    exact absurd ha (List.not_mem_nil a)
  | cons e rest ih =>
    intro hnd a b ha hb hk
    rw [List.map_cons, List.nodup_cons] at hnd
    rcases List.mem_cons.mp ha with rfl | ha' <;>
      rcases List.mem_cons.mp hb with rfl | hb'
    · rfl
    · exact absurd (hk ▸ List.mem_map_of_mem Prod.fst hb') hnd.1
    · exact absurd (hk ▸ List.mem_map_of_mem Prod.fst ha') hnd.1
    · exact ih hnd.2 ha' hb' hk

lemma specLookup_eq_of_mem {es : List (Nat × Nat)} {k v : Nat}
    (hnd : (es.map Prod.fst).Nodup) (hmem : (k, v) ∈ es) :
    specLookup es k = some v := by
  unfold specLookup
  rcases hf : es.find? (fun e => e.1 = k) with _ | e
  · have := List.find?_eq_none.mp hf (k, v) hmem
    simp at this
  · have h1 : e ∈ es := List.mem_of_find?_eq_some hf
    have h2 : e.1 = k := by
      have := List.find?_some hf
      simpa using this
    have h3 : e = (k, v) := nodup_key_unique hnd h1 hmem (by rw [h2])
    rw [hf, h3]
    rfl

lemma specLookup_eq_none {es : List (Nat × Nat)} {k : Nat}
    (habs : k ∉ es.map Prod.fst) : specLookup es k = none := by
  unfold specLookup
  have hn : es.find? (fun e => e.1 = k) = none := by
    refine List.find?_eq_none.mpr (fun x hx hc => habs ?_)
    have hxk : x.1 = k := of_decide_eq_true hc
    rw [← hxk]
    exact List.mem_map_of_mem Prod.fst hx
  rw [hn]
  rfl

lemma inserted_perm (es : List (Nat × Nat)) (idx : Nat) (kv : Nat × Nat) :
    (es.take idx ++ [kv] ++ es.drop idx).Perm (kv :: es) := by
  have : es.take idx ++ [kv] ++ es.drop idx =
      es.take idx ++ kv :: es.drop idx := by simp
  rw [this]
  refine List.perm_middle.trans ?_
  rw [List.take_append_drop]

lemma mem_take_idx {α : Type} {es : List α} {j : Nat} {a : α} (d : α)
    (ha : a ∈ es.take j) :
    ∃ i, i < j ∧ i < es.length ∧ es.getD i d = a := by
  obtain ⟨i, hig⟩ := List.mem_iff_get.mp ha
  have hij : i.1 < j := by
    have h1 := i.2
    have h2 := List.length_take j es
    omega
  have hilen : i.1 < es.length := by
    have h1 := i.2
    have h2 := List.length_take j es
    omega
  exact ⟨i.1, hij, hilen,
    (List.getD_eq_get es d hilen).trans ((List.get_take' es).symm.trans hig)⟩

lemma mem_drop_idx {α : Type} {es : List α} {j : Nat} {a : α} (d : α)
    (ha : a ∈ es.drop j) :
    ∃ i, j ≤ i ∧ i < es.length ∧ es.getD i d = a := by
  obtain ⟨i, hig⟩ := List.mem_iff_get.mp ha
  have hilen : j + i.1 < es.length := by
    have h1 := i.2
    have h2 := List.length_drop j es
    omega
  exact ⟨j + i.1, by omega, hilen,
    (List.getD_eq_get es d hilen).trans ((List.get_drop' es).symm.trans hig)⟩

lemma insert_sorted (es : List (Nat × Nat)) (key value idx : Nat)
    (hs : List.Pairwise (fun a b : Nat × Nat => a.1 < b.1) es)
    (hlt : ∀ j, j < idx → (es.getD j (0, 0)).1 < key)
    (hgt : ∀ j, idx ≤ j → j < es.length → key < (es.getD j (0, 0)).1) :
    List.Pairwise (fun a b : Nat × Nat => a.1 < b.1)
      (es.take idx ++ [(key, value)] ++ es.drop idx) := by
  rw [List.append_assoc]
  rw [List.pairwise_append]
  refine ⟨hs.sublist (List.take_sublist idx es), ?_, ?_⟩
  · rw [List.singleton_append, List.pairwise_cons]
    refine ⟨?_, hs.sublist (List.drop_sublist idx es)⟩
    intro b hb
    obtain ⟨i, hge, hlen, hgd⟩ := mem_drop_idx (0, 0) hb
    rw [← hgd]
    exact hgt i hge hlen
  · intro a ha b hb
    obtain ⟨i, hij, hilen, hgd⟩ := mem_take_idx (0, 0) ha
    rcases List.mem_append.mp hb with hb1 | hb2
    · rw [List.mem_singleton] at hb1
      rw [hb1, ← hgd]
      exact hlt i hij
    · obtain ⟨i2, hge2, hlen2, hgd2⟩ := mem_drop_idx (0, 0) hb2
      rw [← hgd, ← hgd2]
      exact sorted_getD hs (by omega) hlen2

lemma leafInsert_spec {sid : Nat} {p0 nx : Option Nat} {mx : Nat}
    {es : List (Nat × Nat)} (lm key value : Nat)
    (hmx : mx = lm) (hroom : es.length < lm)
    (hs : List.Pairwise (fun a b : Nat × Nat => a.1 < b.1) es)
    (hfresh : key ∉ es.map Prod.fst) :
    ∃ idx : Nat, (BNode.leaf sid p0 nx mx es).leafInsert key value =
      some (BNode.leaf sid p0 nx mx (es.take idx ++ [(key, value)] ++ es.drop idx)) ∧
      idx ≤ es.length ∧
      (∀ j, j < idx → (es.getD j (0, 0)).1 < key) ∧
      (∀ j, idx ≤ j → j < es.length → key < (es.getD j (0, 0)).1) := by
  obtain ⟨i, hfki, hile, hlt, hgt⟩ := findKeyIndex_spec es key hs hfresh
  refine ⟨i, ?_, hile, hlt, hgt⟩
  show (if es.length ≥ mx then none
    else match findKeyIndex es key with
      | none => none
      | some idx => some (BNode.leaf sid p0 nx mx
          (es.take idx.toNat ++ [(key, value)] ++ es.drop idx.toNat))) = _
  rw [if_neg (by omega)]
  rw [hfki]
  simp [Int.toNat_natCast]
lemma writeNode_deleteCalls (s : PageStore) (pid : Nat) (n : BNode) :
    (writeNode s pid n).deleteCalls = s.deleteCalls := by
  rcases hl : lookupPage s.pages pid with _ | ⟨pin, d, old⟩ <;>
    simp only [writeNode, hl]

lemma newPage_deleteCalls (s : PageStore) :
    (newPage s).2.deleteCalls = s.deleteCalls := rfl

lemma WFS_reparent_gen (lm h : Nat) (s s' : PageStore) (pid : Nat)
    (par par2 : Option Nat) (lo : Nat) (hi : Option Nat)
    (hw : WFS lm s h pid par lo hi)
    (hnd : (pids s h pid).Nodup)
    (hroot : getNode s' pid = (getNode s pid).setParent par2)
    (hrest : ∀ p ∈ pids s h pid, p ≠ pid → getNode s' p = getNode s p) :
    WFS lm s' h pid par2 lo hi ∧
    flatten s' h pid = flatten s h pid ∧
    pids s' h pid = pids s h pid := by
  obtain ⟨hh, rfl⟩ : ∃ hh, h = hh + 1 := by
    cases h with
    | zero => exact hw.elim
    | succ hh => exact ⟨hh, rfl⟩
  obtain ⟨nd0, hn0⟩ : ∃ nd0, getNode s pid = nd0 := ⟨_, rfl⟩
  rw [hn0] at hroot
  rcases nd0 with ⟨sid, p0, nx, mx, es⟩ | ⟨sid, p0, mx, es⟩
  · rw [WFS_leaf_iff lm hh par lo hi hn0] at hw
    have hn' : getNode s' pid = BNode.leaf sid par2 nx mx es := hroot
    refine ⟨?_, ?_, ?_⟩
    · rw [WFS_leaf_iff lm hh par2 lo hi hn']
      exact ⟨hw.1, rfl, hw.2.2.1, hw.2.2.2.1, hw.2.2.2.2.1, hw.2.2.2.2.2.1,
        hw.2.2.2.2.2.2⟩
    · rw [flatten_leaf hh hn', flatten_leaf hh hn0]
    · rw [pids_leaf hh hn', pids_leaf hh hn0]
  · rw [WFS_internal_iff lm hh par lo hi hn0] at hw
    obtain ⟨h1, h2, h3, h4, h5, h6⟩ := hw
    have hn' : getNode s' pid = BNode.internal sid par2 mx es := hroot
    have hnd2 : pid ∉ (es.map (fun kc => pids s hh kc.2)).flatten := by
      rw [pids_internal hh hn0] at hnd
      exact (List.nodup_cons.mp hnd).1
    have hch : ∀ kc ∈ es, ∀ p ∈ pids s hh kc.2, getNode s' p = getNode s p := by
      intro kc hkc p hp
      have hmem : p ∈ pids s (hh + 1) pid := by
        rw [pids_internal hh hn0]
        exact List.mem_cons_of_mem _
          (List.mem_flatten.mpr ⟨pids s hh kc.2, List.mem_map_of_mem _ hkc, hp⟩)
      refine hrest p hmem ?_
      intro hc
      apply hnd2
      rw [← hc]
      exact List.mem_flatten.mpr ⟨pids s hh kc.2, List.mem_map_of_mem _ hkc, hp⟩
    refine ⟨?_, ?_, ?_⟩
    · rw [WFS_internal_iff lm hh par2 lo hi hn']
      refine ⟨h1, rfl, h3, h4, h5, ?_⟩
      intro i hilt
      exact (pres_congr hh _ s _ (hch _ (getD_mem' es i (0, 0) hilt))).2.2
        lm _ _ _ (h6 i hilt)
    · rw [flatten_internal hh hn', flatten_internal hh hn0]
      congr 1
      exact List.map_congr_left (fun kc hkc => (pres_congr hh _ s _ (hch kc hkc)).2.1)
    · rw [pids_internal hh hn', pids_internal hh hn0]
      congr 2
      exact List.map_congr_left (fun kc hkc => (pres_congr hh _ s _ (hch kc hkc)).1)

/-- One iteration of the `Split(internal)` re-parenting loop. -/
def reparentStep (newPid : Nat) (st : PageStore) (child : Nat) : PageStore :=
  let f := fetchPage st child
  unpinPage (writeNode f.2 child (f.1.setParent (some newPid))) child true

lemma reparentStep_obs (newPid : Nat) (st : PageStore) (c : Nat)
    (hres : (lookupPage st.pages c).isSome) :
    (∀ p, getNode (reparentStep newPid st c) p =
      if p = c then (getNode st c).setParent (some newPid) else getNode st p) ∧
    (∀ p, (lookupPage (reparentStep newPid st c).pages p).isSome =
      (lookupPage st.pages p).isSome) ∧
    (reparentStep newPid st c).nextPid = st.nextPid ∧
    (reparentStep newPid st c).deleteCalls = st.deleteCalls := by
  have hres2 : (lookupPage ((fetchPage st c).2).pages c).isSome := by
    rw [fetchPage_isSome st c hres]
    exact hres
  refine ⟨?_, ?_, ?_, ?_⟩
  · intro p
    show getNode (unpinPage (writeNode (fetchPage st c).2 c
      ((fetchPage st c).1.setParent (some newPid))) c true) p = _
    rw [getNode_unpinPage]
    rw [getNode_writeNode _ c _ hres2 p]
    rw [fetchPage_fst]
    by_cases hp : p = c
    · rw [if_pos hp, if_pos hp]
    · rw [if_neg hp, if_neg hp]
      exact getNode_fetchPage st c p
  · intro p
    show (lookupPage ((unpinPage (writeNode (fetchPage st c).2 c
      ((fetchPage st c).1.setParent (some newPid))) c true)).pages p).isSome = _
    rw [unpinPage_isSome, writeNode_isSome, fetchPage_isSome st c hres]
  · show (unpinPage (writeNode (fetchPage st c).2 c
      ((fetchPage st c).1.setParent (some newPid))) c true).nextPid = _
    rw [nextPid_unpinPage, writeNode_nextPid, nextPid_fetchPage]
  · show (unpinPage (writeNode (fetchPage st c).2 c
      ((fetchPage st c).1.setParent (some newPid))) c true).deleteCalls = _
    rw [deleteCalls_unpinPage, writeNode_deleteCalls, deleteCalls_fetchPage]

lemma reparent_fold (newPid : Nat) : ∀ (cs : List Nat) (s : PageStore),
    (∀ c ∈ cs, (lookupPage s.pages c).isSome) →
    (∀ p, getNode (cs.foldl (reparentStep newPid) s) p =
      if p ∈ cs then (getNode s p).setParent (some newPid) else getNode s p) ∧
    (∀ p, (lookupPage (cs.foldl (reparentStep newPid) s).pages p).isSome =
      (lookupPage s.pages p).isSome) ∧
    (cs.foldl (reparentStep newPid) s).nextPid = s.nextPid ∧
    (cs.foldl (reparentStep newPid) s).deleteCalls = s.deleteCalls := by
  intro cs
  induction cs with
  | nil =>
    intro s _
    exact ⟨fun p => by simp, fun p => rfl, rfl, rfl⟩
  | cons c rest ih =>
    intro s hres
    obtain ⟨hg, hi, hn, hd⟩ :=
      reparentStep_obs newPid s c (hres c (List.mem_cons_self _ _))
    have hres2 : ∀ c2 ∈ rest, (lookupPage (reparentStep newPid s c).pages c2).isSome := by
      intro c2 hc2
      rw [hi c2]
      exact hres c2 (List.mem_cons_of_mem _ hc2)
    obtain ⟨ihg, ihi, ihn, ihd⟩ := ih (reparentStep newPid s c) hres2
    rw [List.foldl_cons]
    refine ⟨?_, ?_, ?_, ?_⟩
    · intro p
      rw [ihg p, hg p]
      by_cases hpr : p ∈ rest
      · rw [if_pos hpr, if_pos (List.mem_cons_of_mem _ hpr)]
        by_cases hpc : p = c
        · rw [if_pos hpc, setParent_setParent, hpc]
        · rw [if_neg hpc]
      · rw [if_neg hpr]
        by_cases hpc : p = c
        · rw [if_pos hpc, hpc, if_pos (List.mem_cons_self _ _)]
        · rw [if_neg hpc, if_neg (by
            intro hc
            rcases List.mem_cons.mp hc with h | h
            · exact hpc h
            · exact hpr h)]
    · intro p
      rw [ihi p, hi p]
    · rw [ihn, hn]
    · rw [ihd, hd]
lemma findIdx_first {α : Type} (p : α → Bool) : ∀ (A : List α) (x : α) (B : List α),
    (∀ a ∈ A, p a = false) → p x = true →
    (A ++ x :: B).findIdx? p = some A.length := by
  intro A
  induction A with
  | nil =>
    intro x B _ hx
    rw [List.nil_append, List.findIdx?_cons, if_pos hx]
    rfl
  | cons a A ih =>
    intro x B hA hx
    rw [List.cons_append, List.findIdx?_cons,
      if_neg (by rw [hA a (List.mem_cons_self _ _)]; simp), List.findIdx?_succ]
    rw [ih x B (fun a ha => hA a (List.mem_cons_of_mem _ ha)) hx]
    rfl

lemma getD_append_left {α : Type} (l1 l2 : List α) (n : Nat) (d : α)
    (h : n < l1.length) : (l1 ++ l2).getD n d = l1.getD n d := by
  induction l1 generalizing n with
  | nil => simp at h
  | cons a l ih =>
    cases n with
    | zero => rfl
    | succ n =>
      show (l ++ l2).getD n d = l.getD n d
      exact ih n (by simpa using h)

lemma getD_append_right' {α : Type} (l1 l2 : List α) (n : Nat) (d : α)
    (h : l1.length ≤ n) : (l1 ++ l2).getD n d = l2.getD (n - l1.length) d := by
  induction l1 generalizing n with
  | nil => simp
  | cons a l ih =>
    cases n with
    | zero => simp at h
    | succ n =>
      show (l ++ l2).getD n d = _
      rw [ih n (by simpa using h)]
      have he : n + 1 - (a :: l).length = n - l.length := by
        simp
      rw [he]

lemma insertNodeAfter_eq (pi0 : Nat) (p : Option Nat) (m : Nat)
    (esL : List (Nat × Nat)) (hk oldV : Nat) (esR : List (Nat × Nat))
    (newK newV : Nat)
    (hL : ∀ kc ∈ esL, kc.2 ≠ oldV) :
    (BNode.internal pi0 p m (esL ++ (hk, oldV) :: esR)).insertNodeAfter
        oldV newK newV =
      BNode.internal pi0 p m (esL ++ (hk, oldV) :: (newK, newV) :: esR) := by
  unfold BNode.insertNodeAfter
  show (match List.findIdx? (fun e => decide (e.2 = oldV)) (esL ++ (hk, oldV) :: esR) with
    | none => BNode.internal pi0 p m (esL ++ (hk, oldV) :: esR)
    | some oldIdx => BNode.internal pi0 p m
        ((esL ++ (hk, oldV) :: esR).take (oldIdx + 1) ++ [(newK, newV)] ++
         (esL ++ (hk, oldV) :: esR).drop (oldIdx + 1))) = _
  rw [findIdx_first (fun e => decide (e.2 = oldV)) esL (hk, oldV) esR
    (fun a ha => by simp [hL a ha]) (by simp)]
  have h1 : esL ++ (hk, oldV) :: esR = (esL ++ [(hk, oldV)]) ++ esR := by simp
  have hlen : (esL ++ [(hk, oldV)]).length = esL.length + 1 := by simp
  show BNode.internal pi0 p m
      ((esL ++ (hk, oldV) :: esR).take (esL.length + 1) ++ [(newK, newV)] ++
       (esL ++ (hk, oldV) :: esR).drop (esL.length + 1)) = _
  rw [h1]
  rw [List.take_left' hlen, List.drop_left' hlen]
  simp
/-- The child-list half of the internal-page invariant: non-empty,
weakly sorted separators bounded by the page's range, and each child a
well-formed subtree of the matching subrange, parented at `ppid`. -/
def ChildrenOK (lm : Nat) (s : PageStore) (h : Nat) (ppid : Nat)
    (es : List (Nat × Nat)) (lo : Nat) (hi : Option Nat) : Prop :=
  es ≠ [] ∧
  List.Pairwise (· ≤ ·) ((es.drop 1).map Prod.fst) ∧
  (∀ k ∈ (es.drop 1).map Prod.fst, lo ≤ k ∧ inHi k hi) ∧
  (∀ i, i < es.length →
    WFS lm s h (es.getD i (0, 0)).2 (some ppid) (childLo es lo i) (childHi es hi i))

lemma WFS_internal_children {s : PageStore} {pid sid : Nat} {p : Option Nat}
    {mx : Nat} {es : List (Nat × Nat)} (lm h : Nat) (par : Option Nat)
    (lo : Nat) (hi : Option Nat)
    (hn : getNode s pid = BNode.internal sid p mx es) :
    WFS lm s (h + 1) pid par lo hi ↔
      sid = pid ∧ p = par ∧ ChildrenOK lm s h pid es lo hi := by
  rw [WFS_internal_iff lm h par lo hi hn]
  unfold ChildrenOK
  tauto

lemma getD_take' {α : Type} : ∀ (es : List α) (j n : Nat) (d : α), n < j →
    (es.take j).getD n d = es.getD n d := by
  intro es
  induction es with
  | nil => intro j n d _; simp
  | cons a l ih =>
    intro j n d h
    cases j with
    | zero => omega
    | succ j =>
      cases n with
      | zero => rfl
      | succ n => exact ih j n d (by omega)

lemma drop_one_insert {α : Type} (Pl : List α) (j : Nat) (x : α)
    (hj : j < Pl.length) :
    (Pl.take (j + 1) ++ x :: Pl.drop (j + 1)).drop 1 =
      (Pl.drop 1).take j ++ x :: (Pl.drop 1).drop j := by
  cases Pl with
  | nil => simp at hj
  | cons a l => rfl

lemma insert_sorted_le (l : List Nat) (key idx : Nat)
    (hs : List.Pairwise (· ≤ ·) l)
    (hlt : ∀ j, j < idx → l.getD j 0 ≤ key)
    (hgt : ∀ j, idx ≤ j → j < l.length → key ≤ l.getD j 0) :
    List.Pairwise (· ≤ ·) (l.take idx ++ key :: l.drop idx) := by
  rw [List.pairwise_append]
  refine ⟨hs.sublist (List.take_sublist idx l), ?_, ?_⟩
  · rw [List.pairwise_cons]
    refine ⟨?_, hs.sublist (List.drop_sublist idx l)⟩
    intro b hb
    obtain ⟨i, hge, hlen, hgd⟩ := mem_drop_idx 0 hb
    rw [← hgd]
    exact hgt i hge hlen
  · intro a ha b hb
    obtain ⟨i, hij, hilen, hgd⟩ := mem_take_idx 0 ha
    rcases List.mem_cons.mp hb with rfl | hb2
    · rw [← hgd]
      exact hlt i hij
    · obtain ⟨i2, hge2, hlen2, hgd2⟩ := mem_drop_idx 0 hb2
      rw [← hgd, ← hgd2]
      exact pairwise_le_getD l hs (by omega) hlen2

lemma sep_lt_next (lm : Nat) (s : PageStore) (h : Nat) (ppid : Nat)
    (es : List (Nat × Nat)) (lo : Nat) (hi : Option Nat)
    (hch : ∀ i, i < es.length →
      WFS lm s h (es.getD i (0, 0)).2 (some ppid) (childLo es lo i) (childHi es hi i))
    (i : Nat) (h1 : 1 ≤ i) (h2 : i + 1 < es.length) :
    (es.getD i (0, 0)).1 < (es.getD (i + 1) (0, 0)).1 := by
  have hw := hch i (by omega)
  have hne := flatten_ne_nil lm h s _ _ _ _ hw
  obtain ⟨e, he⟩ := List.exists_mem_of_ne_nil _ hne
  have hb := flatten_bounds lm h s _ _ _ _ hw e he
  have hlo : childLo es lo i = (es.getD i (0, 0)).1 := by
    unfold childLo
    rw [if_neg (by omega)]
  have hhi : childHi es hi i = some ((es.getD (i + 1) (0, 0)).1) := by
    unfold childHi
    rw [if_pos h2]
  rw [hlo] at hb
  rw [hhi] at hb
  exact lt_of_le_of_lt hb.1 hb.2
end BTree
